import Mathlib

/-!
Byte-sliced compound predicate scan (`complex_predicates/Q15.cpp`).

A shallow embedding of the AVX2 byte-slice scan of
`Q15_cmp_with_literal_P_S` together with the helper kernels of
`avx-utility.h` and `types_simd.h`.

* A byte (`ByteUnit`, `uint8_t`) is a natural number below 256.
* A 256-bit register (`AvxUnit`, `__m256i`) is the family of its 32 byte lanes,
  lane 0 being the byte at the lowest address.
* Reference parameters that a kernel writes are returned as a new record; a
  reference parameter a kernel does not assign keeps the value it had on entry.
* Buffers are lists, a load or store outside its buffer yields `none`.
-/

namespace Q15

/-! ## `types_simd.h` -/

/-- The type `ByteUnit` (`uint8_t`). -/
abbrev ByteUnit := Fin 256

/-- The type `AvxUnit` (`__m256i`), as 32 byte lanes. -/
abbrev AvxUnit := Fin 32 → ByteUnit

/-- The enumeration `Bitwise`. -/
inductive Bitwise where
  | kSet
  | kAnd
  | kOr
  | kNeg
  deriving DecidableEq, Repr

/-- The enumeration `Comparator`. -/
inductive Comparator where
  | kEqual
  | kInequal
  | kLess
  | kGreater
  | kLessEqual
  | kGreaterEqual
  deriving DecidableEq, Repr

/-- The constant `NUM_WORD_BITS`. -/
def NUM_WORD_BITS : Nat := 64

/-- The constant `NUM_AVX_BITS`. -/
def NUM_AVX_BITS : Nat := 256

/-- The template `FLIP<T>` at `T = ByteUnit`: `offset = 1 << (sizeof(T)*8 - 1)`,
result `value ^ offset`. -/
def FLIP (value : ByteUnit) : ByteUnit :=
  ⟨value.val ^^^ (1 <<< (1 * 8 - 1)), Nat.xor_lt_two_pow (n := 8) value.isLt (by decide)⟩

/-- The conversion `static_cast<ByteUnit>` of an unsigned integer: the low 8 bits. -/
def toByteUnit (x : Nat) : ByteUnit := ⟨x % 256, Nat.mod_lt _ (by decide)⟩

/-! ## `avx-utility.h`: lane primitives -/

/-- The value of a byte read as a signed 8-bit integer (`epi8`). -/
def toInt8 (b : ByteUnit) : Int := if b.val < 128 then (b.val : Int) else (b.val : Int) - 256

/-- The intrinsic `_mm256_cmpgt_epi8`: per lane, all ones when `a > b` as signed bytes. -/
def mm256_cmpgt_epi8 (a b : AvxUnit) : AvxUnit :=
  fun i => if toInt8 (a i) > toInt8 (b i) then 255 else 0

/-- The intrinsic `_mm256_cmpeq_epi8`: per lane, all ones when the bytes are equal. -/
def mm256_cmpeq_epi8 (a b : AvxUnit) : AvxUnit :=
  fun i => if a i = b i then 255 else 0

/-- The function `avx_cmplt<ByteUnit>`: `_mm256_cmpgt_epi8(b, a)`. -/
def avx_cmplt (a b : AvxUnit) : AvxUnit := mm256_cmpgt_epi8 b a

/-- The function `avx_cmpgt<ByteUnit>`: `_mm256_cmpgt_epi8(a, b)`. -/
def avx_cmpgt (a b : AvxUnit) : AvxUnit := mm256_cmpgt_epi8 a b

/-- The function `avx_cmpeq<ByteUnit>`: `_mm256_cmpeq_epi8(b, a)`. -/
def avx_cmpeq (a b : AvxUnit) : AvxUnit := mm256_cmpeq_epi8 b a

/-- The function `avx_set1<ByteUnit>`: broadcast one byte to every lane. -/
def avx_set1 (a : ByteUnit) : AvxUnit := fun _ => a

/-- The function `avx_zero`. -/
def avx_zero : AvxUnit := fun _ => 0

/-- The function `avx_ones`: `_mm256_set1_epi64x(-1)`, every byte `0xFF`. -/
def avx_ones : AvxUnit := fun _ => 255

/-- The function `avx_and`. -/
def avx_and (a b : AvxUnit) : AvxUnit :=
  fun i => ⟨(a i).val &&& (b i).val, Nat.and_lt_two_pow (n := 8) _ (b i).isLt⟩

/-- The function `avx_or`. -/
def avx_or (a b : AvxUnit) : AvxUnit :=
  fun i => ⟨(a i).val ||| (b i).val, Nat.or_lt_two_pow (n := 8) (a i).isLt (b i).isLt⟩

/-- The function `avx_xor`. -/
def avx_xor (a b : AvxUnit) : AvxUnit :=
  fun i => ⟨(a i).val ^^^ (b i).val, Nat.xor_lt_two_pow (n := 8) (a i).isLt (b i).isLt⟩

/-- The function `avx_not`: `_mm256_xor_si256(a, avx_ones())`. -/
def avx_not (a : AvxUnit) : AvxUnit := avx_xor a avx_ones

/-- The function `avx_andnot`: `_mm256_andnot_si256(a, b)`, that is `(NOT a) AND b`. -/
def avx_andnot (a b : AvxUnit) : AvxUnit :=
  fun i => ⟨((a i).val ^^^ 255) &&& (b i).val, Nat.and_lt_two_pow (n := 8) _ (b i).isLt⟩

/-- The function `avx_iszero`: `_mm256_testz_si256(a, a)`, true when no bit of `a` is set. -/
def avx_iszero (a : AvxUnit) : Bool := (List.finRange 32).all (fun i => (a i).val == 0)

/-- The function `avx_load`: the 32 bytes of the buffer starting at position `pos`. -/
def avx_load (mem : List ByteUnit) (pos : Nat) : Option AvxUnit :=
  if pos + 32 ≤ mem.length then some (fun i => mem.getD (pos + i.val) 0) else none

/-- The intrinsic `_mm256_movemask_epi8` on lanes `0 .. n-1`: bit `i` of the result is the
most significant bit of byte lane `i`. -/
def movemaskUpTo (a : AvxUnit) : Nat → Nat
  | 0 => 0
  | n + 1 =>
    movemaskUpTo a n |||
      (if h : n < 32 then (if (a ⟨n, h⟩).val.testBit 7 then 1 <<< n else 0) else 0)

/-- The intrinsic `_mm256_movemask_epi8`: a 32-bit mask of the lanes' most significant bits. -/
def mm256_movemask_epi8 (a : AvxUnit) : Nat := movemaskUpTo a 32

/-! ## `avx-utility.h`: comparator kernels -/

/-- The three reference parameters `mask_less`, `mask_greater`, `mask_equal` of `computeKernel`. -/
structure TriMasks where
  mask_less : AvxUnit
  mask_greater : AvxUnit
  mask_equal : AvxUnit

/-- The five reference parameters of `computeKernelWithMask_FIRST` and `computeKernelWithMask`. -/
structure KernelMasks where
  mask_less : AvxUnit
  mask_greater : AvxUnit
  mask_equal : AvxUnit
  mask_success : AvxUnit
  mask_fail : AvxUnit

/-- The three output reference parameters of `computeForEarlyStop`. -/
structure AggMasks where
  output_equal : AvxUnit
  output_success : AvxUnit
  output_fail : AvxUnit

/-- The template `computeKernel<CMP, LAST_BYTE>`. -/
def computeKernel (CMP : Comparator) (LAST_BYTE : Bool) (byteslice1 byteslice2 : AvxUnit)
    (m : TriMasks) : TriMasks :=
  if !LAST_BYTE then
    match CMP with
    | .kEqual =>
      { m with mask_equal := avx_and m.mask_equal (avx_cmpeq byteslice1 byteslice2) }
    | .kInequal =>
      { m with mask_equal := avx_and m.mask_equal (avx_cmpeq byteslice1 byteslice2) }
    | .kLess | .kLessEqual =>
      let m := { m with mask_less := avx_or m.mask_less (avx_and m.mask_equal (avx_cmplt byteslice1 byteslice2)) }
      let m := { m with mask_greater := avx_or m.mask_greater (avx_and m.mask_equal (avx_cmpgt byteslice1 byteslice2)) }
      { m with mask_equal := avx_and m.mask_equal (avx_cmpeq byteslice1 byteslice2) }
    | .kGreater | .kGreaterEqual =>
      let m := { m with mask_less := avx_or m.mask_less (avx_and m.mask_equal (avx_cmplt byteslice1 byteslice2)) }
      let m := { m with mask_greater := avx_or m.mask_greater (avx_and m.mask_equal (avx_cmpgt byteslice1 byteslice2)) }
      { m with mask_equal := avx_and m.mask_equal (avx_cmpeq byteslice1 byteslice2) }
  else
    match CMP with
    | .kEqual | .kInequal =>
      { m with mask_equal := avx_and m.mask_equal (avx_cmpeq byteslice1 byteslice2) }
    | .kLessEqual =>
      let m := { m with mask_less := avx_or m.mask_less (avx_and m.mask_equal (avx_cmplt byteslice1 byteslice2)) }
      { m with mask_equal := avx_and m.mask_equal (avx_cmpeq byteslice1 byteslice2) }
    | .kLess =>
      { m with mask_less := avx_or m.mask_less (avx_and m.mask_equal (avx_cmplt byteslice1 byteslice2)) }
    | .kGreaterEqual =>
      let m := { m with mask_greater := avx_or m.mask_greater (avx_and m.mask_equal (avx_cmpgt byteslice1 byteslice2)) }
      { m with mask_equal := avx_and m.mask_equal (avx_cmpeq byteslice1 byteslice2) }
    | .kGreater =>
      { m with mask_greater := avx_or m.mask_greater (avx_and m.mask_equal (avx_cmpgt byteslice1 byteslice2)) }

/-- The template `computeKernelWithMask_FIRST<CMP>`. For `kEqual` and `kInequal` the
assignments of `mask_less` and `mask_greater` are commented out in the source, so these two
parameters keep the value they had on entry. -/
def computeKernelWithMask_FIRST (CMP : Comparator) (byteslice1 byteslice2 : AvxUnit)
    (m : KernelMasks) : KernelMasks :=
  match CMP with
  | .kEqual =>
    let m := { m with mask_equal := avx_cmpeq byteslice1 byteslice2 }
    let m := { m with mask_fail := avx_not m.mask_equal }
    { m with mask_success := avx_zero }
  | .kInequal =>
    let m := { m with mask_equal := avx_cmpeq byteslice1 byteslice2 }
    let m := { m with mask_success := avx_not m.mask_equal }
    { m with mask_fail := avx_zero }
  | .kLess | .kLessEqual =>
    let m := { m with mask_less := avx_cmplt byteslice1 byteslice2 }
    let m := { m with mask_greater := avx_cmpgt byteslice1 byteslice2 }
    let m := { m with mask_equal := avx_cmpeq byteslice1 byteslice2 }
    let m := { m with mask_fail := m.mask_greater }
    { m with mask_success := m.mask_less }
  | .kGreater | .kGreaterEqual =>
    let m := { m with mask_less := avx_cmplt byteslice1 byteslice2 }
    let m := { m with mask_greater := avx_cmpgt byteslice1 byteslice2 }
    let m := { m with mask_equal := avx_cmpeq byteslice1 byteslice2 }
    let m := { m with mask_fail := m.mask_less }
    { m with mask_success := m.mask_greater }

/-- The template `computeKernelWithMask<CMP>` (the refinement kernel). -/
def computeKernelWithMask (CMP : Comparator) (byteslice1 byteslice2 : AvxUnit)
    (m : KernelMasks) : KernelMasks :=
  match CMP with
  | .kEqual =>
    let m := { m with mask_equal := avx_and m.mask_equal (avx_cmpeq byteslice1 byteslice2) }
    let m := { m with mask_fail := avx_not m.mask_equal }
    { m with mask_success := avx_zero }
  | .kInequal =>
    let m := { m with mask_equal := avx_and m.mask_equal (avx_cmpeq byteslice1 byteslice2) }
    let m := { m with mask_success := avx_not m.mask_equal }
    { m with mask_fail := avx_zero }
  | .kLess | .kLessEqual =>
    let m := { m with mask_less := avx_or m.mask_less (avx_and m.mask_equal (avx_cmplt byteslice1 byteslice2)) }
    let m := { m with mask_greater := avx_or m.mask_greater (avx_and m.mask_equal (avx_cmpgt byteslice1 byteslice2)) }
    let m := { m with mask_equal := avx_and m.mask_equal (avx_cmpeq byteslice1 byteslice2) }
    let m := { m with mask_fail := m.mask_greater }
    { m with mask_success := m.mask_less }
  | .kGreater | .kGreaterEqual =>
    let m := { m with mask_less := avx_or m.mask_less (avx_and m.mask_equal (avx_cmplt byteslice1 byteslice2)) }
    let m := { m with mask_greater := avx_or m.mask_greater (avx_and m.mask_equal (avx_cmpgt byteslice1 byteslice2)) }
    let m := { m with mask_equal := avx_and m.mask_equal (avx_cmpeq byteslice1 byteslice2) }
    let m := { m with mask_fail := m.mask_less }
    { m with mask_success := m.mask_greater }

/-- The template `computeForEarlyStop<OP>`. The switch has cases for `kAnd` and `kOr` only;
for the other two operators the outputs keep the value they had on entry. -/
def computeForEarlyStop (OP : Bitwise)
    (input_equal_1 input_success_1 input_fail_1 : AvxUnit)
    (input_equal_2 input_success_2 input_fail_2 : AvxUnit) (out : AggMasks) : AggMasks :=
  match OP with
  | .kAnd =>
    let out := { out with output_equal := avx_or (avx_andnot input_fail_1 input_equal_2) (avx_andnot input_fail_2 input_equal_1) }
    let out := { out with output_success := avx_and input_success_1 input_success_2 }
    { out with output_fail := avx_or input_fail_1 input_fail_2 }
  | .kOr =>
    let out := { out with output_equal := avx_or (avx_andnot input_success_1 input_equal_2) (avx_andnot input_success_2 input_equal_1) }
    let out := { out with output_success := avx_or input_success_1 input_success_2 }
    { out with output_fail := avx_and input_fail_1 input_fail_2 }
  | .kSet => out
  | .kNeg => out

/-- The template `computeMask_one_predicate<CMP>`: every case assigns `output_mmask`. -/
def computeMask_one_predicate (CMP : Comparator)
    (input_equal input_greater input_less : AvxUnit) : AvxUnit :=
  match CMP with
  | .kEqual => input_equal
  | .kInequal => avx_not input_equal
  | .kLess => input_less
  | .kLessEqual => avx_or input_less input_equal
  | .kGreater => input_greater
  | .kGreaterEqual => avx_or input_greater input_equal

/-- The template `computeConjunctivePredicates<OP>`; for an operator other than `kAnd` and
`kOr` the output keeps the value it had on entry. -/
def computeConjunctivePredicates (OP : Bitwise) (input_mmask_1 input_mmask_2 : AvxUnit)
    (output_mmask : AvxUnit) : AvxUnit :=
  match OP with
  | .kAnd => avx_and input_mmask_1 input_mmask_2
  | .kOr => avx_or input_mmask_1 input_mmask_2
  | .kSet => output_mmask
  | .kNeg => output_mmask

/-- The template `computeFinalMask<CMP1, CMP2, OP>`. -/
def computeFinalMask (CMP1 CMP2 : Comparator) (OP : Bitwise)
    (input_equal_1 input_greater_1 input_less_1 : AvxUnit)
    (input_equal_2 input_greater_2 input_less_2 : AvxUnit) (output_mmask : AvxUnit) : AvxUnit :=
  let output_mmask_1 :=
    match CMP1 with
    | .kEqual => input_equal_1
    | .kInequal => avx_not input_equal_1
    | .kLess => input_less_1
    | .kLessEqual => avx_or input_less_1 input_equal_1
    | .kGreater => input_greater_1
    | .kGreaterEqual => avx_or input_greater_1 input_equal_1
  let output_mmask_2 :=
    match CMP2 with
    | .kEqual => input_equal_2
    | .kInequal => avx_not input_equal_2
    | .kLess => input_less_2
    | .kLessEqual => avx_or input_less_2 input_equal_2
    | .kGreater => input_greater_2
    | .kGreaterEqual => avx_or input_greater_2 input_equal_2
  match OP with
  | .kAnd => avx_and output_mmask_1 output_mmask_2
  | .kOr => avx_or output_mmask_1 output_mmask_2
  | .kSet => output_mmask
  | .kNeg => output_mmask

/-! ## `Q15.cpp`: the scan driver -/

/-- The macro `FIRST_COMPARISON_TYPE` as shipped. -/
def FIRST_COMPARISON_TYPE : Comparator := Comparator.kGreater

/-- The macro `SECOND_COMPARISON_TYPE` as shipped. -/
def SECOND_COMPARISON_TYPE : Comparator := Comparator.kLess

/-- The macro `PREDICATE_TYPE` as shipped. -/
def PREDICATE_TYPE : Bitwise := Bitwise.kAnd

/-- The locals that one iteration of the batch loop declares without initialising them:
`m_less_1 .. m_fail_1`, `m_less_2 .. m_fail_2`, `agg_equal, agg_success, agg_fail` and
`m_result`. The record holds the indeterminate contents they have when they are declared. -/
structure BatchLocals where
  m_1 : KernelMasks
  m_2 : KernelMasks
  agg : AggMasks
  m_result : AvxUnit

/-- The literal preparation of `Q15_cmp_with_literal_P_S` for one literal: the statement
`literal <<= kNumPaddingBits_1` on a `uint32_t`, which wraps at `2^32`, and the loop over
`byte_id` that fills the array `mask_literal`: entry `byte_id` is the broadcast of
`FLIP(static_cast<ByteUnit>(literal >> 8*(kNumBytesPerCode_1 - 1 - byte_id)))`. -/
def mask_literal (literal kNumBytesPerCode_1 kNumPaddingBits_1 : Nat) : List AvxUnit :=
  let literal := (literal <<< kNumPaddingBits_1) % 2 ^ 32
  (List.range kNumBytesPerCode_1).map fun byte_id =>
    let byte := FLIP (toByteUnit (literal >>> (8 * (kNumBytesPerCode_1 - 1 - byte_id))))
    avx_set1 byte

/-- The body of the batch loop of `Q15_cmp_with_literal_P_S` up to `m_result`, for the 32
tuples starting at `pos = offset + i`: first-slice kernels, early-stop aggregation, the
refine stage guarded by `!avx_iszero(agg_equal)`, the two resolvers and the combiner.
The comparators and the combinator are the three macros of the file. The prefetch is a hint
without effect. An entry of a literal array is read with `getD`; both arrays have two
entries. -/
def scanBatch (CMP1 CMP2 : Comparator) (OP : Bitwise) (data_1 : List (List ByteUnit))
    (mask_literal_1 mask_literal_2 : List AvxUnit) (pos : Nat) (u : BatchLocals) :
    Option AvxUnit := do
  let m_1 := computeKernelWithMask_FIRST CMP1 (← avx_load (data_1.getD 0 []) pos)
    (mask_literal_1.getD 0 avx_zero) u.m_1
  let m_2 := computeKernelWithMask_FIRST CMP2 (← avx_load (data_1.getD 0 []) pos)
    (mask_literal_2.getD 0 avx_zero) u.m_2
  let agg := computeForEarlyStop OP m_1.mask_equal m_1.mask_success m_1.mask_fail
    m_2.mask_equal m_2.mask_success m_2.mask_fail u.agg
  if !avx_iszero agg.output_equal then
    let m_2 := { m_2 with mask_equal := avx_and m_2.mask_equal agg.output_equal }
    let m_1 := { m_1 with mask_equal := avx_and m_1.mask_equal agg.output_equal }
    let m_1 := computeKernelWithMask CMP1 (← avx_load (data_1.getD 1 []) pos)
      (mask_literal_1.getD 1 avx_zero) m_1
    let m_2 := computeKernelWithMask CMP2 (← avx_load (data_1.getD 1 []) pos)
      (mask_literal_2.getD 1 avx_zero) m_2
    let m_result_1 := computeMask_one_predicate CMP1 m_1.mask_equal m_1.mask_greater m_1.mask_less
    let m_result_2 := computeMask_one_predicate CMP2 m_2.mask_equal m_2.mask_greater m_2.mask_less
    pure (computeConjunctivePredicates OP m_result_1 m_result_2 u.m_result)
  else
    let m_result_1 := computeMask_one_predicate CMP1 m_1.mask_equal m_1.mask_greater m_1.mask_less
    let m_result_2 := computeMask_one_predicate CMP2 m_2.mask_equal m_2.mask_greater m_2.mask_less
    pure (computeConjunctivePredicates OP m_result_1 m_result_2 u.m_result)

/-- The batch loop `for (i = 0; i < NUM_WORD_BITS; i += NUM_AVX_BITS/8)` of
`Q15_cmp_with_literal_P_S`, which builds `bitvector_word` (a 64-bit word). `fuel` bounds the
number of evaluations of the loop condition. -/
def batchLoop (CMP1 CMP2 : Comparator) (OP : Bitwise) (uninit : Nat → BatchLocals)
    (data_1 : List (List ByteUnit)) (mask_literal_1 mask_literal_2 : List AvxUnit)
    (offset : Nat) : Nat → Nat → Nat → Option Nat
  | 0, _, _ => none
  | fuel + 1, i, bitvector_word =>
    if i < NUM_WORD_BITS then do
      let m_result ← scanBatch CMP1 CMP2 OP data_1 mask_literal_1 mask_literal_2 (offset + i)
        (uninit (offset + i))
      let mmask := mm256_movemask_epi8 m_result
      batchLoop CMP1 CMP2 OP uninit data_1 mask_literal_1 mask_literal_2 offset fuel
        (i + NUM_AVX_BITS / 8) (bitvector_word ||| (mmask <<< i) % 2 ^ 64)
    else some bitvector_word

/-- The store `_mm_stream_si64(&bitmap[bv_word_id], x)`. -/
def storeWord (bitmap : List Nat) (bv_word_id x : Nat) : Option (List Nat) :=
  if bv_word_id < bitmap.length then some (bitmap.set bv_word_id x) else none

/-- The word loop `for (offset = 0, bv_word_id = 0; offset < len; offset += NUM_WORD_BITS,
bv_word_id++)` of `Q15_cmp_with_literal_P_S`. `offset` is a `size_t`, so its increment wraps
at `2^64`. `fuel` bounds the number of evaluations of the loop condition; the batch loop
evaluates its own condition three times. -/
def wordLoop (CMP1 CMP2 : Comparator) (OP : Bitwise) (uninit : Nat → BatchLocals)
    (len : Nat) (data_1 : List (List ByteUnit)) (mask_literal_1 mask_literal_2 : List AvxUnit) :
    Nat → Nat → Nat → List Nat → Option (List Nat)
  | 0, _, _, _ => none
  | fuel + 1, offset, bv_word_id, bitmap =>
    if offset < len then do
      let bitvector_word ← batchLoop CMP1 CMP2 OP uninit data_1 mask_literal_1 mask_literal_2
        offset 3 0 0
      let x := bitvector_word
      let bitmap ← storeWord bitmap bv_word_id x
      wordLoop CMP1 CMP2 OP uninit len data_1 mask_literal_1 mask_literal_2 fuel
        ((offset + NUM_WORD_BITS) % 2 ^ 64) (bv_word_id + 1) bitmap
    else some bitmap

/-- The function `Q15_cmp_with_literal_P_S`. The comparators and the combinator are the
macros `FIRST_COMPARISON_TYPE`, `SECOND_COMPARISON_TYPE` and `PREDICATE_TYPE`, taken as
parameters; `uninit pos` is the indeterminate content of the uninitialised locals of the
batch at tuple `pos`. The argument
`kNumBytesPerCode_1` is overwritten with 2 on entry. The result is the bitmap after the
call, `none` when a load or store leaves its buffer or the word loop does not end; the
word loop evaluates its condition at most `len / 64 + 2` times when `offset` does not wrap. -/
def Q15_cmp_with_literal_P_S (CMP1 CMP2 : Comparator) (OP : Bitwise)
    (uninit : Nat → BatchLocals) (bitmap : List Nat) (len : Nat)
    (data_1 : List (List ByteUnit)) (literal_1 kNumBytesPerCode_1 kNumPaddingBits_1 : Nat)
    (literal_2 : Nat) : Option (List Nat) :=
  let kNumBytesPerCode_1 := (fun (_ : Nat) => 2) kNumBytesPerCode_1
  let mask_literal_1 := mask_literal literal_1 kNumBytesPerCode_1 kNumPaddingBits_1
  let mask_literal_2 := mask_literal literal_2 kNumBytesPerCode_1 kNumPaddingBits_1
  wordLoop CMP1 CMP2 OP uninit len data_1 mask_literal_1 mask_literal_2 (len / 64 + 2) 0 0 bitmap

/-! ## The column layout -/

/-- Modelled from the spec: the column builder `SetTuple`, which `run` calls and
whose definition is outside the scan's source file. Byte `byte_id` of a code: the code is
shifted left by the padding bits, cut into `kNumBytesPerCode` bytes, most significant
first, and every byte is bias-flipped. -/
def SetTuple_byte (value kNumBytesPerCode kNumPaddingBits byte_id : Nat) : ByteUnit :=
  FLIP (toByteUnit ((value <<< kNumPaddingBits) >>> (8 * (kNumBytesPerCode - 1 - byte_id))))

/-- Modelled from the spec: byte plane `byte_id` of a column of codes, one byte per tuple. -/
def columnPlane (values : List Nat) (kNumBytesPerCode kNumPaddingBits byte_id : Nat) :
    List ByteUnit :=
  values.map fun value => SetTuple_byte value kNumBytesPerCode kNumPaddingBits byte_id

/-- The comparison `a CMP b` on unsigned integers that a comparator kind denotes. -/
def Comparator.eval (CMP : Comparator) (a b : Nat) : Bool :=
  match CMP with
  | .kEqual => decide (a = b)
  | .kInequal => decide (a ≠ b)
  | .kLess => decide (a < b)
  | .kGreater => decide (a > b)
  | .kLessEqual => decide (a ≤ b)
  | .kGreaterEqual => decide (a ≥ b)

/-- The boolean combination that a combinator denotes; `kSet` and `kNeg` denote none. -/
def Bitwise.eval (OP : Bitwise) (x y : Bool) : Option Bool :=
  match OP with
  | .kAnd => some (x && y)
  | .kOr => some (x || y)
  | .kSet => none
  | .kNeg => none

/-! ## Vocabulary of the properties -/

/-- Bit `j` of byte lane `i` of a register. -/
def AvxUnit.bit (a : AvxUnit) (i : Fin 32) (j : Nat) : Bool := (a i).val.testBit j

/-- Bitwise containment of a mask in another: every bit set in `a` is set in `b`. -/
def AvxUnit.contained (a b : AvxUnit) : Prop := ∀ i j, a.bit i j = true → b.bit i j = true

/-- In lane `i`, exactly one of the three masks is set (all ones) and the other two are
clear (all zero). -/
def laneExactlyOne (mask_equal mask_less mask_greater : AvxUnit) (i : Fin 32) : Prop :=
  (mask_equal i = 255 ∧ mask_less i = 0 ∧ mask_greater i = 0) ∨
  (mask_equal i = 0 ∧ mask_less i = 255 ∧ mask_greater i = 0) ∨
  (mask_equal i = 0 ∧ mask_less i = 0 ∧ mask_greater i = 255)

/-- A register with the same byte in every lane, used for concrete inputs. -/
def constUnit (x : Nat) : AvxUnit := avx_set1 (toByteUnit x)

/-- Kernel masks that are zero everywhere, used for concrete inputs. -/
def zeroMasks : KernelMasks := ⟨avx_zero, avx_zero, avx_zero, avx_zero, avx_zero⟩

/-- The comparator kinds `<`, `<=`, `>`, `>=`, as opposed to `=` and `!=`. -/
def Comparator.isOrdering (CMP : Comparator) : Bool :=
  match CMP with
  | .kEqual | .kInequal => false
  | _ => true

instance (e l g : AvxUnit) (i : Fin 32) : Decidable (laneExactlyOne e l g i) := by
  unfold laneExactlyOne; infer_instance

/-- The byte of lane `i` of a byte-slice vector with its bias flip undone. -/
def laneByte (s : AvxUnit) (i : Fin 32) : Nat := (FLIP (s i)).val

/-- The code held by lane `i` of a list of byte-slice vectors, most significant slice
first: the bias flip of every byte is undone and the bytes are concatenated. -/
def laneCode (slices : List AvxUnit) (i : Fin 32) : Nat :=
  slices.foldl (fun acc s => acc * 256 + laneByte s i) 0

/-- The kernel chain of one predicate over the byte slices of a column and of a literal:
`computeKernelWithMask_FIRST` on slice 0 (`d0` against `l0`), then `computeKernelWithMask`
on every further pair of slices in most-significant-first order. -/
def kernelChain (CMP : Comparator) (d0 l0 : AvxUnit) (rest : List (AvxUnit × AvxUnit))
    (m : KernelMasks) : KernelMasks :=
  rest.foldl (fun m s => computeKernelWithMask CMP s.1 s.2 m)
    (computeKernelWithMask_FIRST CMP d0 l0 m)

/-- The kernel chain followed by `computeMask_one_predicate`. -/
def chainResult (CMP : Comparator) (d0 l0 : AvxUnit) (rest : List (AvxUnit × AvxUnit))
    (m : KernelMasks) : AvxUnit :=
  computeMask_one_predicate CMP (kernelChain CMP d0 l0 rest m).mask_equal
    (kernelChain CMP d0 l0 rest m).mask_greater (kernelChain CMP d0 l0 rest m).mask_less

/-- The success bit that the comparator table assigns to a prefix comparison of `c`
against `L`. -/
def successBit (CMP : Comparator) (c L : Nat) : Bool :=
  match CMP with
  | .kEqual => false
  | .kInequal => !decide (c = L)
  | .kLess | .kLessEqual => decide (c < L)
  | .kGreater | .kGreaterEqual => decide (L < c)

/-- The fail bit that the comparator table assigns to a prefix comparison of `c` against
`L`. -/
def failBit (CMP : Comparator) (c L : Nat) : Bool :=
  match CMP with
  | .kEqual => !decide (c = L)
  | .kInequal => false
  | .kLess | .kLessEqual => decide (L < c)
  | .kGreater | .kGreaterEqual => decide (c < L)

/-- The state of one predicate at bit `j` of lane `i` after a prefix of the byte slices,
`c` and `L` being the codes that the processed bytes of the column and of the literal
spell: equal tells `c = L`; for an ordering comparator less and greater tell `c < L` and
`L < c`; success and fail follow the comparator table. -/
def BitInv (CMP : Comparator) (m : KernelMasks) (i : Fin 32) (j : Nat) (c L : Nat) : Prop :=
  m.mask_equal.bit i j = decide (c = L) ∧
  (CMP.isOrdering = true →
    m.mask_less.bit i j = decide (c < L) ∧ m.mask_greater.bit i j = decide (L < c)) ∧
  m.mask_success.bit i j = successBit CMP c L ∧
  m.mask_fail.bit i j = failBit CMP c L

/-- The state of one predicate in lane `i` after a prefix of the byte slices: `BitInv` at
every bit of the lane. -/
def ChainInv (CMP : Comparator) (m : KernelMasks) (i : Fin 32) (c L : Nat) : Prop :=
  ∀ j, j < 8 → BitInv CMP m i j c L

/-- The variant of `scanBatch` with the early stop disabled: the refine stage, which
`scanBatch` guards by `!avx_iszero(agg_equal)`, is executed for every batch. -/
def scanBatch_refineAlways (CMP1 CMP2 : Comparator) (OP : Bitwise)
    (data_1 : List (List ByteUnit)) (mask_literal_1 mask_literal_2 : List AvxUnit) (pos : Nat)
    (u : BatchLocals) : Option AvxUnit := do
  let m_1 := computeKernelWithMask_FIRST CMP1 (← avx_load (data_1.getD 0 []) pos)
    (mask_literal_1.getD 0 avx_zero) u.m_1
  let m_2 := computeKernelWithMask_FIRST CMP2 (← avx_load (data_1.getD 0 []) pos)
    (mask_literal_2.getD 0 avx_zero) u.m_2
  let agg := computeForEarlyStop OP m_1.mask_equal m_1.mask_success m_1.mask_fail
    m_2.mask_equal m_2.mask_success m_2.mask_fail u.agg
  let m_2 := { m_2 with mask_equal := avx_and m_2.mask_equal agg.output_equal }
  let m_1 := { m_1 with mask_equal := avx_and m_1.mask_equal agg.output_equal }
  let m_1 := computeKernelWithMask CMP1 (← avx_load (data_1.getD 1 []) pos)
    (mask_literal_1.getD 1 avx_zero) m_1
  let m_2 := computeKernelWithMask CMP2 (← avx_load (data_1.getD 1 []) pos)
    (mask_literal_2.getD 1 avx_zero) m_2
  let m_result_1 := computeMask_one_predicate CMP1 m_1.mask_equal m_1.mask_greater m_1.mask_less
  let m_result_2 := computeMask_one_predicate CMP2 m_2.mask_equal m_2.mask_greater m_2.mask_less
  pure (computeConjunctivePredicates OP m_result_1 m_result_2 u.m_result)

/-- The batch loop of the variant with the early stop disabled. -/
def batchLoop_refineAlways (CMP1 CMP2 : Comparator) (OP : Bitwise) (uninit : Nat → BatchLocals)
    (data_1 : List (List ByteUnit)) (mask_literal_1 mask_literal_2 : List AvxUnit)
    (offset : Nat) : Nat → Nat → Nat → Option Nat
  | 0, _, _ => none
  | fuel + 1, i, bitvector_word =>
    if i < NUM_WORD_BITS then do
      let m_result ← scanBatch_refineAlways CMP1 CMP2 OP data_1 mask_literal_1 mask_literal_2
        (offset + i) (uninit (offset + i))
      let mmask := mm256_movemask_epi8 m_result
      batchLoop_refineAlways CMP1 CMP2 OP uninit data_1 mask_literal_1 mask_literal_2 offset
        fuel (i + NUM_AVX_BITS / 8) (bitvector_word ||| (mmask <<< i) % 2 ^ 64)
    else some bitvector_word

/-- The word loop of the variant with the early stop disabled. -/
def wordLoop_refineAlways (CMP1 CMP2 : Comparator) (OP : Bitwise) (uninit : Nat → BatchLocals)
    (len : Nat) (data_1 : List (List ByteUnit)) (mask_literal_1 mask_literal_2 : List AvxUnit) :
    Nat → Nat → Nat → List Nat → Option (List Nat)
  | 0, _, _, _ => none
  | fuel + 1, offset, bv_word_id, bitmap =>
    if offset < len then do
      let bitvector_word ← batchLoop_refineAlways CMP1 CMP2 OP uninit data_1 mask_literal_1
        mask_literal_2 offset 3 0 0
      let x := bitvector_word
      let bitmap ← storeWord bitmap bv_word_id x
      wordLoop_refineAlways CMP1 CMP2 OP uninit len data_1 mask_literal_1 mask_literal_2 fuel
        ((offset + NUM_WORD_BITS) % 2 ^ 64) (bv_word_id + 1) bitmap
    else some bitmap

/-- The variant of `Q15_cmp_with_literal_P_S` with the early stop disabled: the same
driver, except that the refine stage is executed for every batch regardless of
`agg_equal`. -/
def Q15_refineAlways (CMP1 CMP2 : Comparator) (OP : Bitwise)
    (uninit : Nat → BatchLocals) (bitmap : List Nat) (len : Nat)
    (data_1 : List (List ByteUnit)) (literal_1 kNumBytesPerCode_1 kNumPaddingBits_1 : Nat)
    (literal_2 : Nat) : Option (List Nat) :=
  let kNumBytesPerCode_1 := (fun (_ : Nat) => 2) kNumBytesPerCode_1
  let mask_literal_1 := mask_literal literal_1 kNumBytesPerCode_1 kNumPaddingBits_1
  let mask_literal_2 := mask_literal literal_2 kNumBytesPerCode_1 kNumPaddingBits_1
  wordLoop_refineAlways CMP1 CMP2 OP uninit len data_1 mask_literal_1 mask_literal_2
    (len / 64 + 2) 0 0 bitmap

/-- The result vector that a batch computes from the two loaded byte slices `d0`, `d1`
when the refine stage runs: the first-slice kernels, the masking of the two equal masks
with `agg_equal`, the refine kernels, the resolvers and the combiner. -/
def refinedResult (CMP1 CMP2 : Comparator) (OP : Bitwise) (d0 d1 : AvxUnit)
    (mask_literal_1 mask_literal_2 : List AvxUnit) (u : BatchLocals) : AvxUnit :=
  let m_1 := computeKernelWithMask_FIRST CMP1 d0 (mask_literal_1.getD 0 avx_zero) u.m_1
  let m_2 := computeKernelWithMask_FIRST CMP2 d0 (mask_literal_2.getD 0 avx_zero) u.m_2
  let agg := computeForEarlyStop OP m_1.mask_equal m_1.mask_success m_1.mask_fail
    m_2.mask_equal m_2.mask_success m_2.mask_fail u.agg
  let m_2 := { m_2 with mask_equal := avx_and m_2.mask_equal agg.output_equal }
  let m_1 := { m_1 with mask_equal := avx_and m_1.mask_equal agg.output_equal }
  let m_1 := computeKernelWithMask CMP1 d1 (mask_literal_1.getD 1 avx_zero) m_1
  let m_2 := computeKernelWithMask CMP2 d1 (mask_literal_2.getD 1 avx_zero) m_2
  computeConjunctivePredicates OP
    (computeMask_one_predicate CMP1 m_1.mask_equal m_1.mask_greater m_1.mask_less)
    (computeMask_one_predicate CMP2 m_2.mask_equal m_2.mask_greater m_2.mask_less) u.m_result

/-- The result vector that a batch computes from the loaded byte slice `d0` when the
refine stage is skipped. -/
def skippedResult (CMP1 CMP2 : Comparator) (OP : Bitwise) (d0 : AvxUnit)
    (mask_literal_1 mask_literal_2 : List AvxUnit) (u : BatchLocals) : AvxUnit :=
  let m_1 := computeKernelWithMask_FIRST CMP1 d0 (mask_literal_1.getD 0 avx_zero) u.m_1
  let m_2 := computeKernelWithMask_FIRST CMP2 d0 (mask_literal_2.getD 0 avx_zero) u.m_2
  computeConjunctivePredicates OP
    (computeMask_one_predicate CMP1 m_1.mask_equal m_1.mask_greater m_1.mask_less)
    (computeMask_one_predicate CMP2 m_2.mask_equal m_2.mask_greater m_2.mask_less) u.m_result

/-- The `agg_equal` vector of a batch, from the loaded byte slice `d0`. -/
def aggEqual (CMP1 CMP2 : Comparator) (OP : Bitwise) (d0 : AvxUnit)
    (mask_literal_1 mask_literal_2 : List AvxUnit) (u : BatchLocals) : AvxUnit :=
  let m_1 := computeKernelWithMask_FIRST CMP1 d0 (mask_literal_1.getD 0 avx_zero) u.m_1
  let m_2 := computeKernelWithMask_FIRST CMP2 d0 (mask_literal_2.getD 0 avx_zero) u.m_2
  (computeForEarlyStop OP m_1.mask_equal m_1.mask_success m_1.mask_fail
    m_2.mask_equal m_2.mask_success m_2.mask_fail u.agg).output_equal

/-- The masking `m_equal = avx_and(m_equal, agg_equal)` of the refine stage, on the record
of one predicate. -/
@[reducible] def maskEqual (m : KernelMasks) (agg_equal : AvxUnit) : KernelMasks :=
  { m with mask_equal := avx_and m.mask_equal agg_equal }

/-- The call of `computeMask_one_predicate` on the record of one predicate. -/
@[reducible] def resolveMasks (CMP : Comparator) (m : KernelMasks) : AvxUnit :=
  computeMask_one_predicate CMP m.mask_equal m.mask_greater m.mask_less

/-- The most significant bit of byte lane `t` of a register, `false` when `t` is not a
lane. -/
def laneMsb (a : AvxUnit) (t : Nat) : Bool :=
  if h : t < 32 then a.bit ⟨t, h⟩ 7 else false

/-- The two-byte code that the byte planes 0 and 1 hold for tuple `t`: the bias flip of the
two bytes is undone and the byte of plane 0 is the most significant. -/
def tupleCode (data_1 : List (List ByteUnit)) (t : Nat) : Nat :=
  (FLIP ((data_1.getD 0 []).getD t 0)).val * 256 + (FLIP ((data_1.getD 1 []).getD t 0)).val

/-- The two-byte code that lane `i` of the two literal vectors holds. -/
def literalCode (mask_literal : List AvxUnit) (i : Fin 32) : Nat :=
  laneByte (mask_literal.getD 0 avx_zero) i * 256 + laneByte (mask_literal.getD 1 avx_zero) i

/-- The lane of a batch in which tuple `t` is processed. -/
def laneOf (t : Nat) : Fin 32 := ⟨t % 32, Nat.mod_lt _ (by decide)⟩

/-- Batch locals that are zero everywhere, used for concrete inputs. -/
def zeroLocals : BatchLocals := ⟨zeroMasks, zeroMasks, ⟨avx_zero, avx_zero, avx_zero⟩, avx_zero⟩

/-- The six codes of the concrete scenario of the shipped run (bit width 12), followed by
58 padding tuples. -/
def scenarioValues : List Nat := [1996, 2000, 2300, 2325, 2326, 3000] ++ List.replicate 58 0

/-- The two byte planes of the concrete scenario. -/
def scenarioPlanes : List (List ByteUnit) :=
  [columnPlane scenarioValues 2 4 0, columnPlane scenarioValues 2 4 1]

/-- A one-byte column (bit width 8, no padding) whose 64 tuples all hold the code 5. -/
def widePlanes8 : List (List ByteUnit) := [columnPlane (List.replicate 64 5) 1 0 0]

/-- A four-byte column (bit width 32, no padding) whose 64 tuples all hold the code
`2^24`. -/
def widePlanes32 : List (List ByteUnit) :=
  [columnPlane (List.replicate 64 16777216) 4 0 0, columnPlane (List.replicate 64 16777216) 4 0 1,
   columnPlane (List.replicate 64 16777216) 4 0 2, columnPlane (List.replicate 64 16777216) 4 0 3]

/-- The fail column of the comparator table of the first-slice kernel (section 4.2 of the
specification), applied to masks (equal, less, greater): `=` gives NOT equal, `!=` gives
zero, `<` and `<=` give greater, `>` and `>=` give less. -/
def failTable (CMP : Comparator) (equal less greater : AvxUnit) : AvxUnit :=
  match CMP with
  | .kEqual => avx_not equal
  | .kInequal => avx_zero
  | .kLess | .kLessEqual => greater
  | .kGreater | .kGreaterEqual => less

/-- The success column of the comparator table of the first-slice kernel (section 4.2 of
the specification): `=` gives zero, `!=` gives NOT equal, `<` and `<=` give less, `>` and
`>=` give greater. -/
def successTable (CMP : Comparator) (equal less greater : AvxUnit) : AvxUnit :=
  match CMP with
  | .kEqual => avx_zero
  | .kInequal => avx_not equal
  | .kLess | .kLessEqual => less
  | .kGreater | .kGreaterEqual => greater

/-- The template `computeForEarlyStop<OP>` as a binary operation on triples (equal,
success, fail); `out` holds the three outputs as they are on entry. -/
def aggregate (OP : Bitwise) (out a b : AggMasks) : AggMasks :=
  computeForEarlyStop OP a.output_equal a.output_success a.output_fail
    b.output_equal b.output_success b.output_fail out

/-- The initialiser `(T1_bit_width+7)/8` of `kNumBytesPerCode_1` in `run`; the bit width
is a `uint32_t`, so the sum wraps at `2^32`. -/
def run_kNumBytesPerCode_1 (T1_bit_width : Nat) : Nat := (T1_bit_width + 7) % 2 ^ 32 / 8

/-- The initialiser `kNumBytesPerCode_1 * 8 - T1_bit_width` of `kNumPaddingBits_1` in
`run`; the subtraction is done on `uint32_t` and wraps at `2^32`. -/
def run_kNumPaddingBits_1 (T1_bit_width : Nat) : Nat :=
  (run_kNumBytesPerCode_1 T1_bit_width * 8 + 2 ^ 32 - T1_bit_width % 2 ^ 32) % 2 ^ 32

/-- The word loop of `Q15_cmp_with_literal_P_S` with a log of its stores: the same loop as
`wordLoop`, which in addition appends to `written` the index `bv_word_id` of every
`_mm_stream_si64` store, in program order. -/
def wordLoop_logged (CMP1 CMP2 : Comparator) (OP : Bitwise) (uninit : Nat → BatchLocals)
    (len : Nat) (data_1 : List (List ByteUnit)) (mask_literal_1 mask_literal_2 : List AvxUnit) :
    Nat → Nat → Nat → List Nat → List Nat → Option (List Nat × List Nat)
  | 0, _, _, _, _ => none
  | fuel + 1, offset, bv_word_id, bitmap, written =>
    if offset < len then do
      let bitvector_word ← batchLoop CMP1 CMP2 OP uninit data_1 mask_literal_1 mask_literal_2
        offset 3 0 0
      let x := bitvector_word
      let bitmap ← storeWord bitmap bv_word_id x
      wordLoop_logged CMP1 CMP2 OP uninit len data_1 mask_literal_1 mask_literal_2 fuel
        ((offset + NUM_WORD_BITS) % 2 ^ 64) (bv_word_id + 1) bitmap (written ++ [bv_word_id])
    else some (bitmap, written)

/-- The function `Q15_cmp_with_literal_P_S` with a log of its stores: the bitmap after the
call together with the indices of the bitmap words it has stored, in program order. -/
def Q15_logged (CMP1 CMP2 : Comparator) (OP : Bitwise)
    (uninit : Nat → BatchLocals) (bitmap : List Nat) (len : Nat)
    (data_1 : List (List ByteUnit)) (literal_1 kNumBytesPerCode_1 kNumPaddingBits_1 : Nat)
    (literal_2 : Nat) : Option (List Nat × List Nat) :=
  let kNumBytesPerCode_1 := (fun (_ : Nat) => 2) kNumBytesPerCode_1
  let mask_literal_1 := mask_literal literal_1 kNumBytesPerCode_1 kNumPaddingBits_1
  let mask_literal_2 := mask_literal literal_2 kNumBytesPerCode_1 kNumPaddingBits_1
  wordLoop_logged CMP1 CMP2 OP uninit len data_1 mask_literal_1 mask_literal_2
    (len / 64 + 2) 0 0 bitmap []

/-- The record of predicate 1 of a batch after its first-slice kernel, `d0` being the
loaded slice of plane 0. -/
def firstMasks_1 (CMP1 : Comparator) (d0 : AvxUnit) (mask_literal_1 : List AvxUnit)
    (u : BatchLocals) : KernelMasks :=
  computeKernelWithMask_FIRST CMP1 d0 (mask_literal_1.getD 0 avx_zero) u.m_1

/-- The record of predicate 2 of a batch after its first-slice kernel. -/
def firstMasks_2 (CMP2 : Comparator) (d0 : AvxUnit) (mask_literal_2 : List AvxUnit)
    (u : BatchLocals) : KernelMasks :=
  computeKernelWithMask_FIRST CMP2 d0 (mask_literal_2.getD 0 avx_zero) u.m_2

/-- The record of predicate 1 of a batch after `m_equal_1 = avx_and(m_equal_1, agg_equal)`
in the refine stage. -/
def maskedMasks_1 (CMP1 CMP2 : Comparator) (OP : Bitwise) (d0 : AvxUnit)
    (mask_literal_1 mask_literal_2 : List AvxUnit) (u : BatchLocals) : KernelMasks :=
  maskEqual (firstMasks_1 CMP1 d0 mask_literal_1 u)
    (aggEqual CMP1 CMP2 OP d0 mask_literal_1 mask_literal_2 u)

/-- The record of predicate 2 of a batch after `m_equal_2 = avx_and(m_equal_2, agg_equal)`
in the refine stage. -/
def maskedMasks_2 (CMP1 CMP2 : Comparator) (OP : Bitwise) (d0 : AvxUnit)
    (mask_literal_1 mask_literal_2 : List AvxUnit) (u : BatchLocals) : KernelMasks :=
  maskEqual (firstMasks_2 CMP2 d0 mask_literal_2 u)
    (aggEqual CMP1 CMP2 OP d0 mask_literal_1 mask_literal_2 u)

/-- The record of predicate 1 of a batch after its refine kernel, `d1` being the loaded
slice of plane 1; `computeMask_one_predicate` is invoked on it when the refine stage runs. -/
def refinedMasks_1 (CMP1 CMP2 : Comparator) (OP : Bitwise) (d0 d1 : AvxUnit)
    (mask_literal_1 mask_literal_2 : List AvxUnit) (u : BatchLocals) : KernelMasks :=
  computeKernelWithMask CMP1 d1 (mask_literal_1.getD 1 avx_zero)
    (maskedMasks_1 CMP1 CMP2 OP d0 mask_literal_1 mask_literal_2 u)

/-- The record of predicate 2 of a batch after its refine kernel. -/
def refinedMasks_2 (CMP1 CMP2 : Comparator) (OP : Bitwise) (d0 d1 : AvxUnit)
    (mask_literal_1 mask_literal_2 : List AvxUnit) (u : BatchLocals) : KernelMasks :=
  computeKernelWithMask CMP2 d1 (mask_literal_2.getD 1 avx_zero)
    (maskedMasks_2 CMP1 CMP2 OP d0 mask_literal_1 mask_literal_2 u)

/-- The record of predicate 1 on which a batch invokes `computeMask_one_predicate`: the
record after the first-slice kernel when the refine stage is skipped (`agg_equal` is zero),
the record after the refine kernel otherwise. -/
def resolverMasks_1 (CMP1 CMP2 : Comparator) (OP : Bitwise) (d0 d1 : AvxUnit)
    (mask_literal_1 mask_literal_2 : List AvxUnit) (u : BatchLocals) : KernelMasks :=
  if avx_iszero (aggEqual CMP1 CMP2 OP d0 mask_literal_1 mask_literal_2 u) then
    firstMasks_1 CMP1 d0 mask_literal_1 u
  else refinedMasks_1 CMP1 CMP2 OP d0 d1 mask_literal_1 mask_literal_2 u

/-- The record of predicate 2 on which a batch invokes `computeMask_one_predicate`. -/
def resolverMasks_2 (CMP1 CMP2 : Comparator) (OP : Bitwise) (d0 d1 : AvxUnit)
    (mask_literal_1 mask_literal_2 : List AvxUnit) (u : BatchLocals) : KernelMasks :=
  if avx_iszero (aggEqual CMP1 CMP2 OP d0 mask_literal_1 mask_literal_2 u) then
    firstMasks_2 CMP2 d0 mask_literal_2 u
  else refinedMasks_2 CMP1 CMP2 OP d0 d1 mask_literal_1 mask_literal_2 u

/-- In lane `i`, exactly one of the masks equal, less, greater of a record is set. -/
def triState (m : KernelMasks) (i : Fin 32) : Prop :=
  laneExactlyOne m.mask_equal m.mask_less m.mask_greater i

/-- The first 32 tuples of the concrete scenario, as loaded from plane 0 and plane 1. -/
def scenarioSlice (byte_id : Nat) : AvxUnit :=
  fun i => (scenarioPlanes.getD byte_id []).getD i.val 0

instance (m : KernelMasks) (i : Fin 32) : Decidable (triState m i) := by
  unfold triState; infer_instance

/-- A slice whose lane 0 holds the code byte 1 and whose other lanes hold the code byte 2,
used for concrete inputs. -/
def mixedSlice : AvxUnit := fun i => if i = 0 then FLIP 1 else FLIP 2

/-- In lane `i`, success and fail are not both set, and neither of them is set exactly
when equal is set; a mask is set in a lane when the lane is not zero. -/
def pendingIffEqual (mask_equal mask_success mask_fail : AvxUnit) (i : Fin 32) : Prop :=
  ¬ (mask_success i ≠ 0 ∧ mask_fail i ≠ 0) ∧
  ((mask_success i = 0 ∧ mask_fail i = 0) ↔ mask_equal i ≠ 0)

/-- A second column for concrete inputs: it agrees with the scenario column at tuple 2
(the code 2300) and differs from it at every other tuple, padding included. -/
def otherPlanes : List (List ByteUnit) :=
  [columnPlane ([4095, 7, 2300, 1, 2, 3] ++ List.replicate 58 2300) 2 4 0,
   columnPlane ([4095, 7, 2300, 1, 2, 3] ++ List.replicate 58 2300) 2 4 1]

/-! ## Properties -/

/-! ### Bits of the lane primitives -/

theorem testBit_255 (j : Nat) : (255 : Nat).testBit j = decide (j < 8) :=
  Nat.testBit_two_pow_sub_one 8 j

theorem byte_testBit_ge (x : ByteUnit) {j : Nat} (h : 8 ≤ j) : x.val.testBit j = false :=
  Nat.testBit_lt_two_pow
    (Nat.lt_of_lt_of_le x.isLt (Nat.pow_le_pow_right (n := 2) (by decide) h))

theorem AvxUnit.ext_bit {a b : AvxUnit} (h : ∀ i j, j < 8 → a.bit i j = b.bit i j) : a = b := by
  funext i
  apply Fin.ext
  apply Nat.eq_of_testBit_eq
  intro j
  by_cases hj : j < 8
  · exact h i j hj
  · rw [byte_testBit_ge _ (Nat.le_of_not_lt hj), byte_testBit_ge _ (Nat.le_of_not_lt hj)]

theorem bit_ge (a : AvxUnit) (i : Fin 32) {j : Nat} (h : 8 ≤ j) : a.bit i j = false :=
  byte_testBit_ge (a i) h

@[simp] theorem bit_and (a b : AvxUnit) (i : Fin 32) (j : Nat) :
    (avx_and a b).bit i j = (a.bit i j && b.bit i j) := by
  simp [AvxUnit.bit, avx_and]

@[simp] theorem bit_or (a b : AvxUnit) (i : Fin 32) (j : Nat) :
    (avx_or a b).bit i j = (a.bit i j || b.bit i j) := by
  simp [AvxUnit.bit, avx_or]

@[simp] theorem bit_xor (a b : AvxUnit) (i : Fin 32) (j : Nat) :
    (avx_xor a b).bit i j = (a.bit i j ^^ b.bit i j) := by
  simp [AvxUnit.bit, avx_xor]

@[simp] theorem bit_zero (i : Fin 32) (j : Nat) : avx_zero.bit i j = false := by
  simp [AvxUnit.bit, avx_zero]

@[simp] theorem bit_ones (i : Fin 32) (j : Nat) : avx_ones.bit i j = decide (j < 8) := by
  simp only [AvxUnit.bit, avx_ones]
  exact testBit_255 j

theorem bit_not (a : AvxUnit) (i : Fin 32) {j : Nat} (hj : j < 8) :
    (avx_not a).bit i j = !a.bit i j := by
  simp [avx_not, hj]

theorem bit_andnot (a b : AvxUnit) (i : Fin 32) {j : Nat} (hj : j < 8) :
    (avx_andnot a b).bit i j = (!a.bit i j && b.bit i j) := by
  simp [AvxUnit.bit, avx_andnot, testBit_255, hj]

theorem bit_cmpeq (a b : AvxUnit) (i : Fin 32) {j : Nat} (hj : j < 8) :
    (avx_cmpeq a b).bit i j = decide (a i = b i) := by
  unfold AvxUnit.bit avx_cmpeq mm256_cmpeq_epi8
  by_cases h : a i = b i
  · simp [h]; exact (testBit_255 j).trans (by simp [hj])
  · have h2 : ¬ b i = a i := fun e => h e.symm
    simp [h, h2]

theorem bit_cmpgt (a b : AvxUnit) (i : Fin 32) {j : Nat} (hj : j < 8) :
    (avx_cmpgt a b).bit i j = decide (toInt8 (b i) < toInt8 (a i)) := by
  unfold AvxUnit.bit avx_cmpgt mm256_cmpgt_epi8
  by_cases h : toInt8 (b i) < toInt8 (a i)
  · simp [h]; exact (testBit_255 j).trans (by simp [hj])
  · simp [h]

theorem bit_cmplt (a b : AvxUnit) (i : Fin 32) {j : Nat} (hj : j < 8) :
    (avx_cmplt a b).bit i j = decide (toInt8 (a i) < toInt8 (b i)) := by
  unfold AvxUnit.bit avx_cmplt mm256_cmpgt_epi8
  by_cases h : toInt8 (a i) < toInt8 (b i)
  · simp [h]; exact (testBit_255 j).trans (by simp [hj])
  · simp [h]

/-! ### Bias flip -/

set_option maxRecDepth 100000 in
theorem FLIP_val (a : ByteUnit) :
    (FLIP a).val = if a.val < 128 then a.val + 128 else a.val - 128 := by
  revert a; decide

theorem toInt8_FLIP (a : ByteUnit) : toInt8 (FLIP a) = (a.val : Int) - 128 := by
  unfold toInt8
  rw [FLIP_val]
  have := a.isLt
  split_ifs <;> omega

theorem FLIP_FLIP (a : ByteUnit) : FLIP (FLIP a) = a := by
  apply Fin.ext
  rw [FLIP_val, FLIP_val]
  have := a.isLt
  split_ifs <;> omega

theorem toInt8_eq (a : ByteUnit) : toInt8 a = ((FLIP a).val : Int) - 128 := by
  have := toInt8_FLIP (FLIP a)
  rwa [FLIP_FLIP] at this

theorem toInt8_inj {a b : ByteUnit} (h : toInt8 a = toInt8 b) : a = b := by
  rw [toInt8_eq a, toInt8_eq b] at h
  have h2 : FLIP a = FLIP b := Fin.ext (by omega)
  rw [← FLIP_FLIP a, ← FLIP_FLIP b, h2]

/-- C5. Bias flip: for all bytes `a`, `b`, `a < b` as unsigned integers exactly when
`FLIP a < FLIP b` as signed 8-bit integers, which is the comparison that `avx_cmplt` and
`avx_cmpgt` perform in every lane; `a = b` exactly when `FLIP a = FLIP b`, which is what
`avx_cmpeq` tests; and `FLIP (FLIP a) = a`. -/
theorem FLIP_signed_order (a b : ByteUnit) :
    (a.val < b.val ↔ toInt8 (FLIP a) < toInt8 (FLIP b)) ∧
    (∀ i, avx_cmplt (avx_set1 (FLIP a)) (avx_set1 (FLIP b)) i =
      if a.val < b.val then 255 else 0) ∧
    (∀ i, avx_cmpgt (avx_set1 (FLIP a)) (avx_set1 (FLIP b)) i =
      if a.val > b.val then 255 else 0) ∧
    (a = b ↔ FLIP a = FLIP b) ∧
    (∀ i, avx_cmpeq (avx_set1 (FLIP a)) (avx_set1 (FLIP b)) i = if a = b then 255 else 0) ∧
    FLIP (FLIP a) = a := by
  have hinj : a = b ↔ FLIP a = FLIP b :=
    ⟨fun h => by rw [h], fun h => by rw [← FLIP_FLIP a, ← FLIP_FLIP b, h]⟩
  refine ⟨?_, ?_, ?_, hinj, ?_, FLIP_FLIP a⟩
  · rw [toInt8_FLIP, toInt8_FLIP]; omega
  · intro i
    simp only [avx_cmplt, mm256_cmpgt_epi8, avx_set1, toInt8_FLIP]
    by_cases h : a.val < b.val
    · rw [if_pos h, if_pos (by omega)]
    · rw [if_neg h, if_neg (by omega)]
  · intro i
    simp only [avx_cmpgt, mm256_cmpgt_epi8, avx_set1, toInt8_FLIP]
    by_cases h : a.val > b.val
    · rw [if_pos h, if_pos (by omega)]
    · rw [if_neg h, if_neg (by omega)]
  · intro i
    simp only [avx_cmpeq, mm256_cmpeq_epi8, avx_set1]
    by_cases h : a = b
    · rw [if_pos h, if_pos (hinj.mp h).symm]
    · rw [if_neg h, if_neg (fun e => h (hinj.mpr e.symm))]

/-! ### The tri-state masks of the comparator kernels -/

theorem cmp_lanes (d l : AvxUnit) (i : Fin 32) :
    laneExactlyOne (avx_cmpeq d l) (avx_cmplt d l) (avx_cmpgt d l) i := by
  unfold laneExactlyOne avx_cmpeq avx_cmplt avx_cmpgt mm256_cmpeq_epi8 mm256_cmpgt_epi8
  rcases lt_trichotomy (toInt8 (d i)) (toInt8 (l i)) with h | h | h
  · have hne : ¬ l i = d i := fun e => by rw [e] at h; exact lt_irrefl _ h
    right; left
    simp [h, hne, not_lt_of_gt h]
  · have he : l i = d i := (toInt8_inj h).symm
    left
    simp [he]
  · have hne : ¬ l i = d i := fun e => by rw [e] at h; exact lt_irrefl _ h
    right; right
    simp [h, hne, not_lt_of_gt h]

theorem lane_and (a b : AvxUnit) (i : Fin 32) :
    (avx_and a b i).val = (a i).val &&& (b i).val := rfl

theorem lane_or (a b : AvxUnit) (i : Fin 32) :
    (avx_or a b i).val = (a i).val ||| (b i).val := rfl

theorem refine_partition_aux (e l g ce cl cg : AvxUnit) (i : Fin 32)
    (h : laneExactlyOne e l g i) (hc : laneExactlyOne ce cl cg i) :
    laneExactlyOne (avx_and e ce) (avx_or l (avx_and e cl)) (avx_or g (avx_and e cg)) i := by
  unfold laneExactlyOne at *
  simp only [Fin.ext_iff, lane_and, lane_or] at *
  rcases h with ⟨h1, h2, h3⟩ | ⟨h1, h2, h3⟩ | ⟨h1, h2, h3⟩ <;>
  rcases hc with ⟨c1, c2, c3⟩ | ⟨c1, c2, c3⟩ | ⟨c1, c2, c3⟩ <;>
  simp [h1, h2, h3, c1, c2, c3]

theorem ones_zero_zero_exactlyOne (i : Fin 32) : laneExactlyOne avx_ones avx_zero avx_zero i := by
  left; simp [avx_ones, avx_zero]

/-- C7, as stated, fails. With comparator `=`, data byte 1 against literal byte 2 and all
masks zero on entry, `computeKernelWithMask_FIRST` leaves lane 0 with none of equal, less,
greater set; and `computeKernelWithMask` turns the state (equal all ones, less and greater
zero), which has exactly one mask set in every lane, into a state with none set in lane 0. -/
theorem tri_state_fails_for_kEqual :
    ¬ laneExactlyOne
        (computeKernelWithMask_FIRST Comparator.kEqual (constUnit 1) (constUnit 2)
          zeroMasks).mask_equal
        (computeKernelWithMask_FIRST Comparator.kEqual (constUnit 1) (constUnit 2)
          zeroMasks).mask_less
        (computeKernelWithMask_FIRST Comparator.kEqual (constUnit 1) (constUnit 2)
          zeroMasks).mask_greater
        0 ∧
    (∀ i, laneExactlyOne avx_ones avx_zero avx_zero i) ∧
    ¬ laneExactlyOne
        (computeKernelWithMask Comparator.kEqual (constUnit 1) (constUnit 2)
          { zeroMasks with mask_equal := avx_ones }).mask_equal
        (computeKernelWithMask Comparator.kEqual (constUnit 1) (constUnit 2)
          { zeroMasks with mask_equal := avx_ones }).mask_less
        (computeKernelWithMask Comparator.kEqual (constUnit 1) (constUnit 2)
          { zeroMasks with mask_equal := avx_ones }).mask_greater
        0 :=
  ⟨by decide, ones_zero_zero_exactlyOne, by decide⟩

/-- C7, amended. For the comparator kinds `<`, `<=`, `>`, `>=` and every pair of byte-slice
vectors, the (equal, less, greater) masks that `computeKernelWithMask_FIRST` produces have
exactly one of the three set in every lane, whatever the masks held before; and if the
masks entering `computeKernelWithMask` have exactly one set in every lane, so do the masks
it returns. -/
theorem tri_state_partition (CMP : Comparator) (hC : CMP.isOrdering = true)
    (d l : AvxUnit) (m : KernelMasks) :
    (∀ i, laneExactlyOne (computeKernelWithMask_FIRST CMP d l m).mask_equal
      (computeKernelWithMask_FIRST CMP d l m).mask_less
      (computeKernelWithMask_FIRST CMP d l m).mask_greater i) ∧
    ((∀ i, laneExactlyOne m.mask_equal m.mask_less m.mask_greater i) →
      ∀ i, laneExactlyOne (computeKernelWithMask CMP d l m).mask_equal
        (computeKernelWithMask CMP d l m).mask_less
        (computeKernelWithMask CMP d l m).mask_greater i) := by
  constructor
  · intro i
    cases CMP <;> simp [Comparator.isOrdering] at hC <;>
      simpa [computeKernelWithMask_FIRST] using cmp_lanes d l i
  · intro h i
    cases CMP <;> simp [Comparator.isOrdering] at hC <;>
      simpa [computeKernelWithMask] using
        refine_partition_aux _ _ _ _ _ _ i (h i) (cmp_lanes d l i)

/-- Witness of `tri_state_partition`: comparator `<`, data byte 1, literal byte 2. -/
theorem tri_state_partition_witness :
    Comparator.kLess.isOrdering = true ∧
    (∀ i, laneExactlyOne avx_ones avx_zero avx_zero i) ∧
    (∀ i, laneExactlyOne
      (computeKernelWithMask_FIRST Comparator.kLess (constUnit 1) (constUnit 2)
        zeroMasks).mask_equal
      (computeKernelWithMask_FIRST Comparator.kLess (constUnit 1) (constUnit 2)
        zeroMasks).mask_less
      (computeKernelWithMask_FIRST Comparator.kLess (constUnit 1) (constUnit 2)
        zeroMasks).mask_greater i) ∧
    (∀ i, laneExactlyOne
      (computeKernelWithMask Comparator.kLess (constUnit 1) (constUnit 2)
        { zeroMasks with mask_equal := avx_ones }).mask_equal
      (computeKernelWithMask Comparator.kLess (constUnit 1) (constUnit 2)
        { zeroMasks with mask_equal := avx_ones }).mask_less
      (computeKernelWithMask Comparator.kLess (constUnit 1) (constUnit 2)
        { zeroMasks with mask_equal := avx_ones }).mask_greater i) :=
  ⟨rfl, ones_zero_zero_exactlyOne,
    (tri_state_partition Comparator.kLess rfl (constUnit 1) (constUnit 2) zeroMasks).1,
    (tri_state_partition Comparator.kLess rfl (constUnit 1) (constUnit 2)
      { zeroMasks with mask_equal := avx_ones }).2 ones_zero_zero_exactlyOne⟩

/-- C8. Monotonicity of refinement: for every comparator kind, incoming state and pair of
byte-slice vectors, `computeKernelWithMask` returns masks with the old less contained in
the new less, the old greater contained in the new greater and the new equal contained in
the old equal, bitwise; and every less or greater bit that is newly set had its equal bit
set on entry. -/
theorem refine_monotone (CMP : Comparator) (d l : AvxUnit) (m : KernelMasks) :
    m.mask_less.contained (computeKernelWithMask CMP d l m).mask_less ∧
    m.mask_greater.contained (computeKernelWithMask CMP d l m).mask_greater ∧
    (computeKernelWithMask CMP d l m).mask_equal.contained m.mask_equal ∧
    (avx_andnot m.mask_less (computeKernelWithMask CMP d l m).mask_less).contained
      m.mask_equal ∧
    (avx_andnot m.mask_greater (computeKernelWithMask CMP d l m).mask_greater).contained
      m.mask_equal := by
  have key : ∀ (a : AvxUnit) (i : Fin 32) (j : Nat), a.bit i j = true → j < 8 := by
    intro a i j h
    by_contra hj
    rw [bit_ge a i (Nat.le_of_not_lt hj)] at h
    exact Bool.noConfusion h
  refine ⟨?_, ?_, ?_, ?_, ?_⟩ <;> intro i j h <;> have hj := key _ i j h <;> revert h <;>
    cases CMP <;> simp only [computeKernelWithMask, bit_andnot _ _ _ hj, bit_and, bit_or] <;>
    cases m.mask_less.bit i j <;> cases m.mask_greater.bit i j <;>
    cases m.mask_equal.bit i j <;> simp

/-- C10, as stated, fails. With comparator `=`, data byte 1 equal to the literal byte and
`mask_less` all ones on entry, `computeKernelWithMask_FIRST` returns lane 0 of `mask_less`
as 255, whereas lane 0 of `avx_cmplt(data, literal)` is 0. -/
theorem FIRST_kEqual_less_not_recomputed :
    (computeKernelWithMask_FIRST Comparator.kEqual (constUnit 1) (constUnit 1)
      { zeroMasks with mask_less := avx_ones }).mask_less 0 = 255 ∧
    avx_cmplt (constUnit 1) (constUnit 1) 0 = 0 := by
  decide

/-- C10, amended. For every comparator kind, data vector and literal vector, and whatever the
masks held before the call, `computeKernelWithMask_FIRST` returns equal = cmp_eq(data,
literal); for `<`, `<=`, `>`, `>=` it returns less = cmp_lt(data, literal) and greater =
cmp_gt(data, literal), the signed per-byte comparisons; for `=` and `!=` it does not compute
less and greater and leaves them as they were on entry. -/
theorem FIRST_masks_from_scratch (CMP : Comparator) (d l : AvxUnit) (m : KernelMasks) :
    (computeKernelWithMask_FIRST CMP d l m).mask_equal = avx_cmpeq d l ∧
    (computeKernelWithMask_FIRST CMP d l m).mask_less =
      (if CMP.isOrdering then avx_cmplt d l else m.mask_less) ∧
    (computeKernelWithMask_FIRST CMP d l m).mask_greater =
      (if CMP.isOrdering then avx_cmpgt d l else m.mask_greater) := by
  cases CMP <;> simp [computeKernelWithMask_FIRST, Comparator.isOrdering]

/-! ### The kernel chain of one predicate -/

theorem bit_cmpeq_flip (a b : AvxUnit) (i : Fin 32) {j : Nat} (hj : j < 8) :
    (avx_cmpeq a b).bit i j = decide (laneByte a i = laneByte b i) := by
  rw [bit_cmpeq a b i hj]
  have h : a i = b i ↔ laneByte a i = laneByte b i :=
    ⟨fun h => by unfold laneByte; rw [h],
      fun h => by rw [← FLIP_FLIP (a i), ← FLIP_FLIP (b i), Fin.ext h]⟩
  simp only [h]

theorem bit_cmplt_flip (a b : AvxUnit) (i : Fin 32) {j : Nat} (hj : j < 8) :
    (avx_cmplt a b).bit i j = decide (laneByte a i < laneByte b i) := by
  rw [bit_cmplt a b i hj, toInt8_eq, toInt8_eq]
  have h : ((FLIP (a i)).val : Int) - 128 < ((FLIP (b i)).val : Int) - 128 ↔
      laneByte a i < laneByte b i := by unfold laneByte; omega
  simp only [h]

theorem bit_cmpgt_flip (a b : AvxUnit) (i : Fin 32) {j : Nat} (hj : j < 8) :
    (avx_cmpgt a b).bit i j = decide (laneByte b i < laneByte a i) := by
  rw [bit_cmpgt a b i hj, toInt8_eq, toInt8_eq]
  have h : ((FLIP (b i)).val : Int) - 128 < ((FLIP (a i)).val : Int) - 128 ↔
      laneByte b i < laneByte a i := by unfold laneByte; omega
  simp only [h]

theorem laneByte_lt (s : AvxUnit) (i : Fin 32) : laneByte s i < 256 := (FLIP (s i)).isLt

theorem bitInv_first (CMP : Comparator) (d l : AvxUnit) (m : KernelMasks) (i : Fin 32)
    (j : Nat) (hj : j < 8) :
    BitInv CMP (computeKernelWithMask_FIRST CMP d l m) i j (laneByte d i) (laneByte l i) := by
  cases CMP <;>
    simp [BitInv, computeKernelWithMask_FIRST, Comparator.isOrdering, successBit, failBit,
      bit_cmpeq_flip, bit_cmplt_flip, bit_cmpgt_flip, bit_not, hj]

theorem chainInv_first (CMP : Comparator) (d l : AvxUnit) (m : KernelMasks) (i : Fin 32) :
    ChainInv CMP (computeKernelWithMask_FIRST CMP d l m) i (laneByte d i) (laneByte l i) :=
  fun j hj => bitInv_first CMP d l m i j hj

theorem step_eq (c L u v : Nat) (hu : u < 256) (hv : v < 256) :
    (decide (c = L) && decide (u = v)) = decide (c * 256 + u = L * 256 + v) := by
  rw [Bool.eq_iff_iff]; simp; omega

theorem step_lt (c L u v : Nat) (hu : u < 256) (hv : v < 256) :
    (decide (c < L) || (decide (c = L) && decide (u < v))) =
      decide (c * 256 + u < L * 256 + v) := by
  rw [Bool.eq_iff_iff]; simp; omega

theorem step_gt (c L u v : Nat) (hu : u < 256) (hv : v < 256) :
    (decide (L < c) || (decide (c = L) && decide (v < u))) =
      decide (L * 256 + v < c * 256 + u) := by
  rw [Bool.eq_iff_iff]; simp; omega

theorem bitInv_step (CMP : Comparator) (d l : AvxUnit) (m : KernelMasks) (i : Fin 32)
    (j : Nat) (hj : j < 8) (c L : Nat) (h : BitInv CMP m i j c L) :
    BitInv CMP (computeKernelWithMask CMP d l m) i j
      (c * 256 + laneByte d i) (L * 256 + laneByte l i) := by
  have hu := laneByte_lt d i
  have hv := laneByte_lt l i
  have e1 := step_eq c L _ _ hu hv
  have e2 := step_lt c L _ _ hu hv
  have e3 := step_gt c L _ _ hu hv
  obtain ⟨h1, h2, -, -⟩ := h
  cases CMP
  case kEqual =>
    simp [BitInv, computeKernelWithMask, Comparator.isOrdering, successBit, failBit,
      bit_cmpeq_flip, bit_not, hj, h1, e1]
  case kInequal =>
    simp [BitInv, computeKernelWithMask, Comparator.isOrdering, successBit, failBit,
      bit_cmpeq_flip, bit_not, hj, h1, e1]
  all_goals
    obtain ⟨h3, h4⟩ := h2 rfl
    simp [BitInv, computeKernelWithMask, Comparator.isOrdering, successBit, failBit,
      bit_cmpeq_flip, bit_cmplt_flip, bit_cmpgt_flip, hj, h1, h3, h4, e1, e2, e3]

theorem chainInv_step (CMP : Comparator) (d l : AvxUnit) (m : KernelMasks) (i : Fin 32)
    (c L : Nat) (h : ChainInv CMP m i c L) :
    ChainInv CMP (computeKernelWithMask CMP d l m) i
      (c * 256 + laneByte d i) (L * 256 + laneByte l i) :=
  fun j hj => bitInv_step CMP d l m i j hj c L (h j hj)

theorem chainInv_foldl (CMP : Comparator) (i : Fin 32) (rest : List (AvxUnit × AvxUnit)) :
    ∀ (m : KernelMasks) (c L : Nat), ChainInv CMP m i c L →
      ChainInv CMP (rest.foldl (fun m s => computeKernelWithMask CMP s.1 s.2 m) m) i
        ((rest.map Prod.fst).foldl (fun acc s => acc * 256 + laneByte s i) c)
        ((rest.map Prod.snd).foldl (fun acc s => acc * 256 + laneByte s i) L) := by
  induction rest with
  | nil => intro m c L h; exact h
  | cons s rest ih =>
    intro m c L h
    simp only [List.foldl_cons, List.map_cons]
    exact ih _ _ _ (chainInv_step CMP s.1 s.2 m i c L h)

theorem chainInv_chain (CMP : Comparator) (d0 l0 : AvxUnit) (rest : List (AvxUnit × AvxUnit))
    (m : KernelMasks) (i : Fin 32) :
    ChainInv CMP (kernelChain CMP d0 l0 rest m) i
      (laneCode (d0 :: rest.map Prod.fst) i) (laneCode (l0 :: rest.map Prod.snd) i) := by
  unfold kernelChain laneCode
  simp only [List.foldl_cons, Nat.zero_mul, Nat.zero_add]
  exact chainInv_foldl CMP i rest _ _ _ (chainInv_first CMP d0 l0 m i)

theorem lane_of_bits (a : AvxUnit) (i : Fin 32) (b : Bool)
    (h : ∀ j, j < 8 → a.bit i j = b) : a i = if b then 255 else 0 := by
  apply Fin.ext
  apply Nat.eq_of_testBit_eq
  intro j
  by_cases hj : j < 8
  · have := h j hj
    unfold AvxUnit.bit at this
    rw [this]
    cases b
    · simp
    · simp only [if_true]; exact ((testBit_255 j).trans (by simp [hj])).symm
  · rw [byte_testBit_ge _ (Nat.le_of_not_lt hj), byte_testBit_ge _ (Nat.le_of_not_lt hj)]

theorem exists_bit_of_ne_zero (a : AvxUnit) (i : Fin 32) (h : a i ≠ 0) :
    ∃ j, j < 8 ∧ a.bit i j = true := by
  by_contra hne
  apply h
  have := lane_of_bits a i false (fun j hj => by
    cases hb : a.bit i j
    · rfl
    · exact absurd ⟨j, hj, hb⟩ hne)
  simpa using this

theorem bitInv_resolve (CMP : Comparator) (m : KernelMasks) (i : Fin 32) (c L : Nat)
    (j : Nat) (hj : j < 8) (h : BitInv CMP m i j c L) :
    (computeMask_one_predicate CMP m.mask_equal m.mask_greater m.mask_less).bit i j =
      CMP.eval c L := by
  obtain ⟨h1, h2, -, -⟩ := h
  cases CMP
  case kEqual => simp [computeMask_one_predicate, Comparator.eval, h1]
  case kInequal => simp [computeMask_one_predicate, Comparator.eval, h1, bit_not, hj]
  all_goals
    obtain ⟨h3, h4⟩ := h2 rfl
    simp only [computeMask_one_predicate, Comparator.eval, h1, h3, h4, bit_or] <;>
      (rw [Bool.eq_iff_iff]; simp; omega)

theorem resolve_bit (CMP : Comparator) (m : KernelMasks) (i : Fin 32) (c L : Nat)
    (h : ChainInv CMP m i c L) (j : Nat) (hj : j < 8) :
    (computeMask_one_predicate CMP m.mask_equal m.mask_greater m.mask_less).bit i j =
      CMP.eval c L :=
  bitInv_resolve CMP m i c L j hj (h j hj)

/-- C3. Single-predicate correctness of the kernel chain: for every comparator kind and
every number of byte slices (one first slice and any list of further slices, so in
particular 1 to 4 slices), applying `computeKernelWithMask_FIRST` to slice 0, then
`computeKernelWithMask` to the further slices in most-significant-first order, then
`computeMask_one_predicate`, yields in every lane all ones if `c CMP L` holds and all zero
otherwise, `c` and `L` being the unsigned codes that the lane's bias-flipped bytes of the
column and of the literal spell; the masks on entry do not matter. -/
theorem kernel_chain_correct (CMP : Comparator) (d0 l0 : AvxUnit)
    (rest : List (AvxUnit × AvxUnit)) (m : KernelMasks) (i : Fin 32) :
    chainResult CMP d0 l0 rest m i =
      if CMP.eval (laneCode (d0 :: rest.map Prod.fst) i) (laneCode (l0 :: rest.map Prod.snd) i)
      then 255 else 0 :=
  lane_of_bits _ i _ (fun j hj => resolve_bit CMP _ i _ _ (chainInv_chain CMP d0 l0 rest m i) j hj)

theorem pow_step_lt (c L x y r : Nat) (hy : y < 256 ^ r) (h : c < L) :
    c * 256 ^ r + y < L * 256 ^ r + x := by
  have h1 : (c + 1) * 256 ^ r ≤ L * 256 ^ r := Nat.mul_le_mul_right _ h
  have h2 : (c + 1) * 256 ^ r = c * 256 ^ r + 256 ^ r := by ring
  omega

/-- C9. Soundness of early success and fail: after `computeKernelWithMask_FIRST` on slice 0
and `computeKernelWithMask` on the further processed slices, if a lane's success mask is
set then `c' CMP L` is true for every code `c'` that extends the processed bytes of the
column by `r` more bytes (`x < 256^r`), the literal `L` extending the processed literal
bytes by `r` more bytes; and if the lane's fail mask is set then `c' CMP L` is false. -/
theorem early_decision_sound (CMP : Comparator) (d0 l0 : AvxUnit)
    (rest : List (AvxUnit × AvxUnit)) (m : KernelMasks) (i : Fin 32) (r x y : Nat)
    (hx : x < 256 ^ r) (hy : y < 256 ^ r) :
    ((kernelChain CMP d0 l0 rest m).mask_success i ≠ 0 →
      CMP.eval (laneCode (d0 :: rest.map Prod.fst) i * 256 ^ r + x)
        (laneCode (l0 :: rest.map Prod.snd) i * 256 ^ r + y) = true) ∧
    ((kernelChain CMP d0 l0 rest m).mask_fail i ≠ 0 →
      CMP.eval (laneCode (d0 :: rest.map Prod.fst) i * 256 ^ r + x)
        (laneCode (l0 :: rest.map Prod.snd) i * 256 ^ r + y) = false) := by
  have inv := chainInv_chain CMP d0 l0 rest m i
  generalize laneCode (d0 :: rest.map Prod.fst) i = c at inv ⊢
  generalize laneCode (l0 :: rest.map Prod.snd) i = L at inv ⊢
  have lt1 := pow_step_lt c L y x r hx
  have lt2 := pow_step_lt L c x y r hy
  constructor
  · intro h
    obtain ⟨j, hj, hb⟩ := exists_bit_of_ne_zero _ i h
    obtain ⟨-, -, hs, -⟩ := inv j hj
    rw [hs] at hb
    cases CMP <;> simp [successBit] at hb <;> simp [Comparator.eval] <;> omega
  · intro h
    obtain ⟨j, hj, hb⟩ := exists_bit_of_ne_zero _ i h
    obtain ⟨-, -, -, hf⟩ := inv j hj
    rw [hf] at hb
    cases CMP <;> simp [failBit] at hb <;> simp [Comparator.eval] <;> omega

/-- Witness of `early_decision_sound`: first bytes 1 against 2, one byte remaining; `<` has
succeeded and `>` has failed whatever the remaining bytes are. -/
theorem early_decision_sound_witness :
    255 < 256 ^ 1 ∧ 0 < 256 ^ 1 ∧
    (kernelChain Comparator.kLess (avx_set1 (FLIP 1)) (avx_set1 (FLIP 2)) []
      zeroMasks).mask_success 0 ≠ 0 ∧
    Comparator.kLess.eval (laneCode [avx_set1 (FLIP 1)] 0 * 256 ^ 1 + 255)
      (laneCode [avx_set1 (FLIP 2)] 0 * 256 ^ 1 + 0) = true ∧
    (kernelChain Comparator.kGreater (avx_set1 (FLIP 1)) (avx_set1 (FLIP 2)) []
      zeroMasks).mask_fail 0 ≠ 0 ∧
    Comparator.kGreater.eval (laneCode [avx_set1 (FLIP 1)] 0 * 256 ^ 1 + 255)
      (laneCode [avx_set1 (FLIP 2)] 0 * 256 ^ 1 + 0) = false :=
  ⟨by decide, by decide, by decide,
    (early_decision_sound Comparator.kLess (avx_set1 (FLIP 1)) (avx_set1 (FLIP 2)) []
      zeroMasks 0 1 255 0 (by decide) (by decide)).1 (by decide),
    by decide,
    (early_decision_sound Comparator.kGreater (avx_set1 (FLIP 1)) (avx_set1 (FLIP 2)) []
      zeroMasks 0 1 255 0 (by decide) (by decide)).2 (by decide)⟩

/-! ### Literal decomposition -/

theorem mask_literal_two (literal pad : Nat) :
    mask_literal literal 2 pad =
      [avx_set1 (FLIP (toByteUnit (((literal <<< pad) % 2 ^ 32) >>> 8))),
       avx_set1 (FLIP (toByteUnit ((literal <<< pad) % 2 ^ 32)))] := by
  rfl

theorem shifted_lt (b L : Nat) (hb : b ≤ 16) (hL : L < 2 ^ b) : L <<< (16 - b) < 2 ^ 16 := by
  rw [Nat.shiftLeft_eq]
  calc L * 2 ^ (16 - b) < 2 ^ b * 2 ^ (16 - b) :=
        Nat.mul_lt_mul_of_pos_right hL (Nat.two_pow_pos _)
    _ = 2 ^ 16 := by rw [← Nat.pow_add]; congr 1; omega

theorem two_bytes (x : Nat) (hx : x < 2 ^ 16) :
    (toByteUnit (x >>> 8)).val * 256 + (toByteUnit x).val = x := by
  simp only [toByteUnit, Nat.shiftRight_eq_div_pow]
  norm_num at hx ⊢
  omega

theorem laneByte_set1_FLIP (x : ByteUnit) (i : Fin 32) :
    laneByte (avx_set1 (FLIP x)) i = x.val := by
  simp [laneByte, avx_set1, FLIP_FLIP]

/-- C6. Literal decomposition round trip: for every bit width `b <= 16` (in particular
`9 <= b <= 16`), padding `16 - b` and literal `L < 2^b`, the literal preparation of
`Q15_cmp_with_literal_P_S` (two byte slices) produces two vectors; every lane of the first
holds `FLIP` of the high byte of `L << padding`, every lane of the second holds `FLIP` of
its low byte; and undoing the flip of the two bytes of a lane, concatenating them most
significant first and shifting right by the padding gives `L` back. -/
theorem literal_round_trip (b L : Nat) (hb : b ≤ 16) (hL : L < 2 ^ b) :
    mask_literal L 2 (16 - b) =
      [avx_set1 (FLIP (toByteUnit ((L <<< (16 - b)) >>> 8))),
       avx_set1 (FLIP (toByteUnit (L <<< (16 - b))))] ∧
    (∀ i, laneCode (mask_literal L 2 (16 - b)) i >>> (16 - b) = L) := by
  have hlt := shifted_lt b L hb hL
  have hmod : (L <<< (16 - b)) % 2 ^ 32 = L <<< (16 - b) :=
    Nat.mod_eq_of_lt (Nat.lt_of_lt_of_le hlt (by norm_num))
  have h1 := mask_literal_two L (16 - b)
  rw [hmod] at h1
  refine ⟨h1, ?_⟩
  intro i
  rw [h1]
  simp only [laneCode, List.foldl_cons, List.foldl_nil, laneByte_set1_FLIP, Nat.zero_mul,
    Nat.zero_add]
  rw [two_bytes _ hlt, Nat.shiftLeft_eq, Nat.shiftRight_eq_div_pow]
  exact Nat.mul_div_cancel _ (Nat.two_pow_pos _)

/-- Witness of `literal_round_trip`: bit width 12 and the literal 2233 of the shipped run. -/
theorem literal_round_trip_witness :
    12 ≤ 16 ∧ 2233 < 2 ^ 12 ∧
    mask_literal 2233 2 (16 - 12) =
      [avx_set1 (FLIP (toByteUnit ((2233 <<< (16 - 12)) >>> 8))),
       avx_set1 (FLIP (toByteUnit (2233 <<< (16 - 12))))] ∧
    (∀ i, laneCode (mask_literal 2233 2 (16 - 12)) i >>> (16 - 12) = 2233) :=
  ⟨by decide, by decide, literal_round_trip 12 2233 (by decide) (by decide)⟩


/-! ### One batch of the scan -/

theorem scanBatch_eq (CMP1 CMP2 : Comparator) (OP : Bitwise) (data_1 : List (List ByteUnit))
    (lit1 lit2 : List AvxUnit) (pos : Nat) (u : BatchLocals) :
    scanBatch CMP1 CMP2 OP data_1 lit1 lit2 pos u =
      (avx_load (data_1.getD 0 []) pos).bind fun d0 =>
        if avx_iszero (aggEqual CMP1 CMP2 OP d0 lit1 lit2 u) then
          some (skippedResult CMP1 CMP2 OP d0 lit1 lit2 u)
        else
          (avx_load (data_1.getD 1 []) pos).bind fun d1 =>
            some (refinedResult CMP1 CMP2 OP d0 d1 lit1 lit2 u) := by
  unfold scanBatch
  cases h0 : avx_load (data_1.getD 0 []) pos with
  | none => rfl
  | some d0 =>
    simp only [Option.bind_eq_bind, Option.some_bind]
    by_cases hz : avx_iszero (aggEqual CMP1 CMP2 OP d0 lit1 lit2 u) = true
    · rw [if_pos hz]
      have hz2 : ¬ ((!avx_iszero (aggEqual CMP1 CMP2 OP d0 lit1 lit2 u)) = true) := by
        simp [hz]
      exact if_neg hz2
    · rw [if_neg hz]
      have hz2 : (!avx_iszero (aggEqual CMP1 CMP2 OP d0 lit1 lit2 u)) = true := by
        simpa using hz
      refine (if_pos hz2).trans ?_
      cases h1 : avx_load (data_1.getD 1 []) pos with
      | none => rfl
      | some d1 => rfl

theorem scanBatch_refineAlways_eq (CMP1 CMP2 : Comparator) (OP : Bitwise)
    (data_1 : List (List ByteUnit)) (lit1 lit2 : List AvxUnit) (pos : Nat) (u : BatchLocals) :
    scanBatch_refineAlways CMP1 CMP2 OP data_1 lit1 lit2 pos u =
      (avx_load (data_1.getD 0 []) pos).bind fun d0 =>
        (avx_load (data_1.getD 1 []) pos).bind fun d1 =>
          some (refinedResult CMP1 CMP2 OP d0 d1 lit1 lit2 u) := by
  unfold scanBatch_refineAlways refinedResult
  cases h0 : avx_load (data_1.getD 0 []) pos with
  | none => rfl
  | some d0 =>
    simp only [Option.bind_eq_bind, Option.some_bind]
    cases h1 : avx_load (data_1.getD 1 []) pos with
    | none => rfl
    | some d1 =>
      simp only [Option.bind_eq_bind, Option.some_bind]
      rfl

theorem eval_of_ne (CMP : Comparator) {c L : Nat} (h : c ≠ L) (x y : Nat) (hx : x < 256)
    (hy : y < 256) : CMP.eval (c * 256 + x) (L * 256 + y) = CMP.eval c L := by
  cases CMP <;> simp only [Comparator.eval] <;> (rw [Bool.eq_iff_iff]; simp; omega)

theorem success_sound (CMP : Comparator) {c L : Nat} (x y : Nat) (hx : x < 256) (hy : y < 256)
    (h : successBit CMP c L = true) : CMP.eval (c * 256 + x) (L * 256 + y) = true ∧ c ≠ L := by
  cases CMP <;> simp [successBit] at h <;> simp [Comparator.eval] <;> omega

theorem fail_sound (CMP : Comparator) {c L : Nat} (x y : Nat) (hx : x < 256) (hy : y < 256)
    (h : failBit CMP c L = true) : CMP.eval (c * 256 + x) (L * 256 + y) = false ∧ c ≠ L := by
  cases CMP <;> simp [failBit] at h <;> simp [Comparator.eval] <;> omega

theorem masked_bitInv (CMP : Comparator) (m : KernelMasks) (g : AvxUnit) (i : Fin 32) (j : Nat)
    (c L : Nat) (h : BitInv CMP m i j c L)
    (hg : g.bit i j = true ∨ m.mask_equal.bit i j = false) :
    BitInv CMP (maskEqual m g) i j c L := by
  obtain ⟨h1, h2, h3, h4⟩ := h
  refine ⟨?_, h2, h3, h4⟩
  simp only [bit_and]
  rcases hg with hg | hg
  · rw [hg, Bool.and_true, h1]
  · rw [← h1, hg, Bool.false_and]

theorem refined_pred (CMP : Comparator) (m : KernelMasks) (g d l : AvxUnit) (i : Fin 32)
    (j : Nat) (hj : j < 8) (c L : Nat) (h : BitInv CMP m i j c L)
    (hg : g.bit i j = true ∨ m.mask_equal.bit i j = false) :
    (resolveMasks CMP (computeKernelWithMask CMP d l (maskEqual m g))).bit i j =
      CMP.eval (c * 256 + laneByte d i) (L * 256 + laneByte l i) :=
  bitInv_resolve CMP _ i _ _ j hj
    (bitInv_step CMP d l _ i j hj c L (masked_bitInv CMP m g i j c L h hg))

theorem skipped_pred (CMP : Comparator) (m : KernelMasks) (i : Fin 32)
    (j : Nat) (hj : j < 8) (c L : Nat) (h : BitInv CMP m i j c L) (hne : c ≠ L)
    (x y : Nat) (hx : x < 256) (hy : y < 256) :
    (resolveMasks CMP m).bit i j = CMP.eval (c * 256 + x) (L * 256 + y) := by
  rw [bitInv_resolve CMP m i c L j hj h, eval_of_ne CMP hne x y hx hy]

theorem failBit_of_eq (CMP : Comparator) (c : Nat) : failBit CMP c c = false := by
  cases CMP <;> simp [failBit]

theorem successBit_of_eq (CMP : Comparator) (c : Nat) : successBit CMP c c = false := by
  cases CMP <;> simp [successBit]

/-- One bit of the result of the refine path of a batch under AND: the two predicates are
in states `F1`, `F2` after the first slice, `g` is the `agg_equal` mask. -/
theorem refined_combine_and (CMP1 CMP2 : Comparator) (F1 F2 : KernelMasks)
    (g d l1 l2 : AvxUnit) (i : Fin 32) (j : Nat) (hj : j < 8) (c L1 L2 : Nat)
    (h1 : BitInv CMP1 F1 i j c L1) (h2 : BitInv CMP2 F2 i j c L2)
    (hg : g.bit i j = ((!F1.mask_fail.bit i j && F2.mask_equal.bit i j) ||
      (!F2.mask_fail.bit i j && F1.mask_equal.bit i j))) :
    (avx_and (resolveMasks CMP1 (computeKernelWithMask CMP1 d l1 (maskEqual F1 g)))
      (resolveMasks CMP2 (computeKernelWithMask CMP2 d l2 (maskEqual F2 g)))).bit i j =
    (CMP1.eval (c * 256 + laneByte d i) (L1 * 256 + laneByte l1 i) &&
      CMP2.eval (c * 256 + laneByte d i) (L2 * 256 + laneByte l2 i)) := by
  have hx := laneByte_lt d i
  have hy1 := laneByte_lt l1 i
  have hy2 := laneByte_lt l2 i
  have R1 := fun hg => refined_pred CMP1 F1 g d l1 i j hj c L1 h1 hg
  have R2 := fun hg => refined_pred CMP2 F2 g d l2 i j hj c L2 h2 hg
  have X1 := @fail_sound CMP1 c L1 _ _ hx hy1
  have X2 := @fail_sound CMP2 c L2 _ _ hx hy2
  obtain ⟨e1, -, -, f1⟩ := h1
  obtain ⟨e2, -, -, f2⟩ := h2
  rw [e1, e2, f1, f2] at hg
  rw [bit_and]
  by_cases hc1 : c = L1 <;> by_cases hc2 : c = L2
  · subst hc1
    subst hc2
    have ha : g.bit i j = true := by
      rw [hg, failBit_of_eq CMP2 c, failBit_of_eq CMP1 c]; simp
    rw [R1 (Or.inl ha), R2 (Or.inl ha)]
  · have he2 : F2.mask_equal.bit i j = false := by rw [e2]; simp [hc2]
    rw [R2 (Or.inr he2)]
    cases hb : failBit CMP2 c L2
    · have ha : g.bit i j = true := by rw [hg, hb]; simp [hc1]
      rw [R1 (Or.inl ha)]
    · rw [(X2 hb).1]; simp
  · have he1 : F1.mask_equal.bit i j = false := by rw [e1]; simp [hc1]
    rw [R1 (Or.inr he1)]
    cases hb : failBit CMP1 c L1
    · have ha : g.bit i j = true := by rw [hg, hb]; simp [hc2]
      rw [R2 (Or.inl ha)]
    · rw [(X1 hb).1]; simp
  · have he1 : F1.mask_equal.bit i j = false := by rw [e1]; simp [hc1]
    have he2 : F2.mask_equal.bit i j = false := by rw [e2]; simp [hc2]
    rw [R1 (Or.inr he1), R2 (Or.inr he2)]

/-- One bit of the result of the refine path of a batch under OR. -/
theorem refined_combine_or (CMP1 CMP2 : Comparator) (F1 F2 : KernelMasks)
    (g d l1 l2 : AvxUnit) (i : Fin 32) (j : Nat) (hj : j < 8) (c L1 L2 : Nat)
    (h1 : BitInv CMP1 F1 i j c L1) (h2 : BitInv CMP2 F2 i j c L2)
    (hg : g.bit i j = ((!F1.mask_success.bit i j && F2.mask_equal.bit i j) ||
      (!F2.mask_success.bit i j && F1.mask_equal.bit i j))) :
    (avx_or (resolveMasks CMP1 (computeKernelWithMask CMP1 d l1 (maskEqual F1 g)))
      (resolveMasks CMP2 (computeKernelWithMask CMP2 d l2 (maskEqual F2 g)))).bit i j =
    (CMP1.eval (c * 256 + laneByte d i) (L1 * 256 + laneByte l1 i) ||
      CMP2.eval (c * 256 + laneByte d i) (L2 * 256 + laneByte l2 i)) := by
  have hx := laneByte_lt d i
  have hy1 := laneByte_lt l1 i
  have hy2 := laneByte_lt l2 i
  have R1 := fun hg => refined_pred CMP1 F1 g d l1 i j hj c L1 h1 hg
  have R2 := fun hg => refined_pred CMP2 F2 g d l2 i j hj c L2 h2 hg
  have X1 := @success_sound CMP1 c L1 _ _ hx hy1
  have X2 := @success_sound CMP2 c L2 _ _ hx hy2
  obtain ⟨e1, -, s1, -⟩ := h1
  obtain ⟨e2, -, s2, -⟩ := h2
  rw [e1, e2, s1, s2] at hg
  rw [bit_or]
  by_cases hc1 : c = L1 <;> by_cases hc2 : c = L2
  · subst hc1
    subst hc2
    have ha : g.bit i j = true := by
      rw [hg, successBit_of_eq CMP2 c, successBit_of_eq CMP1 c]; simp
    rw [R1 (Or.inl ha), R2 (Or.inl ha)]
  · have he2 : F2.mask_equal.bit i j = false := by rw [e2]; simp [hc2]
    rw [R2 (Or.inr he2)]
    cases hb : successBit CMP2 c L2
    · have ha : g.bit i j = true := by rw [hg, hb]; simp [hc1]
      rw [R1 (Or.inl ha)]
    · rw [(X2 hb).1]; simp
  · have he1 : F1.mask_equal.bit i j = false := by rw [e1]; simp [hc1]
    rw [R1 (Or.inr he1)]
    cases hb : successBit CMP1 c L1
    · have ha : g.bit i j = true := by rw [hg, hb]; simp [hc2]
      rw [R2 (Or.inl ha)]
    · rw [(X1 hb).1]; simp
  · have he1 : F1.mask_equal.bit i j = false := by rw [e1]; simp [hc1]
    have he2 : F2.mask_equal.bit i j = false := by rw [e2]; simp [hc2]
    rw [R1 (Or.inr he1), R2 (Or.inr he2)]

/-- One bit of the result of a batch that skips the refine stage under AND, at a bit where
`agg_equal` is clear; `x`, `y1`, `y2` are any second bytes of the code and the literals. -/
theorem skipped_combine_and (CMP1 CMP2 : Comparator) (F1 F2 : KernelMasks)
    (i : Fin 32) (j : Nat) (hj : j < 8) (c L1 L2 : Nat)
    (h1 : BitInv CMP1 F1 i j c L1) (h2 : BitInv CMP2 F2 i j c L2)
    (hg : ((!F1.mask_fail.bit i j && F2.mask_equal.bit i j) ||
      (!F2.mask_fail.bit i j && F1.mask_equal.bit i j)) = false)
    (x y1 y2 : Nat) (hx : x < 256) (hy1 : y1 < 256) (hy2 : y2 < 256) :
    (avx_and (resolveMasks CMP1 F1) (resolveMasks CMP2 F2)).bit i j =
    (CMP1.eval (c * 256 + x) (L1 * 256 + y1) && CMP2.eval (c * 256 + x) (L2 * 256 + y2)) := by
  have K1 := fun hne => skipped_pred CMP1 F1 i j hj c L1 h1 hne x y1 hx hy1
  have K2 := fun hne => skipped_pred CMP2 F2 i j hj c L2 h2 hne x y2 hx hy2
  have X1 := @fail_sound CMP1 c L1 x y1 hx hy1
  have X2 := @fail_sound CMP2 c L2 x y2 hx hy2
  obtain ⟨e1, -, -, f1⟩ := h1
  obtain ⟨e2, -, -, f2⟩ := h2
  rw [e1, e2, f1, f2] at hg
  rw [bit_and]
  by_cases hc1 : c = L1 <;> by_cases hc2 : c = L2
  · subst hc1
    subst hc2
    rw [failBit_of_eq CMP2 c, failBit_of_eq CMP1 c] at hg
    simp at hg
  · rw [K2 hc2]
    cases hb : failBit CMP2 c L2
    · rw [hb] at hg; simp [hc1, hc2] at hg
    · rw [(X2 hb).1]; simp
  · rw [K1 hc1]
    cases hb : failBit CMP1 c L1
    · rw [hb] at hg; simp [hc1, hc2] at hg
    · rw [(X1 hb).1]; simp
  · rw [K1 hc1, K2 hc2]

/-- One bit of the result of a batch that skips the refine stage under OR, at a bit where
`agg_equal` is clear. -/
theorem skipped_combine_or (CMP1 CMP2 : Comparator) (F1 F2 : KernelMasks)
    (i : Fin 32) (j : Nat) (hj : j < 8) (c L1 L2 : Nat)
    (h1 : BitInv CMP1 F1 i j c L1) (h2 : BitInv CMP2 F2 i j c L2)
    (hg : ((!F1.mask_success.bit i j && F2.mask_equal.bit i j) ||
      (!F2.mask_success.bit i j && F1.mask_equal.bit i j)) = false)
    (x y1 y2 : Nat) (hx : x < 256) (hy1 : y1 < 256) (hy2 : y2 < 256) :
    (avx_or (resolveMasks CMP1 F1) (resolveMasks CMP2 F2)).bit i j =
    (CMP1.eval (c * 256 + x) (L1 * 256 + y1) || CMP2.eval (c * 256 + x) (L2 * 256 + y2)) := by
  have K1 := fun hne => skipped_pred CMP1 F1 i j hj c L1 h1 hne x y1 hx hy1
  have K2 := fun hne => skipped_pred CMP2 F2 i j hj c L2 h2 hne x y2 hx hy2
  have X1 := @success_sound CMP1 c L1 x y1 hx hy1
  have X2 := @success_sound CMP2 c L2 x y2 hx hy2
  obtain ⟨e1, -, s1, -⟩ := h1
  obtain ⟨e2, -, s2, -⟩ := h2
  rw [e1, e2, s1, s2] at hg
  rw [bit_or]
  by_cases hc1 : c = L1 <;> by_cases hc2 : c = L2
  · subst hc1
    subst hc2
    rw [successBit_of_eq CMP2 c, successBit_of_eq CMP1 c] at hg
    simp at hg
  · rw [K2 hc2]
    cases hb : successBit CMP2 c L2
    · rw [hb] at hg; simp [hc1, hc2] at hg
    · rw [(X2 hb).1]; simp
  · rw [K1 hc1]
    cases hb : successBit CMP1 c L1
    · rw [hb] at hg; simp [hc1, hc2] at hg
    · rw [(X1 hb).1]; simp
  · rw [K1 hc1, K2 hc2]

theorem iszero_bit {a : AvxUnit} (h : avx_iszero a = true) (i : Fin 32) (j : Nat) :
    a.bit i j = false := by
  unfold avx_iszero at h
  rw [List.all_eq_true] at h
  have := h i (List.mem_finRange i)
  simp only [beq_iff_eq] at this
  unfold AvxUnit.bit
  rw [this]
  exact Nat.zero_testBit j

/-- The lane code of a tuple of a batch: the two loaded bytes of the lane. -/
theorem refinedResult_bit (CMP1 CMP2 : Comparator) (OP : Bitwise)
    (hOP : OP = Bitwise.kAnd ∨ OP = Bitwise.kOr) (d0 d1 : AvxUnit) (lit1 lit2 : List AvxUnit)
    (u : BatchLocals) (i : Fin 32) (j : Nat) (hj : j < 8) :
    OP.eval
      (CMP1.eval (laneByte d0 i * 256 + laneByte d1 i)
        (laneByte (lit1.getD 0 avx_zero) i * 256 + laneByte (lit1.getD 1 avx_zero) i))
      (CMP2.eval (laneByte d0 i * 256 + laneByte d1 i)
        (laneByte (lit2.getD 0 avx_zero) i * 256 + laneByte (lit2.getD 1 avx_zero) i)) =
    some ((refinedResult CMP1 CMP2 OP d0 d1 lit1 lit2 u).bit i j) := by
  have h1 := bitInv_first CMP1 d0 (lit1.getD 0 avx_zero) u.m_1 i j hj
  have h2 := bitInv_first CMP2 d0 (lit2.getD 0 avx_zero) u.m_2 i j hj
  rcases hOP with rfl | rfl
  · have := refined_combine_and CMP1 CMP2 _ _
      (aggEqual CMP1 CMP2 Bitwise.kAnd d0 lit1 lit2 u) d1 (lit1.getD 1 avx_zero)
      (lit2.getD 1 avx_zero) i j hj _ _ _ h1 h2
      (by simp only [aggEqual, computeForEarlyStop, bit_or, bit_andnot _ _ _ hj])
    simp only [Bitwise.eval, Option.some.injEq]
    exact this.symm
  · have := refined_combine_or CMP1 CMP2 _ _
      (aggEqual CMP1 CMP2 Bitwise.kOr d0 lit1 lit2 u) d1 (lit1.getD 1 avx_zero)
      (lit2.getD 1 avx_zero) i j hj _ _ _ h1 h2
      (by simp only [aggEqual, computeForEarlyStop, bit_or, bit_andnot _ _ _ hj])
    simp only [Bitwise.eval, Option.some.injEq]
    exact this.symm

theorem skippedResult_bit (CMP1 CMP2 : Comparator) (OP : Bitwise)
    (hOP : OP = Bitwise.kAnd ∨ OP = Bitwise.kOr) (d0 d1 : AvxUnit) (lit1 lit2 : List AvxUnit)
    (u : BatchLocals) (hz : avx_iszero (aggEqual CMP1 CMP2 OP d0 lit1 lit2 u) = true)
    (i : Fin 32) (j : Nat) (hj : j < 8) :
    OP.eval
      (CMP1.eval (laneByte d0 i * 256 + laneByte d1 i)
        (laneByte (lit1.getD 0 avx_zero) i * 256 + laneByte (lit1.getD 1 avx_zero) i))
      (CMP2.eval (laneByte d0 i * 256 + laneByte d1 i)
        (laneByte (lit2.getD 0 avx_zero) i * 256 + laneByte (lit2.getD 1 avx_zero) i)) =
    some ((skippedResult CMP1 CMP2 OP d0 lit1 lit2 u).bit i j) := by
  have h1 := bitInv_first CMP1 d0 (lit1.getD 0 avx_zero) u.m_1 i j hj
  have h2 := bitInv_first CMP2 d0 (lit2.getD 0 avx_zero) u.m_2 i j hj
  have hb := iszero_bit hz i j
  rcases hOP with rfl | rfl
  · simp only [aggEqual, computeForEarlyStop, bit_or, bit_andnot _ _ _ hj] at hb
    have := skipped_combine_and CMP1 CMP2 _ _ i j hj _ _ _ h1 h2 hb
      (laneByte d1 i) (laneByte (lit1.getD 1 avx_zero) i) (laneByte (lit2.getD 1 avx_zero) i)
      (laneByte_lt _ _) (laneByte_lt _ _) (laneByte_lt _ _)
    simp only [Bitwise.eval, Option.some.injEq]
    exact this.symm
  · simp only [aggEqual, computeForEarlyStop, bit_or, bit_andnot _ _ _ hj] at hb
    have := skipped_combine_or CMP1 CMP2 _ _ i j hj _ _ _ h1 h2 hb
      (laneByte d1 i) (laneByte (lit1.getD 1 avx_zero) i) (laneByte (lit2.getD 1 avx_zero) i)
      (laneByte_lt _ _) (laneByte_lt _ _) (laneByte_lt _ _)
    simp only [Bitwise.eval, Option.some.injEq]
    exact this.symm

/-- When `agg_equal` is zero in a batch, running the refine stage anyway gives the same
result vector as skipping it. -/
theorem skipped_eq_refined (CMP1 CMP2 : Comparator) (OP : Bitwise) (d0 d1 : AvxUnit)
    (lit1 lit2 : List AvxUnit) (u : BatchLocals)
    (hz : avx_iszero (aggEqual CMP1 CMP2 OP d0 lit1 lit2 u) = true) :
    skippedResult CMP1 CMP2 OP d0 lit1 lit2 u = refinedResult CMP1 CMP2 OP d0 d1 lit1 lit2 u := by
  cases OP
  case kSet => rfl
  case kNeg => rfl
  case kAnd =>
    apply AvxUnit.ext_bit
    intro i j hj
    have a := skippedResult_bit CMP1 CMP2 Bitwise.kAnd (Or.inl rfl) d0 d1 lit1 lit2 u hz i j hj
    have b := refinedResult_bit CMP1 CMP2 Bitwise.kAnd (Or.inl rfl) d0 d1 lit1 lit2 u i j hj
    exact Option.some.inj (a.symm.trans b)
  case kOr =>
    apply AvxUnit.ext_bit
    intro i j hj
    have a := skippedResult_bit CMP1 CMP2 Bitwise.kOr (Or.inr rfl) d0 d1 lit1 lit2 u hz i j hj
    have b := refinedResult_bit CMP1 CMP2 Bitwise.kOr (Or.inr rfl) d0 d1 lit1 lit2 u i j hj
    exact Option.some.inj (a.symm.trans b)

/-! ### The loops of the scan -/

theorem movemaskUpTo_testBit (a : AvxUnit) (n t : Nat) :
    (movemaskUpTo a n).testBit t = (decide (t < n) && laneMsb a t) := by
  induction n with
  | zero => simp [movemaskUpTo]
  | succ n ih =>
    rw [movemaskUpTo, Nat.testBit_or, ih]
    by_cases hn : n < 32
    · rw [dif_pos hn]
      by_cases htn : t = n
      · subst htn
        cases hb : (a ⟨t, hn⟩).val.testBit 7 <;>
          simp [laneMsb, hn, AvxUnit.bit, hb, Nat.one_shiftLeft, Nat.testBit_two_pow]
      · have h1 : decide (t < n + 1) = decide (t < n) := by
          rw [Bool.eq_iff_iff]; simp; omega
        have h2 : (if (a ⟨n, hn⟩).val.testBit 7 = true then 1 <<< n else 0).testBit t = false := by
          split
          · rw [Nat.one_shiftLeft, Nat.testBit_two_pow]; simp; omega
          · exact Nat.zero_testBit t
        rw [h1, h2, Bool.or_false]
    · rw [dif_neg hn, Nat.zero_testBit, Bool.or_false]
      have h3 : laneMsb a t = true → t < 32 := by
        unfold laneMsb; split <;> simp_all
      cases hm : laneMsb a t
      · simp
      · have := h3 hm
        simp; omega

theorem movemask_testBit (a : AvxUnit) (t : Nat) :
    (mm256_movemask_epi8 a).testBit t = laneMsb a t := by
  unfold mm256_movemask_epi8
  rw [movemaskUpTo_testBit]
  by_cases h : t < 32
  · simp [h]
  · simp [h, laneMsb]

theorem batchLoop_unroll (CMP1 CMP2 : Comparator) (OP : Bitwise) (uninit : Nat → BatchLocals)
    (data_1 : List (List ByteUnit)) (lit1 lit2 : List AvxUnit) (offset : Nat) :
    batchLoop CMP1 CMP2 OP uninit data_1 lit1 lit2 offset 3 0 0 =
      (scanBatch CMP1 CMP2 OP data_1 lit1 lit2 (offset + 0) (uninit (offset + 0))).bind fun r0 =>
        (scanBatch CMP1 CMP2 OP data_1 lit1 lit2 (offset + 32) (uninit (offset + 32))).bind
          fun r1 => some ((0 ||| (mm256_movemask_epi8 r0 <<< 0) % 2 ^ 64) |||
            (mm256_movemask_epi8 r1 <<< 32) % 2 ^ 64) := by
  simp only [batchLoop, NUM_WORD_BITS, NUM_AVX_BITS]
  cases scanBatch CMP1 CMP2 OP data_1 lit1 lit2 (offset + 0) (uninit (offset + 0)) with
  | none => rfl
  | some r0 =>
    cases scanBatch CMP1 CMP2 OP data_1 lit1 lit2 (offset + 32) (uninit (offset + 32)) with
    | none => rfl
    | some r1 => rfl

theorem word_testBit (r0 r1 : AvxUnit) (s : Nat) (hs : s < 64) :
    ((0 ||| (mm256_movemask_epi8 r0 <<< 0) % 2 ^ 64) |||
      (mm256_movemask_epi8 r1 <<< 32) % 2 ^ 64).testBit s =
    if s < 32 then laneMsb r0 s else laneMsb r1 (s - 32) := by
  simp only [Nat.testBit_or, Nat.testBit_mod_two_pow, Nat.testBit_shiftLeft, Nat.zero_testBit,
    movemask_testBit, Bool.false_or, Nat.sub_zero]
  by_cases h : s < 32
  · have h2 : ¬ s ≥ 32 := by omega
    simp [h, h2, hs]
  · have h2 : s ≥ 32 := by omega
    have h3 : laneMsb r0 s = false := by simp [laneMsb, h]
    simp [h, h2, hs, h3]


theorem avx_load_some (mem : List ByteUnit) (pos : Nat) (h : pos + 32 ≤ mem.length) :
    avx_load mem pos = some (fun i => mem.getD (pos + i.val) 0) := by
  unfold avx_load
  rw [if_pos h]

theorem avx_load_bound {mem : List ByteUnit} {pos : Nat} {d : AvxUnit}
    (h : avx_load mem pos = some d) : pos + 32 ≤ mem.length := by
  unfold avx_load at h
  by_contra hc
  rw [if_neg hc] at h
  exact Option.noConfusion h

/-- A batch whose 32 bytes lie inside planes 0 and 1 yields a result vector, and the most
significant bit of every lane is the compound predicate on the lane's two-byte code. -/
theorem scanBatch_spec (CMP1 CMP2 : Comparator) (OP : Bitwise)
    (hOP : OP = Bitwise.kAnd ∨ OP = Bitwise.kOr) (data_1 : List (List ByteUnit))
    (lit1 lit2 : List AvxUnit) (pos : Nat) (u : BatchLocals)
    (h0 : pos + 32 ≤ (data_1.getD 0 []).length) (h1 : pos + 32 ≤ (data_1.getD 1 []).length) :
    ∃ r, scanBatch CMP1 CMP2 OP data_1 lit1 lit2 pos u = some r ∧
      ∀ i : Fin 32,
        OP.eval (CMP1.eval (tupleCode data_1 (pos + i.val)) (literalCode lit1 i))
          (CMP2.eval (tupleCode data_1 (pos + i.val)) (literalCode lit2 i)) =
        some (r.bit i 7) := by
  rw [scanBatch_eq, avx_load_some _ _ h0, avx_load_some _ _ h1]
  simp only [Option.some_bind]
  by_cases hz : avx_iszero (aggEqual CMP1 CMP2 OP
      (fun i : Fin 32 => (data_1.getD 0 []).getD (pos + i.val) 0) lit1 lit2 u) = true
  · rw [if_pos hz]
    refine ⟨_, rfl, fun i => ?_⟩
    exact skippedResult_bit CMP1 CMP2 OP hOP
      (fun i : Fin 32 => (data_1.getD 0 []).getD (pos + i.val) 0)
      (fun i : Fin 32 => (data_1.getD 1 []).getD (pos + i.val) 0) lit1 lit2 u hz i 7 (by decide)
  · rw [if_neg hz]
    refine ⟨_, rfl, fun i => ?_⟩
    exact refinedResult_bit CMP1 CMP2 OP hOP
      (fun i : Fin 32 => (data_1.getD 0 []).getD (pos + i.val) 0)
      (fun i : Fin 32 => (data_1.getD 1 []).getD (pos + i.val) 0) lit1 lit2 u i 7 (by decide)

/-- One word of the scan: the 64 tuples starting at `offset`. -/
theorem batchLoop_spec (CMP1 CMP2 : Comparator) (OP : Bitwise)
    (hOP : OP = Bitwise.kAnd ∨ OP = Bitwise.kOr) (uninit : Nat → BatchLocals)
    (data_1 : List (List ByteUnit)) (lit1 lit2 : List AvxUnit) (offset : Nat)
    (h0 : offset + 64 ≤ (data_1.getD 0 []).length)
    (h1 : offset + 64 ≤ (data_1.getD 1 []).length) :
    ∃ x, batchLoop CMP1 CMP2 OP uninit data_1 lit1 lit2 offset 3 0 0 = some x ∧
      ∀ s, s < 64 →
        OP.eval (CMP1.eval (tupleCode data_1 (offset + s)) (literalCode lit1 (laneOf s)))
          (CMP2.eval (tupleCode data_1 (offset + s)) (literalCode lit2 (laneOf s))) =
        some (x.testBit s) := by
  obtain ⟨r0, e0, b0⟩ := scanBatch_spec CMP1 CMP2 OP hOP data_1 lit1 lit2 (offset + 0)
    (uninit (offset + 0)) (by omega) (by omega)
  obtain ⟨r1, e1, b1⟩ := scanBatch_spec CMP1 CMP2 OP hOP data_1 lit1 lit2 (offset + 32)
    (uninit (offset + 32)) (by omega) (by omega)
  rw [batchLoop_unroll, e0, e1]
  refine ⟨_, rfl, fun s hs => ?_⟩
  rw [word_testBit r0 r1 s hs]
  by_cases h : s < 32
  · rw [if_pos h]
    have := b0 ⟨s, h⟩
    have hl : laneOf s = ⟨s, h⟩ := Fin.ext (Nat.mod_eq_of_lt h)
    rw [hl]
    simpa [laneMsb, h] using this
  · rw [if_neg h]
    have h' : s - 32 < 32 := by omega
    have := b1 ⟨s - 32, h'⟩
    have hl : laneOf s = ⟨s - 32, h'⟩ := Fin.ext (by simp only [laneOf]; omega)
    have hp : offset + 32 + (s - 32) = offset + s := by omega
    rw [hl]
    simp only [hp] at this
    simpa [laneMsb, h'] using this

theorem storeWord_some (bitmap : List Nat) (w x : Nat) (h : w < bitmap.length) :
    storeWord bitmap w x = some (bitmap.set w x) := by
  unfold storeWord
  rw [if_pos h]

/-- The word loop from word `k` on, when planes 0 and 1 hold the padded tuple count, the
bitmap has a word for every 64 tuples and the padded tuple count is a `size_t` value: the
loop ends, it leaves the words before `k` and from `nW` on as they are, and every bit of
the words `k .. nW - 1` is the compound predicate on the code of its tuple. -/
theorem wordLoop_spec (CMP1 CMP2 : Comparator) (OP : Bitwise)
    (hOP : OP = Bitwise.kAnd ∨ OP = Bitwise.kOr) (uninit : Nat → BatchLocals) (len : Nat)
    (data_1 : List (List ByteUnit)) (lit1 lit2 : List AvxUnit)
    (h0 : 64 * ((len + 63) / 64) ≤ (data_1.getD 0 []).length)
    (h1 : 64 * ((len + 63) / 64) ≤ (data_1.getD 1 []).length)
    (hsz : 64 * ((len + 63) / 64) < 2 ^ 64) :
    ∀ (n k fuel : Nat) (bm : List Nat), k + n = (len + 63) / 64 → n + 1 ≤ fuel →
      (len + 63) / 64 ≤ bm.length →
      ∃ bm', wordLoop CMP1 CMP2 OP uninit len data_1 lit1 lit2 fuel (64 * k) k bm = some bm' ∧
        bm'.length = bm.length ∧
        (∀ w, w < k ∨ (len + 63) / 64 ≤ w → bm'.getD w 0 = bm.getD w 0) ∧
        (∀ t, 64 * k ≤ t → t < 64 * ((len + 63) / 64) →
          OP.eval (CMP1.eval (tupleCode data_1 t) (literalCode lit1 (laneOf t)))
            (CMP2.eval (tupleCode data_1 t) (literalCode lit2 (laneOf t))) =
          some ((bm'.getD (t / 64) 0).testBit (t % 64))) := by
  intro n
  induction n with
  | zero =>
    intro k fuel bm hk hf hbm
    obtain ⟨f, rfl⟩ : ∃ f, fuel = f + 1 := ⟨fuel - 1, by omega⟩
    have hnot : ¬ 64 * k < len := by omega
    refine ⟨bm, ?_, rfl, fun _ _ => rfl, fun t ht1 ht2 => ?_⟩
    · rw [wordLoop, if_neg hnot]
    · omega
  | succ n ih =>
    intro k fuel bm hk hf hbm
    obtain ⟨f, rfl⟩ : ∃ f, fuel = f + 1 := ⟨fuel - 1, by omega⟩
    have hlt : 64 * k < len := by omega
    obtain ⟨x, ex, bx⟩ := batchLoop_spec CMP1 CMP2 OP hOP uninit data_1 lit1 lit2 (64 * k)
      (by omega) (by omega)
    have hst := storeWord_some bm k x (by omega)
    have hwrap : (64 * k + NUM_WORD_BITS) % 2 ^ 64 = 64 * (k + 1) := by
      rw [Nat.mod_eq_of_lt] <;> simp only [NUM_WORD_BITS] <;> omega
    obtain ⟨bm', e', hl', hfr, hbits⟩ := ih (k + 1) f (bm.set k x) (by omega) (by omega)
      (by rw [List.length_set]; exact hbm)
    refine ⟨bm', ?_, ?_, ?_, ?_⟩
    · rw [wordLoop, if_pos hlt, ex]
      simp only [Option.bind_eq_bind, Option.some_bind, hst, hwrap]
      exact e'
    · rw [hl', List.length_set]
    · intro w hw
      rw [hfr w (by omega)]
      have hne : k ≠ w := by omega
      simp only [List.getD_eq_getElem?_getD, List.getElem?_set_ne hne]
    · intro t ht1 ht2
      by_cases ht : t < 64 * k + 64
      · have hdiv : t / 64 = k := by omega
        have hx : bm'.getD k 0 = x := by
          rw [hfr k (by omega)]
          simp only [List.getD_eq_getElem?_getD]
          rw [List.getElem?_set_self (by omega)]
          rfl
        have := bx (t % 64) (Nat.mod_lt _ (by decide))
        have hp : 64 * k + t % 64 = t := by omega
        have hlane : laneOf (t % 64) = laneOf t := Fin.ext (by simp only [laneOf]; omega)
        rw [hp, hlane] at this
        rw [hdiv, hx]
        exact this
      · exact hbits t (by omega) ht2

/-! ### The scan driver -/

theorem eval_mul (CMP : Comparator) (a b k : Nat) (hk : 0 < k) :
    CMP.eval (a * k) (b * k) = CMP.eval a b := by
  have h1 : a * k < b * k ↔ a < b := Nat.mul_lt_mul_right hk
  have h2 : b * k < a * k ↔ b < a := Nat.mul_lt_mul_right hk
  have h3 : a * k = b * k ↔ a = b := ⟨fun h => Nat.eq_of_mul_eq_mul_right hk h, fun h => by rw [h]⟩
  cases CMP <;> simp only [Comparator.eval] <;> (rw [Bool.eq_iff_iff]; simp; omega)

theorem literalCode_mask_literal (b L : Nat) (hb : b ≤ 16) (hL : L < 2 ^ b) (i : Fin 32) :
    literalCode (mask_literal L 2 (16 - b)) i = L * 2 ^ (16 - b) := by
  rw [(literal_round_trip b L hb hL).1]
  simp only [literalCode, List.getD_cons_zero, List.getD_cons_succ, laneByte_set1_FLIP]
  rw [two_bytes _ (shifted_lt b L hb hL), Nat.shiftLeft_eq]

theorem tupleCode_SetTuple (data_1 : List (List ByteUnit)) (b v t : Nat) (hb : b ≤ 16)
    (hv : v < 2 ^ b)
    (h0 : (data_1.getD 0 []).getD t 0 = SetTuple_byte v 2 (16 - b) 0)
    (h1 : (data_1.getD 1 []).getD t 0 = SetTuple_byte v 2 (16 - b) 1) :
    tupleCode data_1 t = v * 2 ^ (16 - b) := by
  unfold tupleCode
  rw [h0, h1]
  simp only [SetTuple_byte, FLIP_FLIP]
  have := two_bytes _ (shifted_lt b v hb hv)
  simp only [Nat.shiftLeft_eq] at this ⊢
  simpa using this

/-- The scan on a two-byte column: the shared core of the correctness statements. -/
theorem Q15_correct_core (CMP1 CMP2 : Comparator) (OP : Bitwise)
    (hOP : OP = Bitwise.kAnd ∨ OP = Bitwise.kOr) (uninit : Nat → BatchLocals)
    (bitmap : List Nat) (len b : Nat) (value : Nat → Nat) (data_1 : List (List ByteUnit))
    (L1 L2 kNumBytesPerCode_1 : Nat) (hb : b ≤ 16)
    (hv : ∀ i, i < len → value i < 2 ^ b) (hL1 : L1 < 2 ^ b) (hL2 : L2 < 2 ^ b)
    (hp0 : 64 * ((len + 63) / 64) ≤ (data_1.getD 0 []).length)
    (hp1 : 64 * ((len + 63) / 64) ≤ (data_1.getD 1 []).length)
    (hsz : 64 * ((len + 63) / 64) < 2 ^ 64)
    (hd0 : ∀ i, i < len → (data_1.getD 0 []).getD i 0 = SetTuple_byte (value i) 2 (16 - b) 0)
    (hd1 : ∀ i, i < len → (data_1.getD 1 []).getD i 0 = SetTuple_byte (value i) 2 (16 - b) 1)
    (hbm : (len + 63) / 64 ≤ bitmap.length) :
    ∃ bitmap', Q15_cmp_with_literal_P_S CMP1 CMP2 OP uninit bitmap len data_1 L1
        kNumBytesPerCode_1 (16 - b) L2 = some bitmap' ∧
      bitmap'.length = bitmap.length ∧
      (∀ w, (len + 63) / 64 ≤ w → bitmap'.getD w 0 = bitmap.getD w 0) ∧
      ∀ i, i < len →
        OP.eval (CMP1.eval (value i) L1) (CMP2.eval (value i) L2) =
          some ((bitmap'.getD (i / 64) 0).testBit (i % 64)) := by
  obtain ⟨bm', e, hl, hfr, hbits⟩ := wordLoop_spec CMP1 CMP2 OP hOP uninit len data_1
    (mask_literal L1 2 (16 - b)) (mask_literal L2 2 (16 - b)) hp0 hp1 hsz
    ((len + 63) / 64) 0 (len / 64 + 2) bitmap (by omega) (by omega) hbm
  refine ⟨bm', e, hl, fun w hw => hfr w (Or.inr hw), fun i hi => ?_⟩
  have := hbits i (by omega) (by omega)
  rw [literalCode_mask_literal b L1 hb hL1, literalCode_mask_literal b L2 hb hL2,
    tupleCode_SetTuple data_1 b (value i) i hb (hv i hi) (hd0 i hi) (hd1 i hi),
    eval_mul _ _ _ _ (Nat.two_pow_pos _), eval_mul _ _ _ _ (Nat.two_pow_pos _)] at this
  exact this

/-- C1. Compound-predicate correctness of the scan driver: for every bit width `b` with
`9 <= b <= 16` (padding `16 - b`), every tuple count `len`, every column of codes
`value i < 2^b` stored as two byte planes (most significant byte first, shifted left by the
padding, every byte bias-flipped), every pair of literals below `2^b`, every pair of
comparator kinds and the combinators AND and OR, `Q15_cmp_with_literal_P_S` returns a
bitmap in which, for every tuple `i < len`, bit `i mod 64` of word `i div 64` equals
`(value i CMP1 L1) combinator (value i CMP2 L2)` on unsigned integers. The planes hold the
tuple count rounded up to 64, the bitmap has a word for every 64 tuples, and the rounded
tuple count is a `size_t` value; the uninitialised locals and the `kNumBytesPerCode_1`
argument are arbitrary. -/
theorem Q15_compound_correct (CMP1 CMP2 : Comparator) (OP : Bitwise)
    (hOP : OP = Bitwise.kAnd ∨ OP = Bitwise.kOr) (uninit : Nat → BatchLocals)
    (bitmap : List Nat) (len b : Nat) (value : Nat → Nat) (data_1 : List (List ByteUnit))
    (L1 L2 kNumBytesPerCode_1 : Nat) (_hb9 : 9 ≤ b) (hb : b ≤ 16)
    (hv : ∀ i, i < len → value i < 2 ^ b) (hL1 : L1 < 2 ^ b) (hL2 : L2 < 2 ^ b)
    (hp0 : 64 * ((len + 63) / 64) ≤ (data_1.getD 0 []).length)
    (hp1 : 64 * ((len + 63) / 64) ≤ (data_1.getD 1 []).length)
    (hsz : 64 * ((len + 63) / 64) < 2 ^ 64)
    (hd0 : ∀ i, i < len → (data_1.getD 0 []).getD i 0 = SetTuple_byte (value i) 2 (16 - b) 0)
    (hd1 : ∀ i, i < len → (data_1.getD 1 []).getD i 0 = SetTuple_byte (value i) 2 (16 - b) 1)
    (hbm : (len + 63) / 64 ≤ bitmap.length) :
    ∃ bitmap', Q15_cmp_with_literal_P_S CMP1 CMP2 OP uninit bitmap len data_1 L1
        kNumBytesPerCode_1 (16 - b) L2 = some bitmap' ∧
      ∀ i, i < len →
        OP.eval (CMP1.eval (value i) L1) (CMP2.eval (value i) L2) =
          some ((bitmap'.getD (i / 64) 0).testBit (i % 64)) := by
  obtain ⟨bm', e, -, -, hbits⟩ := Q15_correct_core CMP1 CMP2 OP hOP uninit bitmap len b value
    data_1 L1 L2 kNumBytesPerCode_1 hb hv hL1 hL2 hp0 hp1 hsz hd0 hd1 hbm
  exact ⟨bm', e, hbits⟩

set_option maxRecDepth 100000 in
/-- Witness of `Q15_compound_correct`: the concrete scenario of the shipped run, bit width
12, codes 1996, 2000, 2300, 2325, 2326, 3000, literals 2233 (`>`) and 2326 (`<`), AND. -/
theorem Q15_compound_correct_witness :
    (Bitwise.kAnd = Bitwise.kAnd ∨ Bitwise.kAnd = Bitwise.kOr) ∧ 9 ≤ 12 ∧ 12 ≤ 16 ∧
    (∀ i, i < 6 → scenarioValues.getD i 0 < 2 ^ 12) ∧ 2233 < 2 ^ 12 ∧ 2326 < 2 ^ 12 ∧
    64 * ((6 + 63) / 64) ≤ (scenarioPlanes.getD 0 []).length ∧
    64 * ((6 + 63) / 64) ≤ (scenarioPlanes.getD 1 []).length ∧
    64 * ((6 + 63) / 64) < 2 ^ 64 ∧
    (∀ i, i < 6 → (scenarioPlanes.getD 0 []).getD i 0 =
      SetTuple_byte (scenarioValues.getD i 0) 2 (16 - 12) 0) ∧
    (∀ i, i < 6 → (scenarioPlanes.getD 1 []).getD i 0 =
      SetTuple_byte (scenarioValues.getD i 0) 2 (16 - 12) 1) ∧
    (6 + 63) / 64 ≤ [0].length ∧
    ∃ bitmap', Q15_cmp_with_literal_P_S Comparator.kGreater Comparator.kLess Bitwise.kAnd
        (fun _ => zeroLocals) [0] 6 scenarioPlanes 2233 2 (16 - 12) 2326 = some bitmap' ∧
      ∀ i, i < 6 →
        Bitwise.kAnd.eval (Comparator.kGreater.eval (scenarioValues.getD i 0) 2233)
          (Comparator.kLess.eval (scenarioValues.getD i 0) 2326) =
          some ((bitmap'.getD (i / 64) 0).testBit (i % 64)) :=
  ⟨by decide, by decide, by decide, by decide, by decide, by decide, by decide, by decide,
    by decide, by decide, by decide, by decide,
    Q15_compound_correct Comparator.kGreater Comparator.kLess Bitwise.kAnd (Or.inl rfl)
      (fun _ => zeroLocals) [0] 6 12 (fun i => scenarioValues.getD i 0) scenarioPlanes
      2233 2326 2 (by decide) (by decide) (by decide) (by decide) (by decide) (by decide)
      (by decide) (by decide) (by decide) (by decide) (by decide)⟩


/-! ### Early stop -/

theorem scanBatch_eq_refineAlways (CMP1 CMP2 : Comparator) (OP : Bitwise)
    (data_1 : List (List ByteUnit)) (lit1 lit2 : List AvxUnit)
    (hlen : (data_1.getD 0 []).length ≤ (data_1.getD 1 []).length) (pos : Nat)
    (u : BatchLocals) :
    scanBatch CMP1 CMP2 OP data_1 lit1 lit2 pos u =
      scanBatch_refineAlways CMP1 CMP2 OP data_1 lit1 lit2 pos u := by
  rw [scanBatch_eq, scanBatch_refineAlways_eq]
  cases h0 : avx_load (data_1.getD 0 []) pos with
  | none => rfl
  | some d0 =>
    have hb := avx_load_bound h0
    rw [avx_load_some (data_1.getD 1 []) pos (by omega)]
    simp only [Option.some_bind]
    by_cases hz : avx_iszero (aggEqual CMP1 CMP2 OP d0 lit1 lit2 u) = true
    · rw [if_pos hz, skipped_eq_refined CMP1 CMP2 OP d0 _ lit1 lit2 u hz]
    · rw [if_neg hz]

theorem batchLoop_eq_refineAlways (CMP1 CMP2 : Comparator) (OP : Bitwise)
    (uninit : Nat → BatchLocals) (data_1 : List (List ByteUnit)) (lit1 lit2 : List AvxUnit)
    (hlen : (data_1.getD 0 []).length ≤ (data_1.getD 1 []).length) (offset : Nat) :
    ∀ fuel i word, batchLoop CMP1 CMP2 OP uninit data_1 lit1 lit2 offset fuel i word =
      batchLoop_refineAlways CMP1 CMP2 OP uninit data_1 lit1 lit2 offset fuel i word := by
  intro fuel
  induction fuel with
  | zero => intro i word; rfl
  | succ fuel ih =>
    intro i word
    rw [batchLoop, batchLoop_refineAlways,
      scanBatch_eq_refineAlways CMP1 CMP2 OP data_1 lit1 lit2 hlen]
    simp only [ih]

theorem wordLoop_eq_refineAlways (CMP1 CMP2 : Comparator) (OP : Bitwise)
    (uninit : Nat → BatchLocals) (len : Nat) (data_1 : List (List ByteUnit))
    (lit1 lit2 : List AvxUnit)
    (hlen : (data_1.getD 0 []).length ≤ (data_1.getD 1 []).length) :
    ∀ fuel offset w bm, wordLoop CMP1 CMP2 OP uninit len data_1 lit1 lit2 fuel offset w bm =
      wordLoop_refineAlways CMP1 CMP2 OP uninit len data_1 lit1 lit2 fuel offset w bm := by
  intro fuel
  induction fuel with
  | zero => intro offset w bm; rfl
  | succ fuel ih =>
    intro offset w bm
    rw [wordLoop, wordLoop_refineAlways,
      batchLoop_eq_refineAlways CMP1 CMP2 OP uninit data_1 lit1 lit2 hlen]
    simp only [ih]

/-- C2. Early-stop transparency: for every input (comparator pair, combinator,
uninitialised locals, bitmap, tuple count, column planes, literals, byte count and padding
arguments) in which plane 1 is at least as long as plane 0, `Q15_cmp_with_literal_P_S`
and the variant that executes the refine stage for every batch regardless of `agg_equal`
return the same bitmap, word for word, or both return none. -/
theorem early_stop_transparent (CMP1 CMP2 : Comparator) (OP : Bitwise)
    (uninit : Nat → BatchLocals) (bitmap : List Nat) (len : Nat)
    (data_1 : List (List ByteUnit)) (literal_1 kNumBytesPerCode_1 kNumPaddingBits_1 : Nat)
    (literal_2 : Nat) (hlen : (data_1.getD 0 []).length ≤ (data_1.getD 1 []).length) :
    Q15_cmp_with_literal_P_S CMP1 CMP2 OP uninit bitmap len data_1 literal_1
        kNumBytesPerCode_1 kNumPaddingBits_1 literal_2 =
      Q15_refineAlways CMP1 CMP2 OP uninit bitmap len data_1 literal_1
        kNumBytesPerCode_1 kNumPaddingBits_1 literal_2 := by
  unfold Q15_cmp_with_literal_P_S Q15_refineAlways
  exact wordLoop_eq_refineAlways CMP1 CMP2 OP uninit len data_1 _ _ hlen _ _ _ _

set_option maxRecDepth 100000 in
/-- Witness of `early_stop_transparent`: the concrete scenario of the shipped run, on which
both drivers return the bitmap word 12 (bits 2 and 3). -/
theorem early_stop_transparent_witness :
    (scenarioPlanes.getD 0 []).length ≤ (scenarioPlanes.getD 1 []).length ∧
    Q15_refineAlways Comparator.kGreater Comparator.kLess Bitwise.kAnd (fun _ => zeroLocals)
      [0] 6 scenarioPlanes 2233 2 4 2326 = some [12] ∧
    Q15_cmp_with_literal_P_S Comparator.kGreater Comparator.kLess Bitwise.kAnd
        (fun _ => zeroLocals) [0] 6 scenarioPlanes 2233 2 4 2326 =
      Q15_refineAlways Comparator.kGreater Comparator.kLess Bitwise.kAnd (fun _ => zeroLocals)
        [0] 6 scenarioPlanes 2233 2 4 2326 :=
  ⟨by decide, by decide,
    early_stop_transparent Comparator.kGreater Comparator.kLess Bitwise.kAnd
      (fun _ => zeroLocals) [0] 6 scenarioPlanes 2233 2 4 2326 (by decide)⟩

/-! ### Bit widths -/

set_option maxRecDepth 100000 in
/-- C4, as stated, fails. Bit width 8 (one byte plane, no padding): every tuple holds 5, the
literals are 3 (`>`) and 10 (`<`), AND; the scan returns the word 0, so bit 0 is clear
although `3 < 5 < 10`. Bit width 32 (four byte planes, no padding): every tuple holds
`2^24`, the literals are 0 (`>`) and `2^25` (`<`); the scan returns the word 0 although
`0 < 2^24 < 2^25`. In both calls the byte count argument is `ceil(b/8)`. -/
theorem Q15_wrong_outside_two_bytes :
    (8 + 7) / 8 = 1 ∧
    Q15_cmp_with_literal_P_S Comparator.kGreater Comparator.kLess Bitwise.kAnd
      (fun _ => zeroLocals) [0] 1 widePlanes8 3 ((8 + 7) / 8) ((8 + 7) / 8 * 8 - 8) 10 =
        some [0] ∧
    Bitwise.kAnd.eval (Comparator.kGreater.eval 5 3) (Comparator.kLess.eval 5 10) =
      some true ∧
    (32 + 7) / 8 = 4 ∧
    Q15_cmp_with_literal_P_S Comparator.kGreater Comparator.kLess Bitwise.kAnd
      (fun _ => zeroLocals) [0] 1 widePlanes32 0 ((32 + 7) / 8) ((32 + 7) / 8 * 8 - 32)
        33554432 = some [0] ∧
    Bitwise.kAnd.eval (Comparator.kGreater.eval 16777216 0)
      (Comparator.kLess.eval 16777216 33554432) = some true := by
  decide

/-- C4, amended. The scan supports the bit widths whose byte count is 2: for every bit
width `b` in 1..32 with `ceil(b/8) = 2` (that is `9 <= b <= 16`), when
`Q15_cmp_with_literal_P_S` is called with `kNumBytesPerCode = ceil(b/8)` and
`kNumPaddingBits = kNumBytesPerCode*8 - b` on a two-plane column, bit `i` of the output
bitmap equals `(value i CMP1 L1) combinator (value i CMP2 L2)` for every tuple `i < len`
and all codes and literals below `2^b`. The scan overwrites its `kNumBytesPerCode`
argument with 2: whatever the argument, it decomposes the literals into two byte slices
and compares two byte slices. -/
theorem Q15_two_byte_widths (CMP1 CMP2 : Comparator) (OP : Bitwise)
    (hOP : OP = Bitwise.kAnd ∨ OP = Bitwise.kOr) (uninit : Nat → BatchLocals)
    (bitmap : List Nat) (len b : Nat) (value : Nat → Nat) (data_1 : List (List ByteUnit))
    (L1 L2 : Nat) (hb1 : 1 ≤ b) (hb32 : b ≤ 32) (hbytes : (b + 7) / 8 = 2)
    (hv : ∀ i, i < len → value i < 2 ^ b) (hL1 : L1 < 2 ^ b) (hL2 : L2 < 2 ^ b)
    (hp0 : 64 * ((len + 63) / 64) ≤ (data_1.getD 0 []).length)
    (hp1 : 64 * ((len + 63) / 64) ≤ (data_1.getD 1 []).length)
    (hsz : 64 * ((len + 63) / 64) < 2 ^ 64)
    (hd0 : ∀ i, i < len → (data_1.getD 0 []).getD i 0 =
      SetTuple_byte (value i) ((b + 7) / 8) ((b + 7) / 8 * 8 - b) 0)
    (hd1 : ∀ i, i < len → (data_1.getD 1 []).getD i 0 =
      SetTuple_byte (value i) ((b + 7) / 8) ((b + 7) / 8 * 8 - b) 1)
    (hbm : (len + 63) / 64 ≤ bitmap.length) :
    (∀ n, Q15_cmp_with_literal_P_S CMP1 CMP2 OP uninit bitmap len data_1 L1 n
        ((b + 7) / 8 * 8 - b) L2 =
      wordLoop CMP1 CMP2 OP uninit len data_1 (mask_literal L1 2 ((b + 7) / 8 * 8 - b))
        (mask_literal L2 2 ((b + 7) / 8 * 8 - b)) (len / 64 + 2) 0 0 bitmap) ∧
    (mask_literal L1 2 ((b + 7) / 8 * 8 - b)).length = 2 ∧
    (mask_literal L2 2 ((b + 7) / 8 * 8 - b)).length = 2 ∧
    ∃ bitmap', Q15_cmp_with_literal_P_S CMP1 CMP2 OP uninit bitmap len data_1 L1
        ((b + 7) / 8) ((b + 7) / 8 * 8 - b) L2 = some bitmap' ∧
      ∀ i, i < len →
        OP.eval (CMP1.eval (value i) L1) (CMP2.eval (value i) L2) =
          some ((bitmap'.getD (i / 64) 0).testBit (i % 64)) := by
  have hpad : (b + 7) / 8 * 8 - b = 16 - b := by rw [hbytes]
  have hb16 : b ≤ 16 := by omega
  rw [hpad]
  rw [hpad, hbytes] at hd0 hd1
  refine ⟨fun n => rfl, rfl, rfl, ?_⟩
  obtain ⟨bm', e, -, -, hbits⟩ := Q15_correct_core CMP1 CMP2 OP hOP uninit bitmap len b value
    data_1 L1 L2 ((b + 7) / 8) hb16 hv hL1 hL2 hp0 hp1 hsz hd0 hd1 hbm
  exact ⟨bm', e, hbits⟩


set_option maxRecDepth 100000 in
/-- Witness of `Q15_two_byte_widths`: bit width 12, whose byte count is 2 and padding 4, on
the concrete scenario of the shipped run. -/
theorem Q15_two_byte_widths_witness :
    (Bitwise.kAnd = Bitwise.kAnd ∨ Bitwise.kAnd = Bitwise.kOr) ∧ 1 ≤ 12 ∧ 12 ≤ 32 ∧
    (12 + 7) / 8 = 2 ∧
    (∀ i, i < 6 → scenarioValues.getD i 0 < 2 ^ 12) ∧ 2233 < 2 ^ 12 ∧ 2326 < 2 ^ 12 ∧
    64 * ((6 + 63) / 64) ≤ (scenarioPlanes.getD 0 []).length ∧
    64 * ((6 + 63) / 64) ≤ (scenarioPlanes.getD 1 []).length ∧
    64 * ((6 + 63) / 64) < 2 ^ 64 ∧
    (∀ i, i < 6 → (scenarioPlanes.getD 0 []).getD i 0 =
      SetTuple_byte (scenarioValues.getD i 0) ((12 + 7) / 8) ((12 + 7) / 8 * 8 - 12) 0) ∧
    (∀ i, i < 6 → (scenarioPlanes.getD 1 []).getD i 0 =
      SetTuple_byte (scenarioValues.getD i 0) ((12 + 7) / 8) ((12 + 7) / 8 * 8 - 12) 1) ∧
    (6 + 63) / 64 ≤ [0].length ∧
    ∃ bitmap', Q15_cmp_with_literal_P_S Comparator.kGreater Comparator.kLess Bitwise.kAnd
        (fun _ => zeroLocals) [0] 6 scenarioPlanes 2233 ((12 + 7) / 8)
        ((12 + 7) / 8 * 8 - 12) 2326 = some bitmap' ∧
      ∀ i, i < 6 →
        Bitwise.kAnd.eval (Comparator.kGreater.eval (scenarioValues.getD i 0) 2233)
          (Comparator.kLess.eval (scenarioValues.getD i 0) 2326) =
          some ((bitmap'.getD (i / 64) 0).testBit (i % 64)) :=
  ⟨by decide, by decide, by decide, by decide, by decide, by decide, by decide, by decide,
    by decide, by decide, by decide, by decide, by decide,
    (Q15_two_byte_widths Comparator.kGreater Comparator.kLess Bitwise.kAnd (Or.inl rfl)
      (fun _ => zeroLocals) [0] 6 12 (fun i => scenarioValues.getD i 0) scenarioPlanes
      2233 2326 (by decide) (by decide) (by decide) (by decide) (by decide) (by decide)
      (by decide) (by decide) (by decide) (by decide) (by decide) (by decide)).2.2.2⟩

/-! ### The comparator tables -/

/-- C11. First-slice success/fail table: for every data and literal vector, and whatever
the masks held on entry, `computeKernelWithMask_FIRST` returns for `=` fail = NOT equal
and success = 0; for `!=` fail = 0 and success = NOT equal; for `<` and `<=` fail = greater
and success = less; for `>` and `>=` fail = less and success = greater, where equal, less,
greater are the per-byte eq, lt, gt comparison masks of the data against the literal. -/
theorem FIRST_success_fail_table (CMP : Comparator) (d l : AvxUnit) (m : KernelMasks) :
    (computeKernelWithMask_FIRST CMP d l m).mask_fail =
      failTable CMP (avx_cmpeq d l) (avx_cmplt d l) (avx_cmpgt d l) ∧
    (computeKernelWithMask_FIRST CMP d l m).mask_success =
      successTable CMP (avx_cmpeq d l) (avx_cmplt d l) (avx_cmpgt d l) := by
  cases CMP <;> exact ⟨rfl, rfl⟩

/-- C12, as stated, fails. With comparator `=`, equal all ones and less zero on entry, data
byte 1 against literal byte 2: lane 0 of the returned `mask_less` is 0, whereas lane 0 of
`old_less OR (old_equal AND cmp_lt)` is 255. -/
theorem refine_kEqual_less_not_updated :
    (computeKernelWithMask Comparator.kEqual (constUnit 1) (constUnit 2)
      { zeroMasks with mask_equal := avx_ones }).mask_less 0 = 0 ∧
    avx_or avx_zero (avx_and avx_ones (avx_cmplt (constUnit 1) (constUnit 2))) 0 = 255 := by
  decide

/-- C12, amended. For every comparator kind, incoming (less, greater, equal) and data and
literal vector, `computeKernelWithMask` returns new_equal = old_equal AND cmp_eq, and
success and fail equal to the comparator table applied to the returned (equal, less,
greater); for `<`, `<=`, `>`, `>=` it returns new_less = old_less OR (old_equal AND cmp_lt)
and new_greater = old_greater OR (old_equal AND cmp_gt); for `=` and `!=` it leaves less
and greater as they were on entry. -/
theorem refine_update_rule (CMP : Comparator) (d l : AvxUnit) (m : KernelMasks) :
    (computeKernelWithMask CMP d l m).mask_equal = avx_and m.mask_equal (avx_cmpeq d l) ∧
    (computeKernelWithMask CMP d l m).mask_less =
      (if CMP.isOrdering then avx_or m.mask_less (avx_and m.mask_equal (avx_cmplt d l))
       else m.mask_less) ∧
    (computeKernelWithMask CMP d l m).mask_greater =
      (if CMP.isOrdering then avx_or m.mask_greater (avx_and m.mask_equal (avx_cmpgt d l))
       else m.mask_greater) ∧
    (computeKernelWithMask CMP d l m).mask_fail =
      failTable CMP (computeKernelWithMask CMP d l m).mask_equal
        (computeKernelWithMask CMP d l m).mask_less
        (computeKernelWithMask CMP d l m).mask_greater ∧
    (computeKernelWithMask CMP d l m).mask_success =
      successTable CMP (computeKernelWithMask CMP d l m).mask_equal
        (computeKernelWithMask CMP d l m).mask_less
        (computeKernelWithMask CMP d l m).mask_greater := by
  cases CMP <;> exact ⟨rfl, rfl, rfl, rfl, rfl⟩

/-- C15. Final mask resolver table: for all input vectors (equal, greater, less),
`computeMask_one_predicate` returns equal for `=`, NOT equal for `!=`, less for `<`,
less OR equal for `<=`, greater for `>`, greater OR equal for `>=`. -/
theorem resolver_table (equal greater less : AvxUnit) :
    computeMask_one_predicate Comparator.kEqual equal greater less = equal ∧
    computeMask_one_predicate Comparator.kInequal equal greater less = avx_not equal ∧
    computeMask_one_predicate Comparator.kLess equal greater less = less ∧
    computeMask_one_predicate Comparator.kLessEqual equal greater less = avx_or less equal ∧
    computeMask_one_predicate Comparator.kGreater equal greater less = greater ∧
    computeMask_one_predicate Comparator.kGreaterEqual equal greater less =
      avx_or greater equal :=
  ⟨rfl, rfl, rfl, rfl, rfl, rfl⟩

/-! ### The early-stop aggregator -/

theorem andnot_eq (a b : AvxUnit) : avx_andnot a b = avx_and (avx_not a) b := by
  apply AvxUnit.ext_bit
  intro i j hj
  rw [bit_andnot a b i hj, bit_and, bit_not a i hj]

/-- C13. Early-stop aggregator formulas: for all input vectors, and whatever the outputs
held on entry, `computeForEarlyStop<kAnd>` returns agg_equal = (NOT fail1 AND equal2) OR
(NOT fail2 AND equal1), agg_success = success1 AND success2, agg_fail = fail1 OR fail2, and
`computeForEarlyStop<kOr>` returns agg_equal = (NOT success1 AND equal2) OR (NOT success2
AND equal1), agg_success = success1 OR success2, agg_fail = fail1 AND fail2. -/
theorem early_stop_formulas (equal1 success1 fail1 equal2 success2 fail2 : AvxUnit)
    (out : AggMasks) :
    computeForEarlyStop Bitwise.kAnd equal1 success1 fail1 equal2 success2 fail2 out =
      { output_equal := avx_or (avx_and (avx_not fail1) equal2) (avx_and (avx_not fail2) equal1)
        output_success := avx_and success1 success2
        output_fail := avx_or fail1 fail2 } ∧
    computeForEarlyStop Bitwise.kOr equal1 success1 fail1 equal2 success2 fail2 out =
      { output_equal :=
          avx_or (avx_and (avx_not success1) equal2) (avx_and (avx_not success2) equal1)
        output_success := avx_or success1 success2
        output_fail := avx_and fail1 fail2 } := by
  constructor <;> simp only [computeForEarlyStop, andnot_eq]

theorem aggMasks_eq {a b : AggMasks} (h1 : a.output_equal = b.output_equal)
    (h2 : a.output_success = b.output_success) (h3 : a.output_fail = b.output_fail) : a = b := by
  cases a; cases b
  simp only at h1 h2 h3
  rw [h1, h2, h3]

theorem aggregate_comm (OP : Bitwise) (hOP : OP = Bitwise.kAnd ∨ OP = Bitwise.kOr)
    (o1 o2 a b : AggMasks) : aggregate OP o1 a b = aggregate OP o2 b a := by
  rcases hOP with rfl | rfl <;>
  · apply aggMasks_eq <;> apply AvxUnit.ext_bit <;> intro i j hj <;>
      simp only [aggregate, computeForEarlyStop, bit_and, bit_or, bit_andnot _ _ _ hj] <;>
      cases a.output_equal.bit i j <;> cases a.output_success.bit i j <;>
      cases a.output_fail.bit i j <;> cases b.output_equal.bit i j <;>
      cases b.output_success.bit i j <;> cases b.output_fail.bit i j <;> rfl

theorem aggregate_assoc (OP : Bitwise) (hOP : OP = Bitwise.kAnd ∨ OP = Bitwise.kOr)
    (o1 o2 o3 o4 a b c : AggMasks) :
    aggregate OP o1 (aggregate OP o2 a b) c = aggregate OP o3 a (aggregate OP o4 b c) := by
  rcases hOP with rfl | rfl <;>
  · apply aggMasks_eq <;> apply AvxUnit.ext_bit <;> intro i j hj <;>
      simp only [aggregate, computeForEarlyStop, bit_and, bit_or, bit_andnot _ _ _ hj] <;>
      cases a.output_equal.bit i j <;> cases a.output_success.bit i j <;>
      cases a.output_fail.bit i j <;> cases b.output_equal.bit i j <;>
      cases b.output_success.bit i j <;> cases b.output_fail.bit i j <;>
      cases c.output_equal.bit i j <;> cases c.output_success.bit i j <;>
      cases c.output_fail.bit i j <;> rfl

/-- C14. The early-stop aggregator is commutative and associative under a fixed combinator:
with `computeForEarlyStop<OP>` (OP = kAnd or kOr) seen as a binary operation on triples
(equal, success, fail) of vectors, for all triples `a`, `b`, `c`, agg(a, b) = agg(b, a) and
agg(agg(a, b), c) = agg(a, agg(b, c)), on all three outputs and whatever the outputs held
on entry. -/
theorem aggregate_comm_assoc (o1 o2 o3 o4 a b c : AggMasks) :
    aggregate Bitwise.kAnd o1 a b = aggregate Bitwise.kAnd o2 b a ∧
    aggregate Bitwise.kAnd o1 (aggregate Bitwise.kAnd o2 a b) c =
      aggregate Bitwise.kAnd o3 a (aggregate Bitwise.kAnd o4 b c) ∧
    aggregate Bitwise.kOr o1 a b = aggregate Bitwise.kOr o2 b a ∧
    aggregate Bitwise.kOr o1 (aggregate Bitwise.kOr o2 a b) c =
      aggregate Bitwise.kOr o3 a (aggregate Bitwise.kOr o4 b c) :=
  ⟨aggregate_comm _ (Or.inl rfl) o1 o2 a b, aggregate_assoc _ (Or.inl rfl) o1 o2 o3 o4 a b c,
    aggregate_comm _ (Or.inr rfl) o1 o2 a b, aggregate_assoc _ (Or.inr rfl) o1 o2 o3 o4 a b c⟩

/-! ### Layout arithmetic of the caller -/

/-- C19. Derived layout arithmetic: for every bit width `b` with `1 <= b <= 32`, the
expressions of `run`, `kNumBytesPerCode = (b + 7) / 8` and `kNumPaddingBits =
kNumBytesPerCode*8 - b`, give `kNumBytesPerCode = ceil(b/8)` (the least `n` with
`b <= 8*n`) with `1 <= kNumBytesPerCode <= 4`, and `kNumPaddingBits = 8*ceil(b/8) - b`
with `0 <= kNumPaddingBits <= 7`; bit width 1 gives byte count 1 and bit width 32 gives
byte count 4. -/
theorem layout_arithmetic (b : Nat) (h1 : 1 ≤ b) (h32 : b ≤ 32) :
    run_kNumBytesPerCode_1 b = (b + 7) / 8 ∧
    run_kNumBytesPerCode_1 b = ⌈(b : ℚ) / 8⌉₊ ∧
    b ≤ 8 * run_kNumBytesPerCode_1 b ∧ 8 * (run_kNumBytesPerCode_1 b - 1) < b ∧
    1 ≤ run_kNumBytesPerCode_1 b ∧ run_kNumBytesPerCode_1 b ≤ 4 ∧
    run_kNumPaddingBits_1 b = run_kNumBytesPerCode_1 b * 8 - b ∧
    0 ≤ run_kNumPaddingBits_1 b ∧ run_kNumPaddingBits_1 b ≤ 7 ∧
    run_kNumBytesPerCode_1 1 = 1 ∧ run_kNumBytesPerCode_1 32 = 4 := by
  have hnb : run_kNumBytesPerCode_1 b = (b + 7) / 8 := by
    unfold run_kNumBytesPerCode_1
    rw [Nat.mod_eq_of_lt (by omega)]
  have hceil : run_kNumBytesPerCode_1 b = ⌈(b : ℚ) / 8⌉₊ := by
    rw [hnb]
    symm
    rw [Nat.ceil_eq_iff (by omega)]
    constructor
    · rw [lt_div_iff₀ (by norm_num)]
      exact_mod_cast (by omega : ((b + 7) / 8 - 1) * 8 < b)
    · rw [div_le_iff₀ (by norm_num)]
      exact_mod_cast (by omega : b ≤ (b + 7) / 8 * 8)
  have hpad : run_kNumPaddingBits_1 b = run_kNumBytesPerCode_1 b * 8 - b := by
    unfold run_kNumPaddingBits_1
    rw [hnb]
    omega
  refine ⟨hnb, hceil, ?_, ?_, ?_, ?_, hpad, Nat.zero_le _, ?_, by decide, by decide⟩ <;>
    (try rw [hpad]) <;> rw [hnb] <;> omega

/-- Witness of `layout_arithmetic`: bit width 12, the width of the shipped run, with byte
count 2 and padding 4. -/
theorem layout_arithmetic_witness :
    1 ≤ 12 ∧ 12 ≤ 32 ∧ run_kNumBytesPerCode_1 12 = 2 ∧ run_kNumPaddingBits_1 12 = 4 ∧
    run_kNumBytesPerCode_1 12 = (12 + 7) / 8 ∧
    run_kNumPaddingBits_1 12 = run_kNumBytesPerCode_1 12 * 8 - 12 :=
  ⟨by decide, by decide, by decide, by decide,
    (layout_arithmetic 12 (by decide) (by decide)).1,
    (layout_arithmetic 12 (by decide) (by decide)).2.2.2.2.2.2.1⟩

/-! ### Footprint of the scan -/

theorem scanBatch_total (CMP1 CMP2 : Comparator) (OP : Bitwise) (data_1 : List (List ByteUnit))
    (lit1 lit2 : List AvxUnit) (pos : Nat) (u : BatchLocals)
    (h0 : pos + 32 ≤ (data_1.getD 0 []).length) (h1 : pos + 32 ≤ (data_1.getD 1 []).length) :
    ∃ r, scanBatch CMP1 CMP2 OP data_1 lit1 lit2 pos u = some r := by
  rw [scanBatch_eq, avx_load_some _ _ h0, avx_load_some _ _ h1]
  simp only [Option.some_bind]
  by_cases hz : avx_iszero (aggEqual CMP1 CMP2 OP
      (fun i : Fin 32 => (data_1.getD 0 []).getD (pos + i.val) 0) lit1 lit2 u) = true
  · rw [if_pos hz]; exact ⟨_, rfl⟩
  · rw [if_neg hz]; exact ⟨_, rfl⟩

theorem batchLoop_total (CMP1 CMP2 : Comparator) (OP : Bitwise) (uninit : Nat → BatchLocals)
    (data_1 : List (List ByteUnit)) (lit1 lit2 : List AvxUnit) (offset : Nat)
    (h0 : offset + 64 ≤ (data_1.getD 0 []).length)
    (h1 : offset + 64 ≤ (data_1.getD 1 []).length) :
    ∃ x, batchLoop CMP1 CMP2 OP uninit data_1 lit1 lit2 offset 3 0 0 = some x := by
  obtain ⟨r0, e0⟩ := scanBatch_total CMP1 CMP2 OP data_1 lit1 lit2 (offset + 0)
    (uninit (offset + 0)) (by omega) (by omega)
  obtain ⟨r1, e1⟩ := scanBatch_total CMP1 CMP2 OP data_1 lit1 lit2 (offset + 32)
    (uninit (offset + 32)) (by omega) (by omega)
  rw [batchLoop_unroll, e0, e1]
  exact ⟨_, rfl⟩

theorem wordLoop_logged_fst (CMP1 CMP2 : Comparator) (OP : Bitwise)
    (uninit : Nat → BatchLocals) (len : Nat) (data_1 : List (List ByteUnit))
    (lit1 lit2 : List AvxUnit) :
    ∀ fuel offset w bm log,
      (wordLoop_logged CMP1 CMP2 OP uninit len data_1 lit1 lit2 fuel offset w bm log).map
        Prod.fst = wordLoop CMP1 CMP2 OP uninit len data_1 lit1 lit2 fuel offset w bm := by
  intro fuel
  induction fuel with
  | zero => intro offset w bm log; rfl
  | succ fuel ih =>
    intro offset w bm log
    rw [wordLoop_logged, wordLoop]
    by_cases hlt : offset < len
    · rw [if_pos hlt, if_pos hlt]
      cases batchLoop CMP1 CMP2 OP uninit data_1 lit1 lit2 offset 3 0 0 with
      | none => rfl
      | some x =>
        simp only [Option.bind_eq_bind, Option.some_bind]
        cases storeWord bm w x with
        | none => rfl
        | some bm2 =>
          simp only [Option.some_bind]
          exact ih _ _ _ _
    · rw [if_neg hlt, if_neg hlt]
      rfl

/-- The logged word loop from word `k` on, for every combinator: when planes 0 and 1 hold
the padded tuple count, the bitmap has a word for every 64 tuples and the padded tuple
count is a `size_t` value, the loop ends, it stores the words `k, k+1, .., nW - 1` in this
order and leaves the other words as they are. -/
theorem wordLoop_logged_spec (CMP1 CMP2 : Comparator) (OP : Bitwise)
    (uninit : Nat → BatchLocals) (len : Nat)
    (data_1 : List (List ByteUnit)) (lit1 lit2 : List AvxUnit)
    (h0 : 64 * ((len + 63) / 64) ≤ (data_1.getD 0 []).length)
    (h1 : 64 * ((len + 63) / 64) ≤ (data_1.getD 1 []).length)
    (hsz : 64 * ((len + 63) / 64) < 2 ^ 64) :
    ∀ (n k fuel : Nat) (bm log : List Nat), k + n = (len + 63) / 64 → n + 1 ≤ fuel →
      (len + 63) / 64 ≤ bm.length →
      ∃ bm', wordLoop_logged CMP1 CMP2 OP uninit len data_1 lit1 lit2 fuel (64 * k) k bm log =
          some (bm', log ++ List.range' k n) ∧
        bm'.length = bm.length ∧
        (∀ w, w < k ∨ (len + 63) / 64 ≤ w → bm'.getD w 0 = bm.getD w 0) := by
  intro n
  induction n with
  | zero =>
    intro k fuel bm log hk hf hbm
    obtain ⟨f, rfl⟩ : ∃ f, fuel = f + 1 := ⟨fuel - 1, by omega⟩
    have hnot : ¬ 64 * k < len := by omega
    refine ⟨bm, ?_, rfl, fun _ _ => rfl⟩
    rw [wordLoop_logged, if_neg hnot]
    simp
  | succ n ih =>
    intro k fuel bm log hk hf hbm
    obtain ⟨f, rfl⟩ : ∃ f, fuel = f + 1 := ⟨fuel - 1, by omega⟩
    have hlt : 64 * k < len := by omega
    obtain ⟨x, ex⟩ := batchLoop_total CMP1 CMP2 OP uninit data_1 lit1 lit2 (64 * k)
      (by omega) (by omega)
    have hst := storeWord_some bm k x (by omega)
    have hwrap : (64 * k + NUM_WORD_BITS) % 2 ^ 64 = 64 * (k + 1) := by
      rw [Nat.mod_eq_of_lt] <;> simp only [NUM_WORD_BITS] <;> omega
    obtain ⟨bm', e', hl', hfr⟩ := ih (k + 1) f (bm.set k x) (log ++ [k]) (by omega) (by omega)
      (by rw [List.length_set]; exact hbm)
    refine ⟨bm', ?_, ?_, ?_⟩
    · rw [wordLoop_logged, if_pos hlt, ex]
      simp only [Option.bind_eq_bind, Option.some_bind, hst, hwrap]
      rw [e']
      simp [List.range'_succ]
    · rw [hl', List.length_set]
    · intro w hw
      rw [hfr w (by omega)]
      have hne : k ≠ w := by omega
      simp only [List.getD_eq_getElem?_getD, List.getElem?_set_ne hne]

/-- The logged scan, for every comparator pair, combinator, literal, padding and byte
count argument: the shared core of the footprint statements. -/
theorem Q15_logged_core (CMP1 CMP2 : Comparator) (OP : Bitwise) (uninit : Nat → BatchLocals)
    (bitmap : List Nat) (len : Nat) (data_1 : List (List ByteUnit))
    (literal_1 kNumBytesPerCode_1 kNumPaddingBits_1 literal_2 : Nat)
    (hp0 : 64 * ((len + 63) / 64) ≤ (data_1.getD 0 []).length)
    (hp1 : 64 * ((len + 63) / 64) ≤ (data_1.getD 1 []).length)
    (hsz : 64 * ((len + 63) / 64) < 2 ^ 64)
    (hbm : (len + 63) / 64 ≤ bitmap.length) :
    ∃ bitmap', Q15_logged CMP1 CMP2 OP uninit bitmap len data_1 literal_1 kNumBytesPerCode_1
        kNumPaddingBits_1 literal_2 = some (bitmap', List.range ((len + 63) / 64)) ∧
      Q15_cmp_with_literal_P_S CMP1 CMP2 OP uninit bitmap len data_1 literal_1
        kNumBytesPerCode_1 kNumPaddingBits_1 literal_2 = some bitmap' ∧
      bitmap'.length = bitmap.length ∧
      ∀ w, (len + 63) / 64 ≤ w → bitmap'.getD w 0 = bitmap.getD w 0 := by
  obtain ⟨bm', e, hl, hfr⟩ := wordLoop_logged_spec CMP1 CMP2 OP uninit len data_1
    (mask_literal literal_1 2 kNumPaddingBits_1) (mask_literal literal_2 2 kNumPaddingBits_1)
    hp0 hp1 hsz ((len + 63) / 64) 0 (len / 64 + 2) bitmap [] (by omega) (by omega) hbm
  refine ⟨bm', ?_, ?_, hl, fun w hw => hfr w (Or.inr hw)⟩
  · rw [List.range_eq_range']
    simpa using e
  · have := wordLoop_logged_fst CMP1 CMP2 OP uninit len data_1
      (mask_literal literal_1 2 kNumPaddingBits_1) (mask_literal literal_2 2 kNumPaddingBits_1)
      (len / 64 + 2) 0 0 bitmap []
    rw [show (0 : Nat) = 64 * 0 from rfl, e] at this
    exact this.symm

/-- C16. Bitmap write footprint: for every tuple count `len`, `Q15_cmp_with_literal_P_S`
returns a bitmap, and the log of its stores is `0, 1, .., ceil(len/64) - 1`: it writes
exactly these words, each exactly once and in strictly increasing index order; every other
bitmap word is unchanged, and for `len = 0` no word is written and the bitmap is
unchanged. The planes 0 and 1 hold the tuple count rounded up to 64, the bitmap has a word
for every 64 tuples and the rounded tuple count is a `size_t` value. -/
theorem bitmap_write_footprint (CMP1 CMP2 : Comparator) (OP : Bitwise)
    (uninit : Nat → BatchLocals) (bitmap : List Nat) (len : Nat)
    (data_1 : List (List ByteUnit))
    (literal_1 kNumBytesPerCode_1 kNumPaddingBits_1 literal_2 : Nat)
    (hp0 : 64 * ((len + 63) / 64) ≤ (data_1.getD 0 []).length)
    (hp1 : 64 * ((len + 63) / 64) ≤ (data_1.getD 1 []).length)
    (hsz : 64 * ((len + 63) / 64) < 2 ^ 64)
    (hbm : (len + 63) / 64 ≤ bitmap.length) :
    ∃ bitmap' written,
      Q15_logged CMP1 CMP2 OP uninit bitmap len data_1 literal_1 kNumBytesPerCode_1
        kNumPaddingBits_1 literal_2 = some (bitmap', written) ∧
      Q15_cmp_with_literal_P_S CMP1 CMP2 OP uninit bitmap len data_1 literal_1
        kNumBytesPerCode_1 kNumPaddingBits_1 literal_2 = some bitmap' ∧
      written = List.range ((len + 63) / 64) ∧
      written.Pairwise (fun a b => a < b) ∧ written.Nodup ∧
      (∀ w, w ∈ written ↔ w < (len + 63) / 64) ∧
      bitmap'.length = bitmap.length ∧
      (∀ w, w ∉ written → bitmap'.getD w 0 = bitmap.getD w 0) ∧
      (len = 0 → written = [] ∧ bitmap' = bitmap) := by
  obtain ⟨bm', e1, e2, hl, hfr⟩ := Q15_logged_core CMP1 CMP2 OP uninit bitmap len data_1
    literal_1 kNumBytesPerCode_1 kNumPaddingBits_1 literal_2 hp0 hp1 hsz hbm
  refine ⟨bm', _, e1, e2, rfl, List.pairwise_lt_range _, List.nodup_range _,
    fun w => List.mem_range, hl, ?_, ?_⟩
  · intro w hw
    exact hfr w (by rw [List.mem_range] at hw; omega)
  · intro h0
    subst h0
    refine ⟨rfl, ?_⟩
    have : Q15_cmp_with_literal_P_S CMP1 CMP2 OP uninit bitmap 0 data_1 literal_1
        kNumBytesPerCode_1 kNumPaddingBits_1 literal_2 = some bitmap := by
      simp [Q15_cmp_with_literal_P_S, wordLoop]
    rw [e2] at this
    exact Option.some.inj this

set_option maxRecDepth 100000 in
/-- Witness of `bitmap_write_footprint`: the concrete scenario of the shipped run on a
bitmap of two words; word 0 is written, word 1 keeps its value 77. -/
theorem bitmap_write_footprint_witness :
    64 * ((6 + 63) / 64) ≤ (scenarioPlanes.getD 0 []).length ∧
    64 * ((6 + 63) / 64) ≤ (scenarioPlanes.getD 1 []).length ∧
    64 * ((6 + 63) / 64) < 2 ^ 64 ∧ (6 + 63) / 64 ≤ [0, 77].length ∧
    Q15_logged Comparator.kGreater Comparator.kLess Bitwise.kAnd (fun _ => zeroLocals)
      [0, 77] 6 scenarioPlanes 2233 2 4 2326 = some ([12, 77], [0]) ∧
    ∃ bitmap' written,
      Q15_logged Comparator.kGreater Comparator.kLess Bitwise.kAnd (fun _ => zeroLocals)
        [0, 77] 6 scenarioPlanes 2233 2 4 2326 = some (bitmap', written) ∧
      Q15_cmp_with_literal_P_S Comparator.kGreater Comparator.kLess Bitwise.kAnd
        (fun _ => zeroLocals) [0, 77] 6 scenarioPlanes 2233 2 4 2326 = some bitmap' ∧
      written = List.range ((6 + 63) / 64) ∧
      written.Pairwise (fun a b => a < b) ∧ written.Nodup ∧
      (∀ w, w ∈ written ↔ w < (6 + 63) / 64) ∧
      bitmap'.length = [0, 77].length ∧
      (∀ w, w ∉ written → bitmap'.getD w 0 = [0, 77].getD w 0) ∧
      (6 = 0 → written = [] ∧ bitmap' = [0, 77]) :=
  ⟨by decide, by decide, by decide, by decide, by decide,
    bitmap_write_footprint Comparator.kGreater Comparator.kLess Bitwise.kAnd
      (fun _ => zeroLocals) [0, 77] 6 scenarioPlanes 2233 2 4 2326
      (by decide) (by decide) (by decide) (by decide)⟩

set_option maxRecDepth 100000 in
/-- C17, as stated, fails. The scenario of the shipped run has bit width 12, whose byte
count is 2. Called with the byte count argument 1, and called with the byte count argument
5, which no bit width in 1..32 has, `Q15_cmp_with_literal_P_S` reports no fault: it returns
a bitmap, and the bitmap has changed from the word 0 to the word 12. -/
theorem Q15_accepts_inconsistent_byte_count :
    (12 + 7) / 8 ≠ 1 ∧
    Q15_cmp_with_literal_P_S Comparator.kGreater Comparator.kLess Bitwise.kAnd
      (fun _ => zeroLocals) [0] 6 scenarioPlanes 2233 1 4 2326 = some [12] ∧
    (∀ b, 1 ≤ b → b ≤ 32 → (b + 7) / 8 ≠ 5) ∧
    Q15_cmp_with_literal_P_S Comparator.kGreater Comparator.kLess Bitwise.kAnd
      (fun _ => zeroLocals) [0] 6 scenarioPlanes 2233 5 4 2326 = some [12] ∧
    ([12] : List Nat) ≠ [0] := by
  refine ⟨by decide, by decide, ?_, by decide, by decide⟩
  intro b h1 h2
  omega

/-- C17, amended. `Q15_cmp_with_literal_P_S` does not validate the layout: whatever byte
count argument it is entered with, consistent with a bit width or not, it overwrites the
argument with 2 and runs exactly as for the byte count 2; when planes 0 and 1 hold the
tuple count rounded up to 64 and the bitmap has a word for every 64 tuples, it reports no
fault and stores the bitmap words `0 .. ceil(len/64) - 1`. -/
theorem Q15_no_layout_validation (CMP1 CMP2 : Comparator) (OP : Bitwise)
    (uninit : Nat → BatchLocals) (bitmap : List Nat) (len : Nat)
    (data_1 : List (List ByteUnit))
    (literal_1 kNumBytesPerCode_1 kNumPaddingBits_1 literal_2 : Nat)
    (hp0 : 64 * ((len + 63) / 64) ≤ (data_1.getD 0 []).length)
    (hp1 : 64 * ((len + 63) / 64) ≤ (data_1.getD 1 []).length)
    (hsz : 64 * ((len + 63) / 64) < 2 ^ 64)
    (hbm : (len + 63) / 64 ≤ bitmap.length) :
    Q15_cmp_with_literal_P_S CMP1 CMP2 OP uninit bitmap len data_1 literal_1
        kNumBytesPerCode_1 kNumPaddingBits_1 literal_2 =
      Q15_cmp_with_literal_P_S CMP1 CMP2 OP uninit bitmap len data_1 literal_1
        2 kNumPaddingBits_1 literal_2 ∧
    ∃ bitmap', Q15_cmp_with_literal_P_S CMP1 CMP2 OP uninit bitmap len data_1 literal_1
        kNumBytesPerCode_1 kNumPaddingBits_1 literal_2 = some bitmap' ∧
      Q15_logged CMP1 CMP2 OP uninit bitmap len data_1 literal_1 kNumBytesPerCode_1
        kNumPaddingBits_1 literal_2 = some (bitmap', List.range ((len + 63) / 64)) := by
  obtain ⟨bm', e1, e2, -, -⟩ := Q15_logged_core CMP1 CMP2 OP uninit bitmap len data_1
    literal_1 kNumBytesPerCode_1 kNumPaddingBits_1 literal_2 hp0 hp1 hsz hbm
  exact ⟨rfl, bm', e2, e1⟩

set_option maxRecDepth 100000 in
/-- Witness of `Q15_no_layout_validation`: the scenario of the shipped run, called with the
byte count argument 7. -/
theorem Q15_no_layout_validation_witness :
    64 * ((6 + 63) / 64) ≤ (scenarioPlanes.getD 0 []).length ∧
    64 * ((6 + 63) / 64) ≤ (scenarioPlanes.getD 1 []).length ∧
    64 * ((6 + 63) / 64) < 2 ^ 64 ∧ (6 + 63) / 64 ≤ [0].length ∧
    Q15_cmp_with_literal_P_S Comparator.kGreater Comparator.kLess Bitwise.kAnd
        (fun _ => zeroLocals) [0] 6 scenarioPlanes 2233 7 4 2326 =
      Q15_cmp_with_literal_P_S Comparator.kGreater Comparator.kLess Bitwise.kAnd
        (fun _ => zeroLocals) [0] 6 scenarioPlanes 2233 2 4 2326 ∧
    ∃ bitmap', Q15_cmp_with_literal_P_S Comparator.kGreater Comparator.kLess Bitwise.kAnd
        (fun _ => zeroLocals) [0] 6 scenarioPlanes 2233 7 4 2326 = some bitmap' ∧
      Q15_logged Comparator.kGreater Comparator.kLess Bitwise.kAnd (fun _ => zeroLocals)
        [0] 6 scenarioPlanes 2233 7 4 2326 = some (bitmap', List.range ((6 + 63) / 64)) :=
  ⟨by decide, by decide, by decide, by decide,
    Q15_no_layout_validation Comparator.kGreater Comparator.kLess Bitwise.kAnd
      (fun _ => zeroLocals) [0] 6 scenarioPlanes 2233 7 4 2326
      (by decide) (by decide) (by decide) (by decide)⟩

/-- C18. In-bounds access under the padded-length precondition: for every tuple count
`len`, if planes 0 and 1 each have length at least `64*ceil(len/64)` and the bitmap has at
least `ceil(len/64)` words (the rounded tuple count being a `size_t` value), then every
32-byte column load of the scan, at `offset + i` for `offset` a multiple of 64 below `len`
and `i` in {0, 32}, and every bitmap store, at word `offset / 64`, lies within its buffer,
and the scan returns a bitmap: no indexing in it returns none. -/
theorem scan_in_bounds (CMP1 CMP2 : Comparator) (OP : Bitwise)
    (uninit : Nat → BatchLocals) (bitmap : List Nat) (len : Nat)
    (data_1 : List (List ByteUnit))
    (literal_1 kNumBytesPerCode_1 kNumPaddingBits_1 literal_2 : Nat)
    (hp0 : 64 * ((len + 63) / 64) ≤ (data_1.getD 0 []).length)
    (hp1 : 64 * ((len + 63) / 64) ≤ (data_1.getD 1 []).length)
    (hsz : 64 * ((len + 63) / 64) < 2 ^ 64)
    (hbm : (len + 63) / 64 ≤ bitmap.length) :
    (∀ offset i, offset % 64 = 0 → offset < len → i = 0 ∨ i = 32 →
      (avx_load (data_1.getD 0 []) (offset + i)).isSome = true ∧
      (avx_load (data_1.getD 1 []) (offset + i)).isSome = true ∧
      ∀ bm x, bm.length = bitmap.length → (storeWord bm (offset / 64) x).isSome = true) ∧
    (Q15_cmp_with_literal_P_S CMP1 CMP2 OP uninit bitmap len data_1 literal_1
      kNumBytesPerCode_1 kNumPaddingBits_1 literal_2).isSome = true := by
  constructor
  · intro offset i hmod hlt hi
    have hb : offset + i + 32 ≤ 64 * ((len + 63) / 64) := by
      rcases hi with rfl | rfl <;> omega
    refine ⟨?_, ?_, fun bm x hbl => ?_⟩
    · rw [avx_load_some _ _ (by omega)]; rfl
    · rw [avx_load_some _ _ (by omega)]; rfl
    · rw [storeWord_some bm _ x (by omega)]; rfl
  · obtain ⟨bm', -, e2, -, -⟩ := Q15_logged_core CMP1 CMP2 OP uninit bitmap len data_1
      literal_1 kNumBytesPerCode_1 kNumPaddingBits_1 literal_2 hp0 hp1 hsz hbm
    rw [e2]; rfl

set_option maxRecDepth 100000 in
/-- Witness of `scan_in_bounds`: the concrete scenario of the shipped run. -/
theorem scan_in_bounds_witness :
    64 * ((6 + 63) / 64) ≤ (scenarioPlanes.getD 0 []).length ∧
    64 * ((6 + 63) / 64) ≤ (scenarioPlanes.getD 1 []).length ∧
    64 * ((6 + 63) / 64) < 2 ^ 64 ∧ (6 + 63) / 64 ≤ [0].length ∧
    (avx_load (scenarioPlanes.getD 1 []) (0 + 32)).isSome = true ∧
    (Q15_cmp_with_literal_P_S Comparator.kGreater Comparator.kLess Bitwise.kAnd
      (fun _ => zeroLocals) [0] 6 scenarioPlanes 2233 2 4 2326).isSome = true :=
  ⟨by decide, by decide, by decide, by decide,
    ((scan_in_bounds Comparator.kGreater Comparator.kLess Bitwise.kAnd
      (fun _ => zeroLocals) [0] 6 scenarioPlanes 2233 2 4 2326
      (by decide) (by decide) (by decide) (by decide)).1 0 32 (by decide) (by decide)
      (Or.inr rfl)).2.1,
    (scan_in_bounds Comparator.kGreater Comparator.kLess Bitwise.kAnd
      (fun _ => zeroLocals) [0] 6 scenarioPlanes 2233 2 4 2326
      (by decide) (by decide) (by decide) (by decide)).2⟩

/-! ### The tri-state masks inside the driver -/

theorem refinedResult_points (CMP1 CMP2 : Comparator) (OP : Bitwise) (d0 d1 : AvxUnit)
    (lit1 lit2 : List AvxUnit) (u : BatchLocals) :
    refinedResult CMP1 CMP2 OP d0 d1 lit1 lit2 u =
      computeConjunctivePredicates OP
        (resolveMasks CMP1 (refinedMasks_1 CMP1 CMP2 OP d0 d1 lit1 lit2 u))
        (resolveMasks CMP2 (refinedMasks_2 CMP1 CMP2 OP d0 d1 lit1 lit2 u)) u.m_result :=
  rfl

theorem skippedResult_points (CMP1 CMP2 : Comparator) (OP : Bitwise) (d0 : AvxUnit)
    (lit1 lit2 : List AvxUnit) (u : BatchLocals) :
    skippedResult CMP1 CMP2 OP d0 lit1 lit2 u =
      computeConjunctivePredicates OP (resolveMasks CMP1 (firstMasks_1 CMP1 d0 lit1 u))
        (resolveMasks CMP2 (firstMasks_2 CMP2 d0 lit2 u)) u.m_result :=
  rfl

theorem scanBatch_resolver_points (CMP1 CMP2 : Comparator) (OP : Bitwise)
    (data_1 : List (List ByteUnit)) (lit1 lit2 : List AvxUnit) (pos : Nat) (u : BatchLocals)
    (d0 d1 : AvxUnit) (h0 : avx_load (data_1.getD 0 []) pos = some d0)
    (h1 : avx_load (data_1.getD 1 []) pos = some d1) :
    scanBatch CMP1 CMP2 OP data_1 lit1 lit2 pos u =
      some (computeConjunctivePredicates OP
        (resolveMasks CMP1 (resolverMasks_1 CMP1 CMP2 OP d0 d1 lit1 lit2 u))
        (resolveMasks CMP2 (resolverMasks_2 CMP1 CMP2 OP d0 d1 lit1 lit2 u)) u.m_result) := by
  rw [scanBatch_eq, h0, h1]
  simp only [Option.some_bind]
  unfold resolverMasks_1 resolverMasks_2
  by_cases hz : avx_iszero (aggEqual CMP1 CMP2 OP d0 lit1 lit2 u) = true
  · rw [if_pos hz, if_pos hz, if_pos hz]; rfl
  · rw [if_neg hz, if_neg hz, if_neg hz]; rfl

theorem exists_lane_of_not_iszero {a : AvxUnit} (h : avx_iszero a = false) :
    ∃ i, a i ≠ 0 := by
  by_contra hne
  have hall : avx_iszero a = true := by
    unfold avx_iszero
    rw [List.all_eq_true]
    intro i _
    have : a i = 0 := by
      by_contra hc
      exact hne ⟨i, hc⟩
    simp [this]
  rw [hall] at h
  exact Bool.noConfusion h

/-- In the shipped configuration (`>`, `<`, AND) with broadcast literal bytes `a` and `b`,
a batch that runs the refine stage has `agg_equal` set in every lane in which one of the two
equal masks is set, so the masking of the equal masks changes nothing. -/
theorem shipped_mask_noop (d0 : AvxUnit) (a b : ByteUnit) (m1 m2 : KernelMasks)
    (out : AggMasks) (g : AvxUnit)
    (hg : g = (computeForEarlyStop Bitwise.kAnd
      (computeKernelWithMask_FIRST Comparator.kGreater d0 (avx_set1 a) m1).mask_equal
      (computeKernelWithMask_FIRST Comparator.kGreater d0 (avx_set1 a) m1).mask_success
      (computeKernelWithMask_FIRST Comparator.kGreater d0 (avx_set1 a) m1).mask_fail
      (computeKernelWithMask_FIRST Comparator.kLess d0 (avx_set1 b) m2).mask_equal
      (computeKernelWithMask_FIRST Comparator.kLess d0 (avx_set1 b) m2).mask_success
      (computeKernelWithMask_FIRST Comparator.kLess d0 (avx_set1 b) m2).mask_fail
      out).output_equal)
    (hz : avx_iszero g = false) :
    avx_and (avx_cmpeq d0 (avx_set1 a)) g = avx_cmpeq d0 (avx_set1 a) ∧
    avx_and (avx_cmpeq d0 (avx_set1 b)) g = avx_cmpeq d0 (avx_set1 b) := by
  have hbit : ∀ i j, j < 8 → g.bit i j =
      ((!decide (laneByte d0 i < laneByte (avx_set1 a) i) &&
          decide (laneByte d0 i = laneByte (avx_set1 b) i)) ||
        (!decide (laneByte (avx_set1 b) i < laneByte d0 i) &&
          decide (laneByte d0 i = laneByte (avx_set1 a) i))) := by
    intro i j hj
    rw [hg]
    simp only [computeForEarlyStop, computeKernelWithMask_FIRST, bit_or, bit_andnot _ _ _ hj,
      bit_cmplt_flip _ _ _ hj, bit_cmpgt_flip _ _ _ hj, bit_cmpeq_flip _ _ _ hj]
  have hA : ∀ i : Fin 32, laneByte (avx_set1 a) i = (FLIP a).val := fun _ => rfl
  have hB : ∀ i : Fin 32, laneByte (avx_set1 b) i = (FLIP b).val := fun _ => rfl
  obtain ⟨i0, hi0⟩ := exists_lane_of_not_iszero hz
  obtain ⟨j0, hj0, hb0⟩ := exists_bit_of_ne_zero g i0 hi0
  rw [hbit i0 j0 hj0, hA, hB] at hb0
  have hle : (FLIP a).val ≤ (FLIP b).val := by
    simp only [Bool.or_eq_true, Bool.and_eq_true, Bool.not_eq_true', decide_eq_false_iff_not,
      decide_eq_true_eq] at hb0
    omega
  constructor
  · apply AvxUnit.ext_bit
    intro i j hj
    rw [bit_and, hbit i j hj, bit_cmpeq_flip _ _ _ hj, hA, hB]
    rw [Bool.eq_iff_iff]
    simp only [Bool.or_eq_true, Bool.and_eq_true, Bool.not_eq_true', decide_eq_false_iff_not,
      decide_eq_true_eq]
    omega
  · apply AvxUnit.ext_bit
    intro i j hj
    rw [bit_and, hbit i j hj, bit_cmpeq_flip _ _ _ hj, hA, hB]
    rw [Bool.eq_iff_iff]
    simp only [Bool.or_eq_true, Bool.and_eq_true, Bool.not_eq_true', decide_eq_false_iff_not,
      decide_eq_true_eq]
    omega

theorem refined_triState (CMP : Comparator) (hC : CMP.isOrdering = true) (d l : AvxUnit)
    (m : KernelMasks) (i : Fin 32) (h : triState m i) :
    triState (computeKernelWithMask CMP d l m) i := by
  unfold triState at *
  cases CMP <;> simp [Comparator.isOrdering] at hC <;>
    simpa [computeKernelWithMask] using
      refine_partition_aux _ _ _ _ _ _ i h (cmp_lanes d l i)

theorem first_triState (CMP : Comparator) (hC : CMP.isOrdering = true) (d l : AvxUnit)
    (m : KernelMasks) (i : Fin 32) : triState (computeKernelWithMask_FIRST CMP d l m) i := by
  unfold triState
  cases CMP <;> simp [Comparator.isOrdering] at hC <;>
    simpa [computeKernelWithMask_FIRST] using cmp_lanes d l i

/-- C20. Tri-state invariant inside the scan driver: in every batch of
`Q15_cmp_with_literal_P_S` (comparators `>` and `<`, combinator AND, as the macros of the
file set them; any loaded slices `d0`, `d1`, any literals and padding, any uninitialised
locals) and for each of its two predicates, every lane has exactly one of the predicate's
`m_equal`, `m_less`, `m_greater` set after the first-slice kernel and, when the refine
stage runs (`agg_equal` is not zero), after the masking of the equal mask with `agg_equal`
and after the refine kernel; and so at the point where `computeMask_one_predicate` is
invoked, which is the state after the first-slice kernel when the refine stage is skipped
and the state after the refine kernel otherwise. -/
theorem driver_tri_state (d0 d1 : AvxUnit) (literal_1 literal_2 kNumPaddingBits_1 : Nat)
    (u : BatchLocals) (i : Fin 32) :
    triState (firstMasks_1 FIRST_COMPARISON_TYPE d0
      (mask_literal literal_1 2 kNumPaddingBits_1) u) i ∧
    triState (firstMasks_2 SECOND_COMPARISON_TYPE d0
      (mask_literal literal_2 2 kNumPaddingBits_1) u) i ∧
    (avx_iszero (aggEqual FIRST_COMPARISON_TYPE SECOND_COMPARISON_TYPE PREDICATE_TYPE d0
        (mask_literal literal_1 2 kNumPaddingBits_1)
        (mask_literal literal_2 2 kNumPaddingBits_1) u) = false →
      triState (maskedMasks_1 FIRST_COMPARISON_TYPE SECOND_COMPARISON_TYPE PREDICATE_TYPE d0
        (mask_literal literal_1 2 kNumPaddingBits_1)
        (mask_literal literal_2 2 kNumPaddingBits_1) u) i ∧
      triState (maskedMasks_2 FIRST_COMPARISON_TYPE SECOND_COMPARISON_TYPE PREDICATE_TYPE d0
        (mask_literal literal_1 2 kNumPaddingBits_1)
        (mask_literal literal_2 2 kNumPaddingBits_1) u) i ∧
      triState (refinedMasks_1 FIRST_COMPARISON_TYPE SECOND_COMPARISON_TYPE PREDICATE_TYPE
        d0 d1 (mask_literal literal_1 2 kNumPaddingBits_1)
        (mask_literal literal_2 2 kNumPaddingBits_1) u) i ∧
      triState (refinedMasks_2 FIRST_COMPARISON_TYPE SECOND_COMPARISON_TYPE PREDICATE_TYPE
        d0 d1 (mask_literal literal_1 2 kNumPaddingBits_1)
        (mask_literal literal_2 2 kNumPaddingBits_1) u) i) ∧
    triState (resolverMasks_1 FIRST_COMPARISON_TYPE SECOND_COMPARISON_TYPE PREDICATE_TYPE
      d0 d1 (mask_literal literal_1 2 kNumPaddingBits_1)
      (mask_literal literal_2 2 kNumPaddingBits_1) u) i ∧
    triState (resolverMasks_2 FIRST_COMPARISON_TYPE SECOND_COMPARISON_TYPE PREDICATE_TYPE
      d0 d1 (mask_literal literal_1 2 kNumPaddingBits_1)
      (mask_literal literal_2 2 kNumPaddingBits_1) u) i := by
  have F1 := first_triState Comparator.kGreater rfl d0
    ((mask_literal literal_1 2 kNumPaddingBits_1).getD 0 avx_zero) u.m_1 i
  have F2 := first_triState Comparator.kLess rfl d0
    ((mask_literal literal_2 2 kNumPaddingBits_1).getD 0 avx_zero) u.m_2 i
  have key : avx_iszero (aggEqual FIRST_COMPARISON_TYPE SECOND_COMPARISON_TYPE PREDICATE_TYPE d0
        (mask_literal literal_1 2 kNumPaddingBits_1)
        (mask_literal literal_2 2 kNumPaddingBits_1) u) = false →
      triState (maskedMasks_1 FIRST_COMPARISON_TYPE SECOND_COMPARISON_TYPE PREDICATE_TYPE d0
        (mask_literal literal_1 2 kNumPaddingBits_1)
        (mask_literal literal_2 2 kNumPaddingBits_1) u) i ∧
      triState (maskedMasks_2 FIRST_COMPARISON_TYPE SECOND_COMPARISON_TYPE PREDICATE_TYPE d0
        (mask_literal literal_1 2 kNumPaddingBits_1)
        (mask_literal literal_2 2 kNumPaddingBits_1) u) i ∧
      triState (refinedMasks_1 FIRST_COMPARISON_TYPE SECOND_COMPARISON_TYPE PREDICATE_TYPE
        d0 d1 (mask_literal literal_1 2 kNumPaddingBits_1)
        (mask_literal literal_2 2 kNumPaddingBits_1) u) i ∧
      triState (refinedMasks_2 FIRST_COMPARISON_TYPE SECOND_COMPARISON_TYPE PREDICATE_TYPE
        d0 d1 (mask_literal literal_1 2 kNumPaddingBits_1)
        (mask_literal literal_2 2 kNumPaddingBits_1) u) i := ?_
  · refine ⟨F1, F2, key, ?_, ?_⟩
    · unfold resolverMasks_1
      by_cases hz : avx_iszero (aggEqual FIRST_COMPARISON_TYPE SECOND_COMPARISON_TYPE
          PREDICATE_TYPE d0 (mask_literal literal_1 2 kNumPaddingBits_1)
          (mask_literal literal_2 2 kNumPaddingBits_1) u) = true
      · rw [if_pos hz]; exact F1
      · rw [if_neg hz]; exact (key (by simpa using hz)).2.2.1
    · unfold resolverMasks_2
      by_cases hz : avx_iszero (aggEqual FIRST_COMPARISON_TYPE SECOND_COMPARISON_TYPE
          PREDICATE_TYPE d0 (mask_literal literal_1 2 kNumPaddingBits_1)
          (mask_literal literal_2 2 kNumPaddingBits_1) u) = true
      · rw [if_pos hz]; exact F2
      · rw [if_neg hz]; exact (key (by simpa using hz)).2.2.2
  intro hz
  obtain ⟨n1, n2⟩ := shipped_mask_noop d0
    (FLIP (toByteUnit (((literal_1 <<< kNumPaddingBits_1) % 2 ^ 32) >>> 8)))
    (FLIP (toByteUnit (((literal_2 <<< kNumPaddingBits_1) % 2 ^ 32) >>> 8)))
    u.m_1 u.m_2 u.agg _ rfl hz
  have e1 : avx_and (firstMasks_1 FIRST_COMPARISON_TYPE d0
      (mask_literal literal_1 2 kNumPaddingBits_1) u).mask_equal
      (aggEqual FIRST_COMPARISON_TYPE SECOND_COMPARISON_TYPE PREDICATE_TYPE d0
        (mask_literal literal_1 2 kNumPaddingBits_1)
        (mask_literal literal_2 2 kNumPaddingBits_1) u) =
      (firstMasks_1 FIRST_COMPARISON_TYPE d0
        (mask_literal literal_1 2 kNumPaddingBits_1) u).mask_equal := n1
  have e2 : avx_and (firstMasks_2 SECOND_COMPARISON_TYPE d0
      (mask_literal literal_2 2 kNumPaddingBits_1) u).mask_equal
      (aggEqual FIRST_COMPARISON_TYPE SECOND_COMPARISON_TYPE PREDICATE_TYPE d0
        (mask_literal literal_1 2 kNumPaddingBits_1)
        (mask_literal literal_2 2 kNumPaddingBits_1) u) =
      (firstMasks_2 SECOND_COMPARISON_TYPE d0
        (mask_literal literal_2 2 kNumPaddingBits_1) u).mask_equal := n2
  have M1 : maskedMasks_1 FIRST_COMPARISON_TYPE SECOND_COMPARISON_TYPE PREDICATE_TYPE d0
      (mask_literal literal_1 2 kNumPaddingBits_1)
      (mask_literal literal_2 2 kNumPaddingBits_1) u =
      firstMasks_1 FIRST_COMPARISON_TYPE d0 (mask_literal literal_1 2 kNumPaddingBits_1) u := by
    unfold maskedMasks_1 maskEqual
    rw [e1]
  have M2 : maskedMasks_2 FIRST_COMPARISON_TYPE SECOND_COMPARISON_TYPE PREDICATE_TYPE d0
      (mask_literal literal_1 2 kNumPaddingBits_1)
      (mask_literal literal_2 2 kNumPaddingBits_1) u =
      firstMasks_2 SECOND_COMPARISON_TYPE d0 (mask_literal literal_2 2 kNumPaddingBits_1) u := by
    unfold maskedMasks_2 maskEqual
    rw [e2]
  refine ⟨?_, ?_, ?_, ?_⟩
  · rw [M1]; exact F1
  · rw [M2]; exact F2
  · unfold refinedMasks_1
    rw [M1]
    exact refined_triState Comparator.kGreater rfl d1 _ _ i F1
  · unfold refinedMasks_2
    rw [M2]
    exact refined_triState Comparator.kLess rfl d1 _ _ i F2

set_option maxRecDepth 100000 in
/-- Witness of `driver_tri_state`: the first batch of the concrete scenario, which runs the
refine stage; lane 4 holds the code 2326, which is undecided after the first slice. -/
theorem driver_tri_state_witness :
    avx_iszero (aggEqual FIRST_COMPARISON_TYPE SECOND_COMPARISON_TYPE PREDICATE_TYPE
      (scenarioSlice 0) (mask_literal 2233 2 4) (mask_literal 2326 2 4) zeroLocals) = false ∧
    triState (maskedMasks_1 FIRST_COMPARISON_TYPE SECOND_COMPARISON_TYPE PREDICATE_TYPE
      (scenarioSlice 0) (mask_literal 2233 2 4) (mask_literal 2326 2 4) zeroLocals) 4 ∧
    triState (maskedMasks_2 FIRST_COMPARISON_TYPE SECOND_COMPARISON_TYPE PREDICATE_TYPE
      (scenarioSlice 0) (mask_literal 2233 2 4) (mask_literal 2326 2 4) zeroLocals) 4 ∧
    triState (refinedMasks_1 FIRST_COMPARISON_TYPE SECOND_COMPARISON_TYPE PREDICATE_TYPE
      (scenarioSlice 0) (scenarioSlice 1) (mask_literal 2233 2 4) (mask_literal 2326 2 4)
      zeroLocals) 4 ∧
    triState (refinedMasks_2 FIRST_COMPARISON_TYPE SECOND_COMPARISON_TYPE PREDICATE_TYPE
      (scenarioSlice 0) (scenarioSlice 1) (mask_literal 2233 2 4) (mask_literal 2326 2 4)
      zeroLocals) 4 :=
  ⟨by decide,
    (driver_tri_state (scenarioSlice 0) (scenarioSlice 1) 2233 2326 4 zeroLocals 4).2.2.1
      (by decide)⟩

set_option maxRecDepth 100000 in
/-- The invariant of the driver depends on the macros: were both comparators set to `>`
(literals 256 and 512, no padding), a batch whose lane 0 holds the first byte 1 and whose
other lanes hold the first byte 2 would run the refine stage, and the masking would leave
lane 0 of predicate 1 with none of equal, less, greater set. -/
theorem tri_state_lost_with_other_macros :
    avx_iszero (aggEqual Comparator.kGreater Comparator.kGreater Bitwise.kAnd mixedSlice
      (mask_literal 256 2 0) (mask_literal 512 2 0) zeroLocals) = false ∧
    ¬ triState (maskedMasks_1 Comparator.kGreater Comparator.kGreater Bitwise.kAnd mixedSlice
      (mask_literal 256 2 0) (mask_literal 512 2 0) zeroLocals) 0 := by
  decide

/-! ### Pending lanes and the aggregate -/

theorem failBit_and_equal (CMP : Comparator) (c L : Nat) :
    (failBit CMP c L && decide (c = L)) = false := by
  by_cases h : c = L
  · subst h; rw [failBit_of_eq]; rfl
  · simp [h]

theorem successBit_and_equal (CMP : Comparator) (c L : Nat) :
    (successBit CMP c L && decide (c = L)) = false := by
  by_cases h : c = L
  · subst h; rw [successBit_of_eq]; rfl
  · simp [h]

/-- C21. Meaning of the aggregate pending mask: for every pair of comparator kinds and all
byte-slice inputs, when the (equal, success, fail) masks of both predicates are the
outputs of `computeKernelWithMask_FIRST`, or of `computeKernelWithMask` applied any number
of times from such a state, the `agg_equal` that `computeForEarlyStop<kAnd>` returns is
NOT fail1 AND NOT fail2 AND (equal1 OR equal2): a lane is pending exactly when neither
predicate has failed and at least one is undecided; dually `computeForEarlyStop<kOr>`
returns agg_equal = NOT success1 AND NOT success2 AND (equal1 OR equal2). -/
theorem agg_equal_meaning (CMP1 CMP2 : Comparator) (d1 l1 d2 l2 : AvxUnit)
    (rest1 rest2 : List (AvxUnit × AvxUnit)) (m1 m2 : KernelMasks) (out : AggMasks) :
    (computeForEarlyStop Bitwise.kAnd
      (kernelChain CMP1 d1 l1 rest1 m1).mask_equal
      (kernelChain CMP1 d1 l1 rest1 m1).mask_success
      (kernelChain CMP1 d1 l1 rest1 m1).mask_fail
      (kernelChain CMP2 d2 l2 rest2 m2).mask_equal
      (kernelChain CMP2 d2 l2 rest2 m2).mask_success
      (kernelChain CMP2 d2 l2 rest2 m2).mask_fail out).output_equal =
      avx_and
        (avx_and (avx_not (kernelChain CMP1 d1 l1 rest1 m1).mask_fail)
          (avx_not (kernelChain CMP2 d2 l2 rest2 m2).mask_fail))
        (avx_or (kernelChain CMP1 d1 l1 rest1 m1).mask_equal
          (kernelChain CMP2 d2 l2 rest2 m2).mask_equal) ∧
    (computeForEarlyStop Bitwise.kOr
      (kernelChain CMP1 d1 l1 rest1 m1).mask_equal
      (kernelChain CMP1 d1 l1 rest1 m1).mask_success
      (kernelChain CMP1 d1 l1 rest1 m1).mask_fail
      (kernelChain CMP2 d2 l2 rest2 m2).mask_equal
      (kernelChain CMP2 d2 l2 rest2 m2).mask_success
      (kernelChain CMP2 d2 l2 rest2 m2).mask_fail out).output_equal =
      avx_and
        (avx_and (avx_not (kernelChain CMP1 d1 l1 rest1 m1).mask_success)
          (avx_not (kernelChain CMP2 d2 l2 rest2 m2).mask_success))
        (avx_or (kernelChain CMP1 d1 l1 rest1 m1).mask_equal
          (kernelChain CMP2 d2 l2 rest2 m2).mask_equal) := by
  constructor <;>
  · apply AvxUnit.ext_bit
    intro i j hj
    obtain ⟨e1, -, s1, f1⟩ := chainInv_chain CMP1 d1 l1 rest1 m1 i j hj
    obtain ⟨e2, -, s2, f2⟩ := chainInv_chain CMP2 d2 l2 rest2 m2 i j hj
    have x1 := failBit_and_equal CMP1 (laneCode (d1 :: rest1.map Prod.fst) i)
      (laneCode (l1 :: rest1.map Prod.snd) i)
    have x2 := failBit_and_equal CMP2 (laneCode (d2 :: rest2.map Prod.fst) i)
      (laneCode (l2 :: rest2.map Prod.snd) i)
    have y1 := successBit_and_equal CMP1 (laneCode (d1 :: rest1.map Prod.fst) i)
      (laneCode (l1 :: rest1.map Prod.snd) i)
    have y2 := successBit_and_equal CMP2 (laneCode (d2 :: rest2.map Prod.fst) i)
      (laneCode (l2 :: rest2.map Prod.snd) i)
    rw [← e1, ← f1] at x1
    rw [← e2, ← f2] at x2
    rw [← e1, ← s1] at y1
    rw [← e2, ← s2] at y2
    simp only [computeForEarlyStop, bit_and, bit_or, bit_andnot _ _ _ hj, bit_not _ _ hj]
    revert x1 x2 y1 y2
    cases (kernelChain CMP1 d1 l1 rest1 m1).mask_equal.bit i j <;>
      cases (kernelChain CMP1 d1 l1 rest1 m1).mask_fail.bit i j <;>
      cases (kernelChain CMP1 d1 l1 rest1 m1).mask_success.bit i j <;>
      cases (kernelChain CMP2 d2 l2 rest2 m2).mask_equal.bit i j <;>
      cases (kernelChain CMP2 d2 l2 rest2 m2).mask_fail.bit i j <;>
      cases (kernelChain CMP2 d2 l2 rest2 m2).mask_success.bit i j <;> simp

/-- C22. Refining a fully decided state is a no-op: for every comparator kind, every
(less, greater) and every pair of byte-slice vectors, if `mask_equal` is all zero on entry
then `computeKernelWithMask` returns less, greater and equal unchanged, so
`computeMask_one_predicate` gives the same result vector whether or not the refinement
call is made. -/
theorem refine_decided_noop (CMP : Comparator) (d l : AvxUnit) (m : KernelMasks)
    (h : m.mask_equal = avx_zero) :
    (computeKernelWithMask CMP d l m).mask_less = m.mask_less ∧
    (computeKernelWithMask CMP d l m).mask_greater = m.mask_greater ∧
    (computeKernelWithMask CMP d l m).mask_equal = m.mask_equal ∧
    computeMask_one_predicate CMP (computeKernelWithMask CMP d l m).mask_equal
        (computeKernelWithMask CMP d l m).mask_greater
        (computeKernelWithMask CMP d l m).mask_less =
      computeMask_one_predicate CMP m.mask_equal m.mask_greater m.mask_less := by
  have hz : ∀ x : AvxUnit, avx_and avx_zero x = avx_zero := by
    intro x
    apply AvxUnit.ext_bit
    intro i j _
    simp
  have ho : ∀ x : AvxUnit, avx_or x avx_zero = x := by
    intro x
    apply AvxUnit.ext_bit
    intro i j _
    simp
  have h1 : (computeKernelWithMask CMP d l m).mask_less = m.mask_less := by
    cases CMP <;> simp [computeKernelWithMask, h, hz, ho]
  have h2 : (computeKernelWithMask CMP d l m).mask_greater = m.mask_greater := by
    cases CMP <;> simp [computeKernelWithMask, h, hz, ho]
  have h3 : (computeKernelWithMask CMP d l m).mask_equal = m.mask_equal := by
    cases CMP <;> simp [computeKernelWithMask, h, hz]
  exact ⟨h1, h2, h3, by rw [h1, h2, h3]⟩

/-- Witness of `refine_decided_noop`: comparator `<`, a state decided as less, data byte 1
against literal byte 2. -/
theorem refine_decided_noop_witness :
    ({ zeroMasks with mask_less := avx_ones } : KernelMasks).mask_equal = avx_zero ∧
    (computeKernelWithMask Comparator.kLess (constUnit 1) (constUnit 2)
      { zeroMasks with mask_less := avx_ones }).mask_less = avx_ones ∧
    computeMask_one_predicate Comparator.kLess
        (computeKernelWithMask Comparator.kLess (constUnit 1) (constUnit 2)
          { zeroMasks with mask_less := avx_ones }).mask_equal
        (computeKernelWithMask Comparator.kLess (constUnit 1) (constUnit 2)
          { zeroMasks with mask_less := avx_ones }).mask_greater
        (computeKernelWithMask Comparator.kLess (constUnit 1) (constUnit 2)
          { zeroMasks with mask_less := avx_ones }).mask_less =
      computeMask_one_predicate Comparator.kLess avx_zero avx_zero avx_ones :=
  ⟨rfl,
    (refine_decided_noop Comparator.kLess (constUnit 1) (constUnit 2)
      { zeroMasks with mask_less := avx_ones } rfl).1,
    (refine_decided_noop Comparator.kLess (constUnit 1) (constUnit 2)
      { zeroMasks with mask_less := avx_ones } rfl).2.2.2⟩

theorem pendingIffEqual_of_exactlyOne {e s f : AvxUnit} {i : Fin 32}
    (h : laneExactlyOne e s f i) : pendingIffEqual e s f i := by
  unfold pendingIffEqual
  rcases h with ⟨h1, h2, h3⟩ | ⟨h1, h2, h3⟩ | ⟨h1, h2, h3⟩ <;> simp [h1, h2, h3]

theorem exactlyOne_swap {e l g : AvxUnit} {i : Fin 32} (h : laneExactlyOne e l g i) :
    laneExactlyOne e g l i := by
  rcases h with ⟨h1, h2, h3⟩ | ⟨h1, h2, h3⟩ | ⟨h1, h2, h3⟩
  · exact Or.inl ⟨h1, h3, h2⟩
  · exact Or.inr (Or.inr ⟨h1, h3, h2⟩)
  · exact Or.inr (Or.inl ⟨h1, h3, h2⟩)

theorem lane_not (a : AvxUnit) (i : Fin 32) : (avx_not a i).val = (a i).val ^^^ 255 := rfl

theorem lane_andnot (a b : AvxUnit) (i : Fin 32) :
    (avx_andnot a b i).val = ((a i).val ^^^ 255) &&& (b i).val := rfl

theorem lane_zero (i : Fin 32) : (avx_zero i).val = 0 := rfl

theorem exactlyOne_val (e l g : AvxUnit) (i : Fin 32) :
    laneExactlyOne e l g i ↔
      ((e i).val = 255 ∧ (l i).val = 0 ∧ (g i).val = 0) ∨
      ((e i).val = 0 ∧ (l i).val = 255 ∧ (g i).val = 0) ∨
      ((e i).val = 0 ∧ (l i).val = 0 ∧ (g i).val = 255) := by
  unfold laneExactlyOne
  simp only [Fin.ext_iff]
  rfl

theorem lane_01_val (a : AvxUnit) (i : Fin 32) :
    (a i = 0 ∨ a i = 255) ↔ ((a i).val = 0 ∨ (a i).val = 255) := by
  simp only [Fin.ext_iff]
  rfl

theorem exactlyOne_not_fail {a : AvxUnit} {i : Fin 32} (h : a i = 0 ∨ a i = 255) :
    laneExactlyOne a avx_zero (avx_not a) i := by
  rw [lane_01_val] at h
  rw [exactlyOne_val]
  simp only [lane_not, lane_zero]
  rcases h with h | h <;> simp [h]

theorem exactlyOne_not_success {a : AvxUnit} {i : Fin 32} (h : a i = 0 ∨ a i = 255) :
    laneExactlyOne a (avx_not a) avx_zero i :=
  exactlyOne_swap (exactlyOne_not_fail h)

theorem lane_01_of_exactlyOne {e l g : AvxUnit} {i : Fin 32} (h : laneExactlyOne e l g i) :
    e i = 0 ∨ e i = 255 := by
  rcases h with ⟨h1, -, -⟩ | ⟨h1, -, -⟩ | ⟨h1, -, -⟩
  · exact Or.inr h1
  · exact Or.inl h1
  · exact Or.inl h1

theorem lane_01_and {a b : AvxUnit} {i : Fin 32} (ha : a i = 0 ∨ a i = 255)
    (hb : b i = 0 ∨ b i = 255) : avx_and a b i = 0 ∨ avx_and a b i = 255 := by
  rw [lane_01_val] at ha hb ⊢
  simp only [lane_and]
  rcases ha with ha | ha <;> rcases hb with hb | hb <;> simp [ha, hb]

/-- The (equal, success, fail) masks of the first-slice kernel have exactly one set in
every lane. -/
theorem first_pending_partition (CMP : Comparator) (d l : AvxUnit) (m : KernelMasks)
    (i : Fin 32) :
    laneExactlyOne (computeKernelWithMask_FIRST CMP d l m).mask_equal
      (computeKernelWithMask_FIRST CMP d l m).mask_success
      (computeKernelWithMask_FIRST CMP d l m).mask_fail i := by
  have hc := cmp_lanes d l i
  have h01 := lane_01_of_exactlyOne hc
  cases CMP
  case kEqual => exact exactlyOne_not_fail h01
  case kInequal => exact exactlyOne_not_success h01
  case kLess => exact hc
  case kLessEqual => exact hc
  case kGreater => exact exactlyOne_swap hc
  case kGreaterEqual => exact exactlyOne_swap hc

/-- The (equal, success, fail) masks of the refinement kernel have exactly one set in a
lane in which the incoming (equal, less, greater) have exactly one set. -/
theorem refine_pending_partition (CMP : Comparator) (d l : AvxUnit) (m : KernelMasks)
    (i : Fin 32) (h : laneExactlyOne m.mask_equal m.mask_less m.mask_greater i) :
    laneExactlyOne (computeKernelWithMask CMP d l m).mask_equal
      (computeKernelWithMask CMP d l m).mask_success
      (computeKernelWithMask CMP d l m).mask_fail i := by
  have hc := cmp_lanes d l i
  have h01 := lane_01_and (lane_01_of_exactlyOne h) (lane_01_of_exactlyOne hc)
  have hr := refine_partition_aux _ _ _ _ _ _ i h hc
  cases CMP
  case kEqual => exact exactlyOne_not_fail h01
  case kInequal => exact exactlyOne_not_success h01
  case kLess => exact hr
  case kLessEqual => exact hr
  case kGreater => exact exactlyOne_swap hr
  case kGreaterEqual => exact exactlyOne_swap hr

/-- C23. Pending lanes are exactly the equal lanes: for every comparator kind and all
byte-slice inputs, the (equal, success, fail) masks returned by
`computeKernelWithMask_FIRST`, and those returned by `computeKernelWithMask` in a lane in
which its incoming (equal, less, greater) have exactly one set, have exactly one of the
three set in the lane: success and fail are never both set, and neither success nor fail
is set if and only if equal is set. -/
theorem pending_iff_equal (CMP : Comparator) (d l : AvxUnit) (m : KernelMasks) (i : Fin 32) :
    (laneExactlyOne (computeKernelWithMask_FIRST CMP d l m).mask_equal
        (computeKernelWithMask_FIRST CMP d l m).mask_success
        (computeKernelWithMask_FIRST CMP d l m).mask_fail i ∧
      pendingIffEqual (computeKernelWithMask_FIRST CMP d l m).mask_equal
        (computeKernelWithMask_FIRST CMP d l m).mask_success
        (computeKernelWithMask_FIRST CMP d l m).mask_fail i) ∧
    (laneExactlyOne m.mask_equal m.mask_less m.mask_greater i →
      laneExactlyOne (computeKernelWithMask CMP d l m).mask_equal
        (computeKernelWithMask CMP d l m).mask_success
        (computeKernelWithMask CMP d l m).mask_fail i ∧
      pendingIffEqual (computeKernelWithMask CMP d l m).mask_equal
        (computeKernelWithMask CMP d l m).mask_success
        (computeKernelWithMask CMP d l m).mask_fail i) :=
  ⟨⟨first_pending_partition CMP d l m i,
      pendingIffEqual_of_exactlyOne (first_pending_partition CMP d l m i)⟩,
    fun h => ⟨refine_pending_partition CMP d l m i h,
      pendingIffEqual_of_exactlyOne (refine_pending_partition CMP d l m i h)⟩⟩

/-- Witness of `pending_iff_equal`: comparator `=`, an undecided state, data byte 1 against
literal byte 2; the refinement kernel marks the lane as failed. -/
theorem pending_iff_equal_witness :
    laneExactlyOne avx_ones avx_zero avx_zero 0 ∧
    pendingIffEqual
      (computeKernelWithMask Comparator.kEqual (constUnit 1) (constUnit 2)
        { zeroMasks with mask_equal := avx_ones }).mask_equal
      (computeKernelWithMask Comparator.kEqual (constUnit 1) (constUnit 2)
        { zeroMasks with mask_equal := avx_ones }).mask_success
      (computeKernelWithMask Comparator.kEqual (constUnit 1) (constUnit 2)
        { zeroMasks with mask_equal := avx_ones }).mask_fail 0 :=
  ⟨ones_zero_zero_exactlyOne 0,
    ((pending_iff_equal Comparator.kEqual (constUnit 1) (constUnit 2)
      { zeroMasks with mask_equal := avx_ones } 0).2 (ones_zero_zero_exactlyOne 0)).2⟩

theorem aggregate_partition_aux (OP : Bitwise) (hOP : OP = Bitwise.kAnd ∨ OP = Bitwise.kOr)
    (e1 s1 f1 e2 s2 f2 : AvxUnit) (out : AggMasks) (i : Fin 32)
    (h1 : laneExactlyOne e1 s1 f1 i) (h2 : laneExactlyOne e2 s2 f2 i) :
    laneExactlyOne (computeForEarlyStop OP e1 s1 f1 e2 s2 f2 out).output_equal
      (computeForEarlyStop OP e1 s1 f1 e2 s2 f2 out).output_success
      (computeForEarlyStop OP e1 s1 f1 e2 s2 f2 out).output_fail i := by
  rw [exactlyOne_val] at *
  rcases hOP with rfl | rfl <;>
  · simp only [computeForEarlyStop, lane_and, lane_or, lane_andnot]
    rcases h1 with ⟨a1, a2, a3⟩ | ⟨a1, a2, a3⟩ | ⟨a1, a2, a3⟩ <;>
    rcases h2 with ⟨b1, b2, b3⟩ | ⟨b1, b2, b3⟩ | ⟨b1, b2, b3⟩ <;>
    simp [a1, a2, a3, b1, b2, b3]

/-- C26. The aggregator preserves the pending/success/fail partition: for OP in {kAnd,
kOr}, if in every lane each of the two input triples (equal, success, fail) has exactly
one set, then in every lane the output triple (agg_equal, agg_success, agg_fail) of
`computeForEarlyStop<OP>` has exactly one set, so the output can be fed back as an input
when more than two predicates are folded. -/
theorem aggregate_partition (e1 s1 f1 e2 s2 f2 : AvxUnit) (out : AggMasks)
    (h1 : ∀ i, laneExactlyOne e1 s1 f1 i) (h2 : ∀ i, laneExactlyOne e2 s2 f2 i) :
    (∀ i, laneExactlyOne
      (computeForEarlyStop Bitwise.kAnd e1 s1 f1 e2 s2 f2 out).output_equal
      (computeForEarlyStop Bitwise.kAnd e1 s1 f1 e2 s2 f2 out).output_success
      (computeForEarlyStop Bitwise.kAnd e1 s1 f1 e2 s2 f2 out).output_fail i) ∧
    (∀ i, laneExactlyOne
      (computeForEarlyStop Bitwise.kOr e1 s1 f1 e2 s2 f2 out).output_equal
      (computeForEarlyStop Bitwise.kOr e1 s1 f1 e2 s2 f2 out).output_success
      (computeForEarlyStop Bitwise.kOr e1 s1 f1 e2 s2 f2 out).output_fail i) :=
  ⟨fun i => aggregate_partition_aux _ (Or.inl rfl) e1 s1 f1 e2 s2 f2 out i (h1 i) (h2 i),
    fun i => aggregate_partition_aux _ (Or.inr rfl) e1 s1 f1 e2 s2 f2 out i (h1 i) (h2 i)⟩

/-- Witness of `aggregate_partition`: predicate 1 pending in every lane, predicate 2
failed in every lane; under AND the aggregate is failed, under OR it is pending. -/
theorem aggregate_partition_witness :
    (∀ i, laneExactlyOne avx_ones avx_zero avx_zero i) ∧
    (∀ i, laneExactlyOne avx_zero avx_zero avx_ones i) ∧
    (∀ i, laneExactlyOne
      (computeForEarlyStop Bitwise.kAnd avx_ones avx_zero avx_zero avx_zero avx_zero avx_ones
        ⟨avx_zero, avx_zero, avx_zero⟩).output_equal
      (computeForEarlyStop Bitwise.kAnd avx_ones avx_zero avx_zero avx_zero avx_zero avx_ones
        ⟨avx_zero, avx_zero, avx_zero⟩).output_success
      (computeForEarlyStop Bitwise.kAnd avx_ones avx_zero avx_zero avx_zero avx_zero avx_ones
        ⟨avx_zero, avx_zero, avx_zero⟩).output_fail i) ∧
    (∀ i, laneExactlyOne
      (computeForEarlyStop Bitwise.kOr avx_ones avx_zero avx_zero avx_zero avx_zero avx_ones
        ⟨avx_zero, avx_zero, avx_zero⟩).output_equal
      (computeForEarlyStop Bitwise.kOr avx_ones avx_zero avx_zero avx_zero avx_zero avx_ones
        ⟨avx_zero, avx_zero, avx_zero⟩).output_success
      (computeForEarlyStop Bitwise.kOr avx_ones avx_zero avx_zero avx_zero avx_zero avx_ones
        ⟨avx_zero, avx_zero, avx_zero⟩).output_fail i) :=
  have hF : ∀ i, laneExactlyOne avx_zero avx_zero avx_ones i := fun _ =>
    Or.inr (Or.inr ⟨rfl, rfl, rfl⟩)
  ⟨ones_zero_zero_exactlyOne, hF,
    aggregate_partition avx_ones avx_zero avx_zero avx_zero avx_zero avx_ones
      ⟨avx_zero, avx_zero, avx_zero⟩ ones_zero_zero_exactlyOne hF⟩

/-! ### Fused and optimised variants of the kernels -/

/-- C28. Fused resolver equals resolver plus combiner: for every pair of comparator kinds,
every OP (in particular kAnd and kOr) and all input vectors, the output of
`computeFinalMask<CMP1, CMP2, OP>` equals `computeConjunctivePredicates<OP>` applied to
`computeMask_one_predicate<CMP1>(equal1, greater1, less1)` and
`computeMask_one_predicate<CMP2>(equal2, greater2, less2)`, the two-step form the scan
driver uses; for kAnd and kOr whatever the outputs held on entry. -/
theorem fused_resolver (CMP1 CMP2 : Comparator) (OP : Bitwise)
    (equal1 greater1 less1 equal2 greater2 less2 out out2 : AvxUnit) :
    computeFinalMask CMP1 CMP2 OP equal1 greater1 less1 equal2 greater2 less2 out =
      computeConjunctivePredicates OP (computeMask_one_predicate CMP1 equal1 greater1 less1)
        (computeMask_one_predicate CMP2 equal2 greater2 less2) out ∧
    computeFinalMask CMP1 CMP2 Bitwise.kAnd equal1 greater1 less1 equal2 greater2 less2 out =
      computeConjunctivePredicates Bitwise.kAnd
        (computeMask_one_predicate CMP1 equal1 greater1 less1)
        (computeMask_one_predicate CMP2 equal2 greater2 less2) out2 ∧
    computeFinalMask CMP1 CMP2 Bitwise.kOr equal1 greater1 less1 equal2 greater2 less2 out =
      computeConjunctivePredicates Bitwise.kOr
        (computeMask_one_predicate CMP1 equal1 greater1 less1)
        (computeMask_one_predicate CMP2 equal2 greater2 less2) out2 := by
  refine ⟨?_, ?_, ?_⟩
  · cases CMP1 <;> cases CMP2 <;> cases OP <;> rfl
  · cases CMP1 <;> cases CMP2 <;> rfl
  · cases CMP1 <;> cases CMP2 <;> rfl

/-- C29. The last-byte optimisation of `computeKernel` does not change the resolved result:
for every comparator kind, every incoming (less, greater, equal) and every pair of
byte-slice vectors, `computeMask_one_predicate<CMP>` applied to the state returned by
`computeKernel<CMP, true>` equals `computeMask_one_predicate<CMP>` applied to the state
returned by `computeKernel<CMP, false>` on the same inputs. -/
theorem last_byte_same_result (CMP : Comparator) (d l : AvxUnit) (m : TriMasks) :
    computeMask_one_predicate CMP (computeKernel CMP true d l m).mask_equal
        (computeKernel CMP true d l m).mask_greater (computeKernel CMP true d l m).mask_less =
      computeMask_one_predicate CMP (computeKernel CMP false d l m).mask_equal
        (computeKernel CMP false d l m).mask_greater
        (computeKernel CMP false d l m).mask_less := by
  cases CMP <;> rfl

/-! ### Packing of the result bits -/

theorem movemask_lt (r : AvxUnit) : mm256_movemask_epi8 r < 2 ^ 32 := by
  apply Nat.lt_pow_two_of_testBit
  intro t ht
  rw [movemask_testBit]
  unfold laneMsb
  rw [dif_neg (by omega)]

theorem word_eq (r0 r1 : AvxUnit) :
    ((0 ||| (mm256_movemask_epi8 r0 <<< 0) % 2 ^ 64) |||
      (mm256_movemask_epi8 r1 <<< 32) % 2 ^ 64) =
    mm256_movemask_epi8 r0 ||| mm256_movemask_epi8 r1 <<< 32 := by
  have h0 := movemask_lt r0
  have h1 := movemask_lt r1
  have e0 : (mm256_movemask_epi8 r0 <<< 0) % 2 ^ 64 = mm256_movemask_epi8 r0 := by
    rw [Nat.shiftLeft_zero]
    exact Nat.mod_eq_of_lt (by omega)
  have e1 : (mm256_movemask_epi8 r1 <<< 32) % 2 ^ 64 = mm256_movemask_epi8 r1 <<< 32 := by
    apply Nat.mod_eq_of_lt
    rw [Nat.shiftLeft_eq]
    omega
  rw [e0, e1, Nat.zero_or]

/-- The word loop from word `k` on, for every combinator: every word `w` in `k .. nW - 1` of
the returned bitmap is the word that the batch loop computes for the 64 tuples starting at
`64 * w`. -/
theorem wordLoop_words (CMP1 CMP2 : Comparator) (OP : Bitwise)
    (uninit : Nat → BatchLocals) (len : Nat)
    (data_1 : List (List ByteUnit)) (lit1 lit2 : List AvxUnit)
    (h0 : 64 * ((len + 63) / 64) ≤ (data_1.getD 0 []).length)
    (h1 : 64 * ((len + 63) / 64) ≤ (data_1.getD 1 []).length)
    (hsz : 64 * ((len + 63) / 64) < 2 ^ 64) :
    ∀ (n k fuel : Nat) (bm : List Nat), k + n = (len + 63) / 64 → n + 1 ≤ fuel →
      (len + 63) / 64 ≤ bm.length →
      ∃ bm', wordLoop CMP1 CMP2 OP uninit len data_1 lit1 lit2 fuel (64 * k) k bm = some bm' ∧
        (∀ w, w < k ∨ (len + 63) / 64 ≤ w → bm'.getD w 0 = bm.getD w 0) ∧
        (∀ w, k ≤ w → w < (len + 63) / 64 →
          batchLoop CMP1 CMP2 OP uninit data_1 lit1 lit2 (64 * w) 3 0 0 =
            some (bm'.getD w 0)) := by
  intro n
  induction n with
  | zero =>
    intro k fuel bm hk hf hbm
    obtain ⟨f, rfl⟩ : ∃ f, fuel = f + 1 := ⟨fuel - 1, by omega⟩
    have hnot : ¬ 64 * k < len := by omega
    refine ⟨bm, ?_, fun _ _ => rfl, fun w hw1 hw2 => ?_⟩
    · rw [wordLoop, if_neg hnot]
    · omega
  | succ n ih =>
    intro k fuel bm hk hf hbm
    obtain ⟨f, rfl⟩ : ∃ f, fuel = f + 1 := ⟨fuel - 1, by omega⟩
    have hlt : 64 * k < len := by omega
    obtain ⟨x, ex⟩ := batchLoop_total CMP1 CMP2 OP uninit data_1 lit1 lit2 (64 * k)
      (by omega) (by omega)
    have hst := storeWord_some bm k x (by omega)
    have hwrap : (64 * k + NUM_WORD_BITS) % 2 ^ 64 = 64 * (k + 1) := by
      rw [Nat.mod_eq_of_lt] <;> simp only [NUM_WORD_BITS] <;> omega
    obtain ⟨bm', e', hfr, hw⟩ := ih (k + 1) f (bm.set k x) (by omega) (by omega)
      (by rw [List.length_set]; exact hbm)
    refine ⟨bm', ?_, ?_, ?_⟩
    · rw [wordLoop, if_pos hlt, ex]
      simp only [Option.bind_eq_bind, Option.some_bind, hst, hwrap]
      exact e'
    · intro w hw'
      rw [hfr w (by omega)]
      have hne : k ≠ w := by omega
      simp only [List.getD_eq_getElem?_getD, List.getElem?_set_ne hne]
    · intro w hw1 hw2
      by_cases hwk : w = k
      · subst hwk
        have hx : bm'.getD w 0 = x := by
          rw [hfr w (by omega)]
          simp only [List.getD_eq_getElem?_getD]
          rw [List.getElem?_set_self (by omega)]
          rfl
        rw [hx, ex]
      · exact hw w (by omega) hw2

/-- The words of the returned bitmap, for every combinator: each bit of a written word is
the top bit of a lane of the result vector of one of the two batches of the word, and the
word is the OR of the two movemasks, the second shifted left by 32. -/
theorem Q15_packing_core (CMP1 CMP2 : Comparator) (OP : Bitwise)
    (uninit : Nat → BatchLocals) (bitmap : List Nat) (len : Nat)
    (data_1 : List (List ByteUnit))
    (literal_1 kNumBytesPerCode_1 kNumPaddingBits_1 literal_2 : Nat)
    (hp0 : 64 * ((len + 63) / 64) ≤ (data_1.getD 0 []).length)
    (hp1 : 64 * ((len + 63) / 64) ≤ (data_1.getD 1 []).length)
    (hsz : 64 * ((len + 63) / 64) < 2 ^ 64)
    (hbm : (len + 63) / 64 ≤ bitmap.length) :
    ∃ bitmap', Q15_cmp_with_literal_P_S CMP1 CMP2 OP uninit bitmap len data_1 literal_1
        kNumBytesPerCode_1 kNumPaddingBits_1 literal_2 = some bitmap' ∧
      ∀ w, w < (len + 63) / 64 →
        (∀ j, j < 64 →
          ∃ m_result, scanBatch CMP1 CMP2 OP data_1
              (mask_literal literal_1 2 kNumPaddingBits_1)
              (mask_literal literal_2 2 kNumPaddingBits_1) (64 * w + 32 * (j / 32))
              (uninit (64 * w + 32 * (j / 32))) = some m_result ∧
            (bitmap'.getD w 0).testBit j = m_result.bit (laneOf j) 7) ∧
        ∃ r0 r1,
          scanBatch CMP1 CMP2 OP data_1 (mask_literal literal_1 2 kNumPaddingBits_1)
            (mask_literal literal_2 2 kNumPaddingBits_1) (64 * w)
            (uninit (64 * w)) = some r0 ∧
          scanBatch CMP1 CMP2 OP data_1 (mask_literal literal_1 2 kNumPaddingBits_1)
            (mask_literal literal_2 2 kNumPaddingBits_1) (64 * w + 32)
            (uninit (64 * w + 32)) = some r1 ∧
          bitmap'.getD w 0 = mm256_movemask_epi8 r0 ||| mm256_movemask_epi8 r1 <<< 32 ∧
          mm256_movemask_epi8 r0 < 2 ^ 32 ∧ mm256_movemask_epi8 r1 < 2 ^ 32 ∧
          (∀ j, 32 ≤ j → (mm256_movemask_epi8 r0).testBit j = false) ∧
          (∀ j, j < 32 → (mm256_movemask_epi8 r1 <<< 32).testBit j = false) := by
  obtain ⟨bm', e, -, hw⟩ := wordLoop_words CMP1 CMP2 OP uninit len data_1
    (mask_literal literal_1 2 kNumPaddingBits_1) (mask_literal literal_2 2 kNumPaddingBits_1)
    hp0 hp1 hsz ((len + 63) / 64) 0 (len / 64 + 2) bitmap (by omega) (by omega) hbm
  refine ⟨bm', e, fun w hwlt => ?_⟩
  have hword := hw w (by omega) hwlt
  obtain ⟨r0, e0⟩ := scanBatch_total CMP1 CMP2 OP data_1
    (mask_literal literal_1 2 kNumPaddingBits_1) (mask_literal literal_2 2 kNumPaddingBits_1)
    (64 * w + 0) (uninit (64 * w + 0)) (by omega) (by omega)
  obtain ⟨r1, e1⟩ := scanBatch_total CMP1 CMP2 OP data_1
    (mask_literal literal_1 2 kNumPaddingBits_1) (mask_literal literal_2 2 kNumPaddingBits_1)
    (64 * w + 32) (uninit (64 * w + 32)) (by omega) (by omega)
  rw [batchLoop_unroll, e0, e1] at hword
  simp only [Option.some_bind, Option.some.injEq] at hword
  rw [Nat.add_zero] at e0
  constructor
  · intro j hj
    rw [← hword, word_testBit r0 r1 j hj]
    by_cases h : j < 32
    · have hd : j / 32 = 0 := by omega
      have hl : laneOf j = ⟨j, h⟩ := Fin.ext (Nat.mod_eq_of_lt h)
      refine ⟨r0, ?_, ?_⟩
      · rw [hd]; exact e0
      · rw [if_pos h, hl]; simp [laneMsb, h]
    · have hd : j / 32 = 1 := by omega
      have h' : j - 32 < 32 := by omega
      have hl : laneOf j = ⟨j - 32, h'⟩ := Fin.ext (by simp only [laneOf]; omega)
      refine ⟨r1, ?_, ?_⟩
      · rw [hd]; exact e1
      · rw [if_neg h, hl]; simp [laneMsb, h']
  · refine ⟨r0, r1, e0, e1, ?_, movemask_lt r0, movemask_lt r1, ?_, ?_⟩
    · rw [← hword, word_eq]
    · intro j hj
      rw [movemask_testBit]
      unfold laneMsb
      rw [dif_neg (by omega)]
    · intro j hj
      rw [Nat.testBit_shiftLeft]
      simp only [ge_iff_le, Bool.and_eq_false_imp, decide_eq_true_eq]
      intro h
      omega

/-- C24. Bit packing order: for every bitmap word index `w` written by the scan and every
`j` in 0..63, bit `j` of `bitmap[w]` (bit 0 the least significant) is the most significant
bit of byte lane `j mod 32` of the result vector `m_result` of the batch that starts at
tuple `64*w + 32*(j div 32)`; the word is the movemask of the first batch OR the movemask
of the second batch shifted left by 32, both movemasks are below `2^32`, so the first
batch never sets the bits 32..63 and the second never sets the bits 0..31. The planes 0
and 1 hold the tuple count rounded up to 64, the bitmap has a word for every 64 tuples and
the rounded tuple count is a `size_t` value. -/
theorem bit_packing_order (CMP1 CMP2 : Comparator) (OP : Bitwise)
    (uninit : Nat → BatchLocals) (bitmap : List Nat) (len : Nat)
    (data_1 : List (List ByteUnit))
    (literal_1 kNumBytesPerCode_1 kNumPaddingBits_1 literal_2 : Nat)
    (hp0 : 64 * ((len + 63) / 64) ≤ (data_1.getD 0 []).length)
    (hp1 : 64 * ((len + 63) / 64) ≤ (data_1.getD 1 []).length)
    (hsz : 64 * ((len + 63) / 64) < 2 ^ 64)
    (hbm : (len + 63) / 64 ≤ bitmap.length) :
    ∃ bitmap', Q15_cmp_with_literal_P_S CMP1 CMP2 OP uninit bitmap len data_1 literal_1
        kNumBytesPerCode_1 kNumPaddingBits_1 literal_2 = some bitmap' ∧
      ∀ w, w < (len + 63) / 64 →
        (∀ j, j < 64 →
          ∃ m_result, scanBatch CMP1 CMP2 OP data_1
              (mask_literal literal_1 2 kNumPaddingBits_1)
              (mask_literal literal_2 2 kNumPaddingBits_1) (64 * w + 32 * (j / 32))
              (uninit (64 * w + 32 * (j / 32))) = some m_result ∧
            (bitmap'.getD w 0).testBit j = m_result.bit (laneOf j) 7) ∧
        ∃ r0 r1,
          scanBatch CMP1 CMP2 OP data_1 (mask_literal literal_1 2 kNumPaddingBits_1)
            (mask_literal literal_2 2 kNumPaddingBits_1) (64 * w)
            (uninit (64 * w)) = some r0 ∧
          scanBatch CMP1 CMP2 OP data_1 (mask_literal literal_1 2 kNumPaddingBits_1)
            (mask_literal literal_2 2 kNumPaddingBits_1) (64 * w + 32)
            (uninit (64 * w + 32)) = some r1 ∧
          bitmap'.getD w 0 = mm256_movemask_epi8 r0 ||| mm256_movemask_epi8 r1 <<< 32 ∧
          mm256_movemask_epi8 r0 < 2 ^ 32 ∧ mm256_movemask_epi8 r1 < 2 ^ 32 ∧
          (∀ j, 32 ≤ j → (mm256_movemask_epi8 r0).testBit j = false) ∧
          (∀ j, j < 32 → (mm256_movemask_epi8 r1 <<< 32).testBit j = false) :=
  Q15_packing_core CMP1 CMP2 OP uninit bitmap len data_1 literal_1 kNumBytesPerCode_1
    kNumPaddingBits_1 literal_2 hp0 hp1 hsz hbm

set_option maxRecDepth 100000 in
/-- Witness of `bit_packing_order`: the concrete scenario of the shipped run. -/
theorem bit_packing_order_witness :
    64 * ((6 + 63) / 64) ≤ (scenarioPlanes.getD 0 []).length ∧
    64 * ((6 + 63) / 64) ≤ (scenarioPlanes.getD 1 []).length ∧
    64 * ((6 + 63) / 64) < 2 ^ 64 ∧ (6 + 63) / 64 ≤ [0].length ∧
    ∃ bitmap', Q15_cmp_with_literal_P_S Comparator.kGreater Comparator.kLess Bitwise.kAnd
        (fun _ => zeroLocals) [0] 6 scenarioPlanes 2233 2 4 2326 = some bitmap' ∧
      ∃ m_result, scanBatch Comparator.kGreater Comparator.kLess Bitwise.kAnd scenarioPlanes
          (mask_literal 2233 2 4) (mask_literal 2326 2 4) (64 * 0 + 32 * (3 / 32))
          zeroLocals = some m_result ∧
        (bitmap'.getD 0 0).testBit 3 = m_result.bit (laneOf 3) 7 :=
  ⟨by decide, by decide, by decide, by decide,
    (bit_packing_order Comparator.kGreater Comparator.kLess Bitwise.kAnd
      (fun _ => zeroLocals) [0] 6 scenarioPlanes 2233 2 4 2326
      (by decide) (by decide) (by decide) (by decide)).elim
      fun bm' h => ⟨bm', h.1, (h.2 0 (by decide)).1 3 (by decide)⟩⟩

/-! ### Lane independence -/

theorem scanBatch_passthrough (CMP1 CMP2 : Comparator) (OP : Bitwise)
    (hOP : ¬ (OP = Bitwise.kAnd ∨ OP = Bitwise.kOr)) (data_1 : List (List ByteUnit))
    (lit1 lit2 : List AvxUnit) (pos : Nat) (u : BatchLocals) (r : AvxUnit)
    (h : scanBatch CMP1 CMP2 OP data_1 lit1 lit2 pos u = some r) : r = u.m_result := by
  rw [scanBatch_eq] at h
  cases h0 : avx_load (data_1.getD 0 []) pos with
  | none => rw [h0] at h; exact absurd h (by simp)
  | some d0 =>
    rw [h0] at h
    simp only [Option.some_bind] at h
    have hs : skippedResult CMP1 CMP2 OP d0 lit1 lit2 u = u.m_result := by
      cases OP with
      | kAnd => exact absurd (Or.inl rfl) hOP
      | kOr => exact absurd (Or.inr rfl) hOP
      | kSet => rfl
      | kNeg => rfl
    by_cases hz : avx_iszero (aggEqual CMP1 CMP2 OP d0 lit1 lit2 u) = true
    · rw [if_pos hz] at h
      rw [← Option.some.inj h, hs]
    · rw [if_neg hz] at h
      cases h1 : avx_load (data_1.getD 1 []) pos with
      | none => rw [h1] at h; exact absurd h (by simp)
      | some d1 =>
        rw [h1] at h
        simp only [Option.some_bind] at h
        rw [← Option.some.inj h]
        cases OP with
        | kAnd => exact absurd (Or.inl rfl) hOP
        | kOr => exact absurd (Or.inr rfl) hOP
        | kSet => rfl
        | kNeg => rfl

theorem tupleCode_congr (data_1 data_2 : List (List ByteUnit)) (t : Nat)
    (e0 : (data_1.getD 0 []).getD t 0 = (data_2.getD 0 []).getD t 0)
    (e1 : (data_1.getD 1 []).getD t 0 = (data_2.getD 1 []).getD t 0) :
    tupleCode data_1 t = tupleCode data_2 t := by
  unfold tupleCode
  rw [e0, e1]

/-- C25. Lane independence of the scan: for every tuple index `t < len` and any two
columns whose byte planes 0 and 1 agree at index `t` (the columns may differ at every other
index, the padding tuples and the other 31 lanes of the batch of `t` included), the two runs
of `Q15_cmp_with_literal_P_S` with the same literals, comparators and combinator both
return a bitmap, and bit `t` is the same in both. For AND and OR the two runs may start from
different uninitialised locals; for the other two values of the combinator enumeration the
result vector is the uninitialised local itself, so the runs start from the same locals.
Both columns hold the tuple count rounded up to 64 in planes 0 and 1, both bitmaps have a
word for every 64 tuples and the rounded tuple count is a `size_t` value. -/
theorem lane_independence (CMP1 CMP2 : Comparator) (OP : Bitwise)
    (uninit uninit_2 : Nat → BatchLocals) (bitmap bitmap_2 : List Nat) (len : Nat)
    (data_1 data_2 : List (List ByteUnit))
    (literal_1 kNumBytesPerCode_1 kNumPaddingBits_1 literal_2 t : Nat)
    (hu : (OP = Bitwise.kAnd ∨ OP = Bitwise.kOr) ∨ uninit_2 = uninit)
    (ht : t < len)
    (hp0 : 64 * ((len + 63) / 64) ≤ (data_1.getD 0 []).length)
    (hp1 : 64 * ((len + 63) / 64) ≤ (data_1.getD 1 []).length)
    (hq0 : 64 * ((len + 63) / 64) ≤ (data_2.getD 0 []).length)
    (hq1 : 64 * ((len + 63) / 64) ≤ (data_2.getD 1 []).length)
    (hsz : 64 * ((len + 63) / 64) < 2 ^ 64)
    (hbm : (len + 63) / 64 ≤ bitmap.length) (hbm2 : (len + 63) / 64 ≤ bitmap_2.length)
    (e0 : (data_1.getD 0 []).getD t 0 = (data_2.getD 0 []).getD t 0)
    (e1 : (data_1.getD 1 []).getD t 0 = (data_2.getD 1 []).getD t 0) :
    ∃ r r2, Q15_cmp_with_literal_P_S CMP1 CMP2 OP uninit bitmap len data_1 literal_1
        kNumBytesPerCode_1 kNumPaddingBits_1 literal_2 = some r ∧
      Q15_cmp_with_literal_P_S CMP1 CMP2 OP uninit_2 bitmap_2 len data_2 literal_1
        kNumBytesPerCode_1 kNumPaddingBits_1 literal_2 = some r2 ∧
      (r.getD (t / 64) 0).testBit (t % 64) = (r2.getD (t / 64) 0).testBit (t % 64) := by
  by_cases hOP : OP = Bitwise.kAnd ∨ OP = Bitwise.kOr
  · obtain ⟨r, e, -, -, hb⟩ := wordLoop_spec CMP1 CMP2 OP hOP uninit len data_1
      (mask_literal literal_1 2 kNumPaddingBits_1) (mask_literal literal_2 2 kNumPaddingBits_1)
      hp0 hp1 hsz ((len + 63) / 64) 0 (len / 64 + 2) bitmap (by omega) (by omega) hbm
    obtain ⟨r2, e2, -, -, hb2⟩ := wordLoop_spec CMP1 CMP2 OP hOP uninit_2 len data_2
      (mask_literal literal_1 2 kNumPaddingBits_1) (mask_literal literal_2 2 kNumPaddingBits_1)
      hq0 hq1 hsz ((len + 63) / 64) 0 (len / 64 + 2) bitmap_2 (by omega) (by omega) hbm2
    refine ⟨r, r2, e, e2, ?_⟩
    have b1 := hb t (by omega) (by omega)
    have b2 := hb2 t (by omega) (by omega)
    rw [tupleCode_congr data_1 data_2 t e0 e1, b2] at b1
    exact (Option.some.inj b1).symm
  · have hu2 : uninit_2 = uninit := hu.resolve_left hOP
    subst hu2
    obtain ⟨r, e, hb⟩ := Q15_packing_core CMP1 CMP2 OP uninit_2 bitmap len data_1 literal_1
      kNumBytesPerCode_1 kNumPaddingBits_1 literal_2 hp0 hp1 hsz hbm
    obtain ⟨r2, e2, hb2⟩ := Q15_packing_core CMP1 CMP2 OP uninit_2 bitmap_2 len data_2
      literal_1 kNumBytesPerCode_1 kNumPaddingBits_1 literal_2 hq0 hq1 hsz hbm2
    refine ⟨r, r2, e, e2, ?_⟩
    have hw : t / 64 < (len + 63) / 64 := by omega
    have hj : t % 64 < 64 := Nat.mod_lt _ (by decide)
    obtain ⟨m, em, bm⟩ := (hb (t / 64) hw).1 (t % 64) hj
    obtain ⟨m2, em2, bm2⟩ := (hb2 (t / 64) hw).1 (t % 64) hj
    rw [bm, bm2, scanBatch_passthrough CMP1 CMP2 OP hOP _ _ _ _ _ m em,
      scanBatch_passthrough CMP1 CMP2 OP hOP _ _ _ _ _ m2 em2]

set_option maxRecDepth 100000 in
/-- Witness of `lane_independence`: the scenario column and a column that agrees with it
at tuple 2 only. -/
theorem lane_independence_witness :
    otherPlanes ≠ scenarioPlanes ∧
    ∃ r r2, Q15_cmp_with_literal_P_S Comparator.kGreater Comparator.kLess Bitwise.kAnd
        (fun _ => zeroLocals) [0] 6 scenarioPlanes 2233 2 4 2326 = some r ∧
      Q15_cmp_with_literal_P_S Comparator.kGreater Comparator.kLess Bitwise.kAnd
        (fun _ => zeroLocals) [0] 6 otherPlanes 2233 2 4 2326 = some r2 ∧
      (r.getD (2 / 64) 0).testBit (2 % 64) = (r2.getD (2 / 64) 0).testBit (2 % 64) :=
  ⟨by decide,
    lane_independence Comparator.kGreater Comparator.kLess Bitwise.kAnd
      (fun _ => zeroLocals) (fun _ => zeroLocals) [0] [0] 6 scenarioPlanes otherPlanes
      2233 2 4 2326 2 (Or.inl (Or.inl rfl)) (by decide) (by decide) (by decide) (by decide)
      (by decide) (by decide) (by decide) (by decide) (by decide) (by decide)⟩

/-! ### Literals outside the code range -/

theorem mask_literal_trunc (p L L2 : Nat)
    (h : (L <<< p) % 2 ^ 16 = (L2 <<< p) % 2 ^ 16) :
    mask_literal L 2 p = mask_literal L2 2 p := by
  rw [mask_literal_two, mask_literal_two]
  have a : toByteUnit (((L <<< p) % 2 ^ 32) >>> 8) = toByteUnit (((L2 <<< p) % 2 ^ 32) >>> 8) := by
    apply Fin.ext
    simp only [toByteUnit, Nat.shiftRight_eq_div_pow]
    norm_num at h ⊢
    omega
  have b : toByteUnit ((L <<< p) % 2 ^ 32) = toByteUnit ((L2 <<< p) % 2 ^ 32) := by
    apply Fin.ext
    simp only [toByteUnit]
    norm_num at h ⊢
    omega
  rw [a, b]

/-- C27. Out-of-range literals are silently truncated: for every padding `p` (in
particular `p` in 0..7) and all literals `L`, `L2` (in particular 32-bit ones) with
`(L << p) mod 2^16 = (L2 << p) mod 2^16`, the literal preparation of
`Q15_cmp_with_literal_P_S` (two byte slices) produces identical literal vectors, so the
driver gives identical results for every column, comparator pair, combinator, bitmap and
tuple count, with the literal in either position; and the run returns a bitmap, without a
fault, for every literal, the ones with `L >= 2^(16 - p)` included, when planes 0 and 1 hold
the tuple count rounded up to 64, the bitmap has a word for every 64 tuples and the rounded
tuple count is a `size_t` value. -/
theorem literal_truncation (p L L2 : Nat)
    (h : (L <<< p) % 2 ^ 16 = (L2 <<< p) % 2 ^ 16) :
    mask_literal L 2 p = mask_literal L2 2 p ∧
    (∀ (CMP1 CMP2 : Comparator) (OP : Bitwise) (uninit : Nat → BatchLocals)
        (bitmap : List Nat) (len : Nat) (data_1 : List (List ByteUnit))
        (kNumBytesPerCode_1 other : Nat),
      Q15_cmp_with_literal_P_S CMP1 CMP2 OP uninit bitmap len data_1 L
          kNumBytesPerCode_1 p other =
        Q15_cmp_with_literal_P_S CMP1 CMP2 OP uninit bitmap len data_1 L2
          kNumBytesPerCode_1 p other ∧
      Q15_cmp_with_literal_P_S CMP1 CMP2 OP uninit bitmap len data_1 other
          kNumBytesPerCode_1 p L =
        Q15_cmp_with_literal_P_S CMP1 CMP2 OP uninit bitmap len data_1 other
          kNumBytesPerCode_1 p L2) ∧
    (∀ (CMP1 CMP2 : Comparator) (OP : Bitwise) (uninit : Nat → BatchLocals)
        (bitmap : List Nat) (len : Nat) (data_1 : List (List ByteUnit))
        (kNumBytesPerCode_1 other : Nat),
      64 * ((len + 63) / 64) ≤ (data_1.getD 0 []).length →
      64 * ((len + 63) / 64) ≤ (data_1.getD 1 []).length →
      64 * ((len + 63) / 64) < 2 ^ 64 → (len + 63) / 64 ≤ bitmap.length →
      ∃ r, Q15_cmp_with_literal_P_S CMP1 CMP2 OP uninit bitmap len data_1 L
          kNumBytesPerCode_1 p other = some r ∧
        Q15_cmp_with_literal_P_S CMP1 CMP2 OP uninit bitmap len data_1 L2
          kNumBytesPerCode_1 p other = some r) := by
  have hm := mask_literal_trunc p L L2 h
  have heq : ∀ (CMP1 CMP2 : Comparator) (OP : Bitwise) (uninit : Nat → BatchLocals)
      (bitmap : List Nat) (len : Nat) (data_1 : List (List ByteUnit))
      (kNumBytesPerCode_1 other : Nat),
      Q15_cmp_with_literal_P_S CMP1 CMP2 OP uninit bitmap len data_1 L
          kNumBytesPerCode_1 p other =
        Q15_cmp_with_literal_P_S CMP1 CMP2 OP uninit bitmap len data_1 L2
          kNumBytesPerCode_1 p other := by
    intro CMP1 CMP2 OP uninit bitmap len data_1 nb other
    simp only [Q15_cmp_with_literal_P_S, hm]
  refine ⟨hm, fun CMP1 CMP2 OP uninit bitmap len data_1 nb other => ⟨heq _ _ _ _ _ _ _ _ _, ?_⟩,
    fun CMP1 CMP2 OP uninit bitmap len data_1 nb other hp0 hp1 hsz hbm => ?_⟩
  · simp only [Q15_cmp_with_literal_P_S, hm]
  · obtain ⟨r, e, -⟩ := Q15_packing_core CMP1 CMP2 OP uninit bitmap len data_1 L nb p other
      hp0 hp1 hsz hbm
    exact ⟨r, e, (heq CMP1 CMP2 OP uninit bitmap len data_1 nb other) ▸ e⟩

set_option maxRecDepth 100000 in
/-- Witness of `literal_truncation`: padding 4, the literals 0 and 4096; 4096 is outside
the 12-bit code range and the run with it returns the bitmap of the run with 0. -/
theorem literal_truncation_witness :
    (0 <<< 4) % 2 ^ 16 = (4096 <<< 4) % 2 ^ 16 ∧ 4096 ≥ 2 ^ (16 - 4) ∧
    mask_literal 0 2 4 = mask_literal 4096 2 4 ∧
    Q15_cmp_with_literal_P_S Comparator.kGreater Comparator.kLess Bitwise.kAnd
        (fun _ => zeroLocals) [0] 6 scenarioPlanes 0 2 4 2326 =
      Q15_cmp_with_literal_P_S Comparator.kGreater Comparator.kLess Bitwise.kAnd
        (fun _ => zeroLocals) [0] 6 scenarioPlanes 4096 2 4 2326 :=
  ⟨by decide, by decide, (literal_truncation 4 0 4096 (by decide)).1,
    ((literal_truncation 4 0 4096 (by decide)).2.1 Comparator.kGreater Comparator.kLess
      Bitwise.kAnd (fun _ => zeroLocals) [0] 6 scenarioPlanes 2 2326).1⟩

end Q15
